import Mathlib

/-!
# Klatt formant synthesizer: embedding of `synthesizer.c`

The C `double` type is embedded as an arbitrary linearly ordered field `α`
(exact arithmetic); the definitions are computable and can be evaluated at
`α := ℚ`.  The three libm functions and `M_PI` are carried in a `LibM` record.
C `int` values are embedded as `Int` (signed overflow is undefined in C and is
outside the embedding), `unsigned int` as `Nat` reduced modulo `2 ^ 32`.
The process-wide globals of `synthesizer.c` become the record `Engine`, the
output buffer together with the write cursor become the record `Synth`.
-/

namespace Klatt

/-! ## Constants of `synthesizer.h` -/

/-- `#define SAMPLE_RATE 16000`. -/
def SAMPLE_RATE : Int := 16000

/-- `#define MAX_SAMPLES (SAMPLE_RATE * 5)`. -/
def MAX_SAMPLES : Int := SAMPLE_RATE * 5

/-- `#define MAX_AMPLITUDE 32767`. -/
def MAX_AMPLITUDE : Int := 32767

/-- `#define FRAME_PERIOD_MS 10`. -/
def FRAME_PERIOD_MS : Int := 10

/-- `#define FRAME_PERIOD_S (FRAME_PERIOD_MS / 1000.0)`. -/
def FRAME_PERIOD_S : ℚ := (FRAME_PERIOD_MS : ℚ) / 1000

/-- `UINT32_MAX` of `stdint.h`. -/
def UINT32_MAX : Nat := 4294967295

/-- Conversion of a floating value to a C integer: truncation toward zero. -/
def trunc {α : Type} [LinearOrderedField α] [FloorRing α] (x : α) : Int :=
  if 0 ≤ x then Int.floor x else Int.ceil x

/-- The value `(int)(SAMPLE_RATE * FRAME_PERIOD_S)` used as the frame length. -/
def num_frame_samples : Int := trunc ((SAMPLE_RATE : ℚ) * FRAME_PERIOD_S)

/-- The pieces of the C math library used by the engine. -/
structure LibM (α : Type) where
  /-- The constant `M_PI`. -/
  M_PI : α
  /-- The function `exp`. -/
  exp : α → α
  /-- The function `cos`. -/
  cos : α → α
  /-- The function `sin`. -/
  sin : α → α

/-! ## Data structures -/

/-- `PhonemeParams` of `phonemes.h`: the 17 parameters of a phoneme or frame. -/
structure PhonemeParams (α : Type) where
  F0 : α
  F1 : α
  B1 : α
  F2 : α
  B2 : α
  F3 : α
  B3 : α
  F4 : α
  B4 : α
  F5 : α
  B5 : α
  F6 : α
  B6 : α
  FN : α
  BN : α
  AF : α
  AN : α

/-- `Diphone` of `phonemes.h`; the two pointers to constant parameter sets are
embedded as the parameter sets themselves. -/
structure Diphone (α : Type) where
  name : String
  p1 : PhonemeParams α
  p2 : PhonemeParams α
  start_frames : Int
  transition_frames : Int
  end_frames : Int

/-- `KlattFilter` of `synthesizer.h`: a second-order resonator. -/
structure KlattFilter (α : Type) where
  frequency : α
  bandwidth : α
  radius : α
  angle : α
  a1 : α
  a2 : α
  y1 : α
  y2 : α

/-- The global variables of `synthesizer.c`. -/
structure Engine (α : Type) where
  glottal_pulse_phase : α
  glottal_pulse_last_sample : α
  random_seed : Nat
  f1 : KlattFilter α
  f2 : KlattFilter α
  f3 : KlattFilter α
  f4 : KlattFilter α
  f5 : KlattFilter α
  f6 : KlattFilter α
  fn_noise : KlattFilter α
  hp_a1 : α
  hp_b0 : α
  hp_b1 : α
  hp_y1 : α
  hp_x1 : α

/-- The memory reached through `audio_buffer` and the cursor `*current_sample`.
`cells i` is the content of `audio_buffer[i]`; `stores` logs every assignment
`audio_buffer[i] = v` that was executed, most recent first. -/
structure Synth (α : Type) where
  engine : Engine α
  cells : Int → α
  stores : List (Int × α)
  current_sample : Int

variable {α : Type} [LinearOrderedField α]

/-! ## Resonant filter -/

/-- `initialize_filter`: derive the coefficients and zero the history. -/
def initialize_filter (m : LibM α) (filter : KlattFilter α) (frequency bandwidth : α) :
    KlattFilter α :=
  if frequency = 0 ∨ bandwidth = 0 then
    { filter with frequency := 0, bandwidth := 0, a1 := 0, a2 := 0, y1 := 0, y2 := 0 }
  else
    let dt : α := 1 / (SAMPLE_RATE : α)
    let r := m.exp (-m.M_PI * bandwidth * dt)
    let theta := 2 * m.M_PI * frequency * dt
    { radius := r, angle := theta, a1 := -2 * r * m.cos theta, a2 := r * r,
      y1 := 0, y2 := 0, frequency := frequency, bandwidth := bandwidth }

/-- `update_filter_coefficients`: derive the coefficients, keep the history. -/
def update_filter_coefficients (m : LibM α) (filter : KlattFilter α)
    (frequency bandwidth : α) : KlattFilter α :=
  if frequency = 0 ∨ bandwidth = 0 then
    { filter with frequency := 0, bandwidth := 0, a1 := 0, a2 := 0 }
  else
    let dt : α := 1 / (SAMPLE_RATE : α)
    let r := m.exp (-m.M_PI * bandwidth * dt)
    let theta := 2 * m.M_PI * frequency * dt
    { filter with radius := r, angle := theta, a1 := -2 * r * m.cos theta, a2 := r * r,
                  frequency := frequency, bandwidth := bandwidth }

/-- `process_filter`: the returned sample and the filter after the call. -/
def process_filter (filter : KlattFilter α) (input : α) : α × KlattFilter α :=
  if filter.frequency = 0 then
    (input, filter)
  else
    let output := input - filter.a1 * filter.y1 - filter.a2 * filter.y2
    (output, { filter with y2 := filter.y1, y1 := output })

/-- Successive calls of `process_filter` on a sequence of inputs: the outputs in
order and the filter after the last call. -/
def process_filter_seq (filter : KlattFilter α) : List α → List α × KlattFilter α
  | [] => ([], filter)
  | x :: xs =>
    let r := process_filter filter x
    let rest := process_filter_seq r.2 xs
    (r.1 :: rest.1, rest.2)

/-! ## Sources -/

/-- `generate_glottal_pulse_derivative`. -/
def generate_glottal_pulse_derivative (m : LibM α) (F0 amplitude : α) (e : Engine α) :
    α × Engine α :=
  if F0 ≤ 0 ∨ amplitude = 0 then
    (0, { e with glottal_pulse_phase := 0, glottal_pulse_last_sample := 0 })
  else
    let T0 : α := 1 / F0
    let dt : α := 1 / (SAMPLE_RATE : α)
    let phase0 := e.glottal_pulse_phase + dt
    let phase := if phase0 ≥ T0 then phase0 - T0 else phase0
    let alpha : α := 3 / 10
    let beta : α := 5 / 100
    let T_open := T0 * alpha
    let T_close := T0 * beta
    let output :=
      if phase < T_open then
        m.sin (m.M_PI * phase / T_open)
      else
        let t_prime := phase - T_open
        (-m.sin (m.M_PI * t_prime / T_close))
    let hp_output := output - e.glottal_pulse_last_sample
    (hp_output * amplitude,
      { e with glottal_pulse_phase := phase, glottal_pulse_last_sample := output })

/-- `generate_noise_source`. -/
def generate_noise_source (amplitude : α) (e : Engine α) : α × Engine α :=
  if amplitude = 0 then
    (0, e)
  else
    let seed : Nat := (e.random_seed * 1103515245 + 12345) % 2 ^ 32
    let random_val : α := ((seed : α) / (UINT32_MAX : α)) * 2 - 1
    let r := process_filter e.fn_noise random_val
    (r.1 * amplitude, { e with random_seed := seed, fn_noise := r.2 })

/-! ## DC-removal high-pass filter -/

/-- `initialize_high_pass_filter`. -/
def initialize_high_pass_filter (m : LibM α) (e : Engine α) : Engine α :=
  let cutoff_freq_hz : α := 50
  let theta_c := 2 * m.M_PI * cutoff_freq_hz / (SAMPLE_RATE : α)
  let hp_a1 := (1 - theta_c) / (1 + theta_c)
  { e with hp_a1 := hp_a1, hp_b0 := (1 / 2) * (1 + hp_a1), hp_b1 := -(1 / 2) * (1 + hp_a1),
           hp_y1 := 0, hp_x1 := 0 }

/-- `process_high_pass_filter`. -/
def process_high_pass_filter (input : α) (e : Engine α) : α × Engine α :=
  let output := e.hp_b0 * input + e.hp_b1 * e.hp_x1 - e.hp_a1 * e.hp_y1
  (output, { e with hp_y1 := output, hp_x1 := input })

/-- `reset_synthesis_engine_state`. -/
def reset_synthesis_engine_state (m : LibM α) (e : Engine α) : Engine α :=
  initialize_high_pass_filter m
    { e with
      glottal_pulse_phase := 0
      glottal_pulse_last_sample := 0
      random_seed := 1
      f1 := initialize_filter m e.f1 0 0
      f2 := initialize_filter m e.f2 0 0
      f3 := initialize_filter m e.f3 0 0
      f4 := initialize_filter m e.f4 0 0
      f5 := initialize_filter m e.f5 0 0
      f6 := initialize_filter m e.f6 0 0
      fn_noise := initialize_filter m e.fn_noise 0 0 }

/-! ## Interpolation, frames and diphones -/

/-- `interpolate_params`: linear interpolation of the 17 parameters, the arithmetic taken
exactly (`interpolate_params_double` rounds each operation). -/
def interpolate_params (p1 p2 : PhonemeParams α) (total_frames current_frame : Int) :
    PhonemeParams α :=
  let t : α := (current_frame : α) / (total_frames : α)
  { F0 := p1.F0 + t * (p2.F0 - p1.F0)
    F1 := p1.F1 + t * (p2.F1 - p1.F1)
    B1 := p1.B1 + t * (p2.B1 - p1.B1)
    F2 := p1.F2 + t * (p2.F2 - p1.F2)
    B2 := p1.B2 + t * (p2.B2 - p1.B2)
    F3 := p1.F3 + t * (p2.F3 - p1.F3)
    B3 := p1.B3 + t * (p2.B3 - p1.B3)
    F4 := p1.F4 + t * (p2.F4 - p1.F4)
    B4 := p1.B4 + t * (p2.B4 - p1.B4)
    F5 := p1.F5 + t * (p2.F5 - p1.F5)
    B5 := p1.B5 + t * (p2.B5 - p1.B5)
    F6 := p1.F6 + t * (p2.F6 - p1.F6)
    B6 := p1.B6 + t * (p2.B6 - p1.B6)
    FN := p1.FN + t * (p2.FN - p1.FN)
    BN := p1.BN + t * (p2.BN - p1.BN)
    AF := p1.AF + t * (p2.AF - p1.AF)
    AN := p1.AN + t * (p2.AN - p1.AN) }

/-- The body of the sample loop of `synthesize_frame`: one sample is generated,
stored when the cursor is below `MAX_SAMPLES`, and the cursor is incremented. -/
def synthesize_sample (m : LibM α) (params : PhonemeParams α) (s : Synth α) : Synth α :=
  let g := generate_glottal_pulse_derivative m params.F0 params.AF s.engine
  let voiced_source := g.1
  let n := generate_noise_source params.AN g.2
  let noise_source := n.1
  let e := n.2
  let total_source := voiced_source + noise_source
  let o1 := process_filter e.f1 total_source
  let o2 := process_filter e.f2 total_source
  let o3 := process_filter e.f3 total_source
  let o4 := process_filter e.f4 total_source
  let o5 := process_filter e.f5 total_source
  let o6 := process_filter e.f6 total_source
  let output_sample := o1.1 + o2.1 + o3.1 + o4.1 + o5.1 + o6.1
  let h := process_high_pass_filter output_sample
    { e with f1 := o1.2, f2 := o2.2, f3 := o3.2, f4 := o4.2, f5 := o5.2, f6 := o6.2 }
  if s.current_sample < MAX_SAMPLES then
    { engine := h.2
      cells := Function.update s.cells s.current_sample h.1
      stores := (s.current_sample, h.1) :: s.stores
      current_sample := s.current_sample + 1 }
  else
    { s with engine := h.2, current_sample := s.current_sample + 1 }

/-- `synthesize_frame`: update the six formant filters, then run the sample loop
`num_frame_samples` times. -/
def synthesize_frame (m : LibM α) (params : PhonemeParams α) (s : Synth α) : Synth α :=
  let e := s.engine
  let e1 : Engine α :=
    { e with
      f1 := update_filter_coefficients m e.f1 params.F1 params.B1
      f2 := update_filter_coefficients m e.f2 params.F2 params.B2
      f3 := update_filter_coefficients m e.f3 params.F3 params.B3
      f4 := update_filter_coefficients m e.f4 params.F4 params.B4
      f5 := update_filter_coefficients m e.f5 params.F5 params.B5
      f6 := update_filter_coefficients m e.f6 params.F6 params.B6 }
  Nat.iterate (synthesize_sample m params) num_frame_samples.toNat { s with engine := e1 }

/-- `synthesize_diphone`: the three loops over start, transition and end frames. -/
def synthesize_diphone (m : LibM α) (diphone : Diphone α) (s : Synth α) : Synth α :=
  let s1 := Nat.iterate (synthesize_frame m diphone.p1) diphone.start_frames.toNat s
  let s2 := List.foldl
    (fun st (i : Nat) =>
      synthesize_frame m
        (interpolate_params diphone.p1 diphone.p2 diphone.transition_frames (i : Int)) st)
    s1 (List.range diphone.transition_frames.toNat)
  Nat.iterate (synthesize_frame m diphone.p2) diphone.end_frames.toNat s2

/-- A caller's loop `for (i = 0; i < num_diphones; i++) synthesize_diphone(&diphones[i], ...)`
over a diphone array. -/
def synthesize_diphones (m : LibM α) (diphones : List (Diphone α)) (s : Synth α) : Synth α :=
  List.foldl (fun st d => synthesize_diphone m d st) s diphones

/-- The three loops of `synthesize_diphone` with the callee left open: `frame params st`
stands for the call `synthesize_frame(params, audio_buffer, current_sample)` made in
state `st`. -/
def synthesize_diphone_calls {σ : Type} (frame : PhonemeParams α → σ → σ)
    (diphone : Diphone α) (s : σ) : σ :=
  let s1 := Nat.iterate (frame diphone.p1) diphone.start_frames.toNat s
  let s2 := List.foldl
    (fun st (i : Nat) =>
      frame (interpolate_params diphone.p1 diphone.p2 diphone.transition_frames (i : Int)) st)
    s1 (List.range diphone.transition_frames.toNat)
  Nat.iterate (frame diphone.p2) diphone.end_frames.toNat s2

/-- The three loops of `synthesize_diphone` with both callees left open:
`interp p1 p2 total_frames current_frame st` stands for the call of `interpolate_params`
and `frame params st` for the call of `synthesize_frame`, each made in state `st`. -/
def synthesize_diphone_gen {σ : Type}
    (interp : PhonemeParams α → PhonemeParams α → Int → Int → σ → PhonemeParams α × σ)
    (frame : PhonemeParams α → σ → σ) (diphone : Diphone α) (s : σ) : σ :=
  let s1 := Nat.iterate (frame diphone.p1) diphone.start_frames.toNat s
  let s2 := List.foldl
    (fun st (i : Nat) =>
      let r := interp diphone.p1 diphone.p2 diphone.transition_frames (i : Int) st
      frame r.1 r.2)
    s1 (List.range diphone.transition_frames.toNat)
  Nat.iterate (frame diphone.p2) diphone.end_frames.toNat s2

/-- Successive calls of `process_high_pass_filter` on a sequence of inputs: the outputs
in order and the engine after the last call. -/
def process_high_pass_filter_seq (e : Engine α) : List α → List α × Engine α
  | [] => ([], e)
  | x :: xs =>
    let r := process_high_pass_filter x e
    let rest := process_high_pass_filter_seq r.2 xs
    (r.1 :: rest.1, rest.2)

/-! ## WAV header and normalisation -/

/-- Conversion of an integer value to `size_t` (unsigned, 64 bits). -/
def to_size_t (x : Int) : Int := x % 2 ^ 64

/-- Conversion of an integer value to `int` (two's complement, 32 bits). -/
def to_int (x : Int) : Int := (x + 2 ^ 31) % 2 ^ 32 - 2 ^ 31

/-- Conversion of an integer value to `int16_t` (two's complement, 16 bits). -/
def to_int16 (x : Int) : Int := (x + 2 ^ 15) % 2 ^ 16 - 2 ^ 15

/-- `sizeof(int16_t)`. -/
def sizeof_int16_t : Int := 2

/-- The four bytes of an `int` object on a little-endian host, lowest address first. -/
def int_bytes (x : Int) : List Nat :=
  let u := (x % 2 ^ 32).toNat
  [u % 256, u / 256 % 256, u / 65536 % 256, u / 16777216 % 256]

/-- The two bytes of an `int16_t` object on a little-endian host. -/
def int16_bytes (x : Int) : List Nat :=
  let u := (x % 2 ^ 16).toNat
  [u % 256, u / 256 % 256]

/-- `fwrite(&x, size, 1, file)` for an `int` object `x`: its first `size` bytes. -/
def fwrite_int (x : Int) (size : Nat) : List Nat := (int_bytes x).take size

/-- `fwrite("....", 1, 4, file)` for a four-character string literal. -/
def fwrite_str (lit : String) : List Nat := (lit.toList.take 4).map Char.toNat

/-- `write_wav_header`: the bytes written to the file, in order. -/
def write_wav_header (num_samples sample_rate : Int) : List Nat :=
  let num_channels : Int := 1
  let byte_rate := to_int (to_size_t (to_size_t (sample_rate * num_channels) * sizeof_int16_t))
  let total_file_size :=
    to_int (to_size_t (36 + to_size_t (to_size_t (num_samples * num_channels) * sizeof_int16_t)))
  let fmt_chunk_size : Int := 16
  let audio_format : Int := 1
  let block_align := to_int (to_size_t (num_channels * sizeof_int16_t))
  let bits_per_sample : Int := 16
  let total_data_size := to_int (to_size_t (num_samples * sizeof_int16_t))
  fwrite_str "RIFF" ++ fwrite_int total_file_size 4 ++ fwrite_str "WAVE" ++
  fwrite_str "fmt " ++ fwrite_int fmt_chunk_size 4 ++ fwrite_int audio_format 2 ++
  fwrite_int num_channels 2 ++ fwrite_int sample_rate 4 ++ fwrite_int byte_rate 4 ++
  fwrite_int block_align 2 ++ fwrite_int bits_per_sample 2 ++
  fwrite_str "data" ++ fwrite_int total_data_size 4

/-- The first loop of `normalize_and_write_to_file`: the largest `fabs(buffer[i])`
over `0 <= i < num_samples`, starting from `max_abs = 0.0`. -/
def max_abs_scan (buffer : Int → α) (num_samples : Int) : α :=
  List.foldl
    (fun max_abs (i : Nat) =>
      let abs_val := |buffer (i : Int)|
      if abs_val > max_abs then abs_val else max_abs)
    0 (List.range num_samples.toNat)

/-- The value of `norm_factor` in `normalize_and_write_to_file`, the quotient taken
exactly (`norm_factor_double` rounds it). -/
def norm_factor (max_abs : α) : α :=
  if max_abs > 0 then (MAX_AMPLITUDE : α) / max_abs else 0

/-- The successive values of `sample_int` in the second loop of
`normalize_and_write_to_file`, the product taken exactly (`encoded_samples_double` rounds
it). -/
def encoded_samples [FloorRing α] (buffer : Int → α) (num_samples : Int) : List Int :=
  let nf := norm_factor (max_abs_scan buffer num_samples)
  (List.range num_samples.toNat).map (fun (i : Nat) => to_int16 (trunc (buffer (i : Int) * nf)))

/-- What a call of `normalize_and_write_to_file` leaves behind: the bytes written to
the file when it could be opened, and the text printed on `stderr`.  The C function
itself returns `void`. -/
structure WriteOutcome where
  file : Option (List Nat)
  stderr : List String

/-- `normalize_and_write_to_file`; `fopen_ok` tells whether `fopen` succeeds. -/
def normalize_and_write_to_file [FloorRing α] (fopen_ok : Bool) (filename : String)
    (buffer : Int → α) (num_samples sample_rate : Int) : WriteOutcome :=
  if fopen_ok then
    { file := some (write_wav_header num_samples sample_rate ++
        (encoded_samples buffer num_samples).flatMap int16_bytes)
      stderr := [] }
  else
    { file := none
      stderr := ["Error: Could not open file " ++ filename ++ " for writing.\n"] }

/-- The call `normalize_and_write_to_file(...)` as its caller sees it: the returned
value, of type `void` (here `Unit`), paired with what the call leaves behind. -/
def normalize_and_write_to_file_call [FloorRing α] (fopen_ok : Bool) (filename : String)
    (buffer : Int → α) (num_samples sample_rate : Int) : Unit × WriteOutcome :=
  ((), normalize_and_write_to_file fopen_ok filename buffer num_samples sample_rate)

/-! ## Callers of the engine (`main.c`)

Output on `stdout` is left out.  A buffer obtained from `calloc` is embedded as cells
that are all `0`; `calloc_ok` tells whether the allocation succeeds. -/

/-- `int pause_samples = SAMPLE_RATE / 4;` in `synthesize_phrase_and_save`. -/
def pause_samples : Int := SAMPLE_RATE / 4

/-- The loop `total_duration_samples += (start_frames + transition_frames + end_frames)
* (int)(SAMPLE_RATE * FRAME_PERIOD_S)` over the diphones of one word. -/
def add_word_duration (diphones : List (Diphone α)) (total_duration_samples : Int) : Int :=
  List.foldl
    (fun total (d : Diphone α) =>
      total + (d.start_frames + d.transition_frames + d.end_frames) * num_frame_samples)
    total_duration_samples diphones

/-- What a call of `synthesize_word_and_save` or `synthesize_phrase_and_save` leaves
behind: the engine globals, the number of samples requested from `calloc`, the audio
buffer with the cursor as they are when `normalize_and_write_to_file` is called (`none`
when the allocation failed), and the file and `stderr` output. -/
structure SaveOutcome (α : Type) where
  engine : Engine α
  allocated : Int
  audio : Option (Synth α)
  written : WriteOutcome

/-- `synthesize_word_and_save` of `main.c`, entered with the engine globals `e`. -/
def synthesize_word_and_save [FloorRing α] (m : LibM α) (calloc_ok fopen_ok : Bool)
    (word_name : String) (diphones : List (Diphone α)) (e : Engine α) : SaveOutcome α :=
  let total_duration_samples := add_word_duration diphones 0
  if calloc_ok then
    let s := synthesize_diphones m diphones
      { engine := e, cells := fun _ => 0, stores := [], current_sample := 0 }
    { engine := s.engine
      allocated := total_duration_samples
      audio := some s
      written := normalize_and_write_to_file fopen_ok word_name s.cells
        total_duration_samples SAMPLE_RATE }
  else
    { engine := e
      allocated := total_duration_samples
      audio := none
      written := { file := none, stderr := ["Error: Could not allocate audio buffer.\n"] } }

/-- The duration loop of `synthesize_phrase_and_save` from word index `j` on: the
remaining words, and the total accumulated so far. -/
def phrase_duration (num_words : Int) :
    Int → List (List (Diphone α)) → Int → Int
  | _, [], total => total
  | j, w :: ws, total =>
    let total1 := add_word_duration w total
    let total2 := if j < num_words - 1 then total1 + pause_samples else total1
    phrase_duration num_words (j + 1) ws total2

/-- One iteration of the pause loop of `synthesize_phrase_and_save`:
`if (current_sample >= total_duration_samples) break; audio_buffer[current_sample++] = 0.0;`
(after the `break` the remaining iterations change nothing). -/
def pause_step (total_duration_samples : Int) (s : Synth α) : Synth α :=
  if s.current_sample ≥ total_duration_samples then
    s
  else
    { s with
      cells := Function.update s.cells s.current_sample 0
      stores := (s.current_sample, 0) :: s.stores
      current_sample := s.current_sample + 1 }

/-- The pause loop `for (k = 0; k < pause_samples; k++)`. -/
def pause_loop (total_duration_samples : Int) (s : Synth α) : Synth α :=
  Nat.iterate (pause_step total_duration_samples) pause_samples.toNat s

/-- The synthesis loop of `synthesize_phrase_and_save` from word index `j` on. -/
def synthesize_words (m : LibM α) (total_duration_samples num_words : Int) :
    Int → List (List (Diphone α)) → Synth α → Synth α
  | _, [], s => s
  | j, w :: ws, s =>
    let s1 := synthesize_diphones m w s
    let s2 := if j < num_words - 1 then pause_loop total_duration_samples s1 else s1
    synthesize_words m total_duration_samples num_words (j + 1) ws s2

/-- `synthesize_phrase_and_save` of `main.c`, entered with the engine globals `e`; the
word arrays and their lengths are embedded as a list of lists. -/
def synthesize_phrase_and_save [FloorRing α] (m : LibM α) (calloc_ok fopen_ok : Bool)
    (filename : String) (word_diphones : List (List (Diphone α))) (e : Engine α) :
    SaveOutcome α :=
  let num_words : Int := word_diphones.length
  let total_duration_samples := phrase_duration num_words 0 word_diphones 0
  if calloc_ok then
    let s := synthesize_words m total_duration_samples num_words 0 word_diphones
      { engine := reset_synthesis_engine_state m e, cells := fun _ => 0, stores := [],
        current_sample := 0 }
    { engine := s.engine
      allocated := total_duration_samples
      audio := some s
      written := normalize_and_write_to_file fopen_ok filename s.cells s.current_sample
        SAMPLE_RATE }
  else
    { engine := e
      allocated := total_duration_samples
      audio := none
      written :=
        { file := none
          stderr := ["Error: Could not allocate memory for audio buffer for \x27" ++ filename
            ++ "\x27.\n"] } }

/-- The 17 fields of `PhonemeParams`, in the order of the declaration in `phonemes.h`. -/
def PhonemeParams.fields : List (PhonemeParams α → α) :=
  [PhonemeParams.F0, PhonemeParams.F1, PhonemeParams.B1, PhonemeParams.F2, PhonemeParams.B2,
   PhonemeParams.F3, PhonemeParams.B3, PhonemeParams.F4, PhonemeParams.B4, PhonemeParams.F5,
   PhonemeParams.B5, PhonemeParams.F6, PhonemeParams.B6, PhonemeParams.FN, PhonemeParams.BN,
   PhonemeParams.AF, PhonemeParams.AN]

/-! ## `double` arithmetic with rounding

The definitions above take the arithmetic of `double` as exact.  The ones below round the
result of each arithmetic operation to IEEE-754 binary64, round to nearest with ties to
even, as the C operations on `double` do.  Overflow to infinity is not represented: the
values rounded here stay below `2^1024`. -/

/-- The integer nearest to `q`, the even one of the two at a tie. -/
def round_half_even [FloorRing α] (q : α) : Int :=
  let f := Int.floor q
  if q - (f : α) < 1 / 2 then f
  else if 1 / 2 < q - (f : α) then f + 1
  else if f % 2 = 0 then f else f + 1

/-- The binary exponent of the binary64 grid at `x`: `floor(log2 |x|)`, raised to `-1022`
for `0 < |x| < 2^-1022` (subnormal range); at `x = 0` its value does not matter. -/
def double_exponent [FloorRing α] (x : α) : Int := max (Int.log 2 |x|) (-1022)

/-- The `double` nearest to `x`: a multiple of `2^(e - 52)` with `e` the exponent of `x`
(53 significant bits). -/
def round_to_double [FloorRing α] (x : α) : α :=
  let u : α := (2 : α) ^ (double_exponent x - 52)
  if 0 ≤ x then (round_half_even (x / u) : α) * u
  else -((round_half_even (-x / u) : α) * u)

/-- The value of `norm_factor` in `normalize_and_write_to_file` with the quotient
`MAX_AMPLITUDE / max_abs` rounded to `double`. -/
def norm_factor_double [FloorRing α] (max_abs : α) : α :=
  if max_abs > 0 then round_to_double ((MAX_AMPLITUDE : α) / max_abs) else 0

/-- The successive values of `sample_int` in the second loop of
`normalize_and_write_to_file`, with the product `buffer[i] * norm_factor` rounded to
`double` before the conversion to `int16_t`. -/
def encoded_samples_double [FloorRing α] (buffer : Int → α) (num_samples : Int) : List Int :=
  let nf := norm_factor_double (max_abs_scan buffer num_samples)
  (List.range num_samples.toNat).map
    (fun (i : Nat) => to_int16 (trunc (round_to_double (buffer (i : Int) * nf))))

/-- The expression `a + t * (b - a)` of `interpolate_params` with the difference, the
product and the sum each rounded to `double`. -/
def lerp_double [FloorRing α] (t a b : α) : α :=
  round_to_double (a + round_to_double (t * round_to_double (b - a)))

/-- `interpolate_params` with every operation rounded to `double`: the quotient
`(double)current_frame / (double)total_frames`, then the 17 interpolations. -/
def interpolate_params_double [FloorRing α] (p1 p2 : PhonemeParams α)
    (total_frames current_frame : Int) : PhonemeParams α :=
  let t : α := round_to_double ((current_frame : α) / (total_frames : α))
  { F0 := lerp_double t p1.F0 p2.F0
    F1 := lerp_double t p1.F1 p2.F1
    B1 := lerp_double t p1.B1 p2.B1
    F2 := lerp_double t p1.F2 p2.F2
    B2 := lerp_double t p1.B2 p2.B2
    F3 := lerp_double t p1.F3 p2.F3
    B3 := lerp_double t p1.B3 p2.B3
    F4 := lerp_double t p1.F4 p2.F4
    B4 := lerp_double t p1.B4 p2.B4
    F5 := lerp_double t p1.F5 p2.F5
    B5 := lerp_double t p1.B5 p2.B5
    F6 := lerp_double t p1.F6 p2.F6
    B6 := lerp_double t p1.B6 p2.B6
    FN := lerp_double t p1.FN p2.FN
    BN := lerp_double t p1.BN p2.BN
    AF := lerp_double t p1.AF p2.AF
    AN := lerp_double t p1.AN p2.AN }

/-- The pole radius `r = exp(-M_PI * bandwidth * dt)` with `dt = 1.0 / SAMPLE_RATE`, as
the enabled branch of `initialize_filter` and `update_filter_coefficients` computes it,
with the quotient and the two products rounded to `double`; `m.M_PI` and `m.exp` are the
`double` constant and the library function. -/
def radius_double [FloorRing α] (m : LibM α) (bandwidth : α) : α :=
  let dt : α := round_to_double (1 / (SAMPLE_RATE : α))
  m.exp (round_to_double (round_to_double (-m.M_PI * bandwidth) * dt))

/-! ## Observable part of the engine

`radius` and `angle` of a `KlattFilter` are assigned by `initialize_filter` and
`update_filter_coefficients` but read by no function of `synthesizer.c`. -/

/-- The filter with the two never-read fields `radius` and `angle` cleared. -/
def KlattFilter.core (f : KlattFilter α) : KlattFilter α :=
  { f with radius := 0, angle := 0 }

/-- The engine with `radius` and `angle` cleared in each of its seven filters. -/
def Engine.core (e : Engine α) : Engine α :=
  { e with
    f1 := e.f1.core, f2 := e.f2.core, f3 := e.f3.core, f4 := e.f4.core,
    f5 := e.f5.core, f6 := e.f6.core, fn_noise := e.fn_noise.core }

/-- The synthesis state with the engine replaced by its core. -/
def Synth.core (s : Synth α) : Synth α :=
  { s with engine := s.engine.core }

/-- `Synth.Extends s r`: `r` is reached from `s` without moving the cursor back, without
changing a cell below the cursor of `s`, and by adding stores at or above that cursor. -/
def Synth.Extends (s r : Synth α) : Prop :=
  s.current_sample ≤ r.current_sample
  ∧ (∀ j : Int, j < s.current_sample → r.cells j = s.cells j)
  ∧ ∃ w : List (Int × α), r.stores = w ++ s.stores ∧ ∀ x ∈ w, s.current_sample ≤ x.1

/-- The four bytes of the natural number `v`, least significant first. -/
def LE32 (v : Nat) : List Nat := [v % 256, v / 256 % 256, v / 65536 % 256, v / 16777216 % 256]

/-- The two bytes of the natural number `v`, least significant first. -/
def LE16 (v : Nat) : List Nat := [v % 256, v / 256 % 256]

/-! ## Values used to evaluate the definitions -/

/-- A rational stand-in for libm (truncated series), to run the engine on `ℚ`. -/
def ratLibM : LibM ℚ where
  M_PI := 355 / 113
  exp := fun x => 1 + x + x * x / 2
  cos := fun x => 1 - x * x / 2
  sin := fun x => x - x * x * x / 6

/-- A filter with every field zero (a zero-initialised global). -/
def zeroFilter : KlattFilter ℚ :=
  { frequency := 0, bandwidth := 0, radius := 0, angle := 0, a1 := 0, a2 := 0, y1 := 0, y2 := 0 }

/-- The engine globals as the C initialisers leave them at program start. -/
def startEngine : Engine ℚ :=
  { glottal_pulse_phase := 0, glottal_pulse_last_sample := 0, random_seed := 1,
    f1 := zeroFilter, f2 := zeroFilter, f3 := zeroFilter, f4 := zeroFilter,
    f5 := zeroFilter, f6 := zeroFilter, fn_noise := zeroFilter,
    hp_a1 := 0, hp_b0 := 0, hp_b1 := 0, hp_y1 := 0, hp_x1 := 0 }

/-- `PHONEME_SILENCE` of `phonemes.c`. -/
def PHONEME_SILENCE : PhonemeParams ℚ :=
  { F0 := 0, AF := 0, AN := 0, F1 := 0, B1 := 0, F2 := 0, B2 := 0, F3 := 0, B3 := 0,
    F4 := 0, B4 := 0, F5 := 0, B5 := 0, F6 := 0, B6 := 0, FN := 0, BN := 0 }

/-- `PHONEME_AE_VOWEL` of `phonemes.c`. -/
def PHONEME_AE_VOWEL : PhonemeParams ℚ :=
  { F0 := 120, AF := 1, AN := 0, F1 := 700, B1 := 50, F2 := 1400, B2 := 80, F3 := 2400,
    B3 := 120, F4 := 3300, B4 := 150, F5 := 3900, B5 := 200, F6 := 4500, B6 := 250,
    FN := 250, BN := 100 }

/-- The diphone `{silence, PHONEME_AE_VOWEL, 5, 10, 5}`. -/
def diphone_sil_ae : Diphone ℚ :=
  { name := "sil-ae", p1 := PHONEME_SILENCE, p2 := PHONEME_AE_VOWEL,
    start_frames := 5, transition_frames := 10, end_frames := 5 }

/-- A freshly reset engine, a zeroed buffer and the cursor at 0. -/
def startSynth : Synth ℚ :=
  { engine := reset_synthesis_engine_state ratLibM startEngine
    cells := fun _ => 0
    stores := []
    current_sample := 0 }

/-- An enabled filter with a non-zero history. -/
def ringingFilter : KlattFilter ℚ :=
  { frequency := 700, bandwidth := 50, radius := 99 / 100, angle := 11 / 40,
    a1 := -19 / 10, a2 := 49 / 50, y1 := 1 / 4, y2 := -1 / 8 }

/-- A buffer holding `0.0` everywhere. -/
def silent_buffer : Int → ℚ := fun _ => 0

/-- A voiced parameter set with `F0 = 50` and `AF = 1`, every other field `0`. -/
def voiced_50Hz : PhonemeParams ℚ :=
  { F0 := 50, AF := 1, AN := 0, F1 := 0, B1 := 0, F2 := 0, B2 := 0, F3 := 0, B3 := 0,
    F4 := 0, B4 := 0, F5 := 0, B5 := 0, F6 := 0, B6 := 0, FN := 0, BN := 0 }

/-- A one-frame diphone of silence. -/
def diphone_sil_frame : Diphone ℚ :=
  { name := "sil", p1 := PHONEME_SILENCE, p2 := PHONEME_SILENCE,
    start_frames := 1, transition_frames := 0, end_frames := 0 }

/-- The reset engine with a high-pass output history of `1`, as a previous utterance
can leave it. -/
def engine_with_history : Engine ℚ :=
  { reset_synthesis_engine_state ratLibM startEngine with hp_y1 := 1 }

/-! ## Phoneme and word tables of `phonemes.c` used by the date phrase -/

/-- `PHONEME_W_GLIDE` of `phonemes.c`. -/
def PHONEME_W_GLIDE : PhonemeParams ℚ :=
  { F0 := 120, AF := 1, AN := 0, F1 := 300, B1 := 50, F2 := 800, B2 := 80,
    F3 := 2400, B3 := 120, F4 := 3300, B4 := 150, F5 := 3900, B5 := 200,
    F6 := 4500, B6 := 250, FN := 250, BN := 100 }

/-- `PHONEME_EH_VOWEL` of `phonemes.c`. -/
def PHONEME_EH_VOWEL : PhonemeParams ℚ :=
  { F0 := 120, AF := 1, AN := 0, F1 := 500, B1 := 50, F2 := 1600, B2 := 80,
    F3 := 2400, B3 := 120, F4 := 3300, B4 := 150, F5 := 3900, B5 := 200,
    F6 := 4500, B6 := 250, FN := 250, BN := 100 }

/-- `PHONEME_N_NASAL` of `phonemes.c`. -/
def PHONEME_N_NASAL : PhonemeParams ℚ :=
  { F0 := 120, AF := 1, AN := 0, F1 := 300, B1 := 50, F2 := 1200, B2 := 80,
    F3 := 2500, B3 := 120, F4 := 3500, B4 := 150, F5 := 3900, B5 := 200,
    F6 := 4500, B6 := 250, FN := 250, BN := 100 }

/-- `PHONEME_Z_FRICATIVE` of `phonemes.c`. -/
def PHONEME_Z_FRICATIVE : PhonemeParams ℚ :=
  { F0 := 120, AF := 1, AN := 1 / 2, F1 := 0, B1 := 0, F2 := 2500, B2 := 200,
    F3 := 3500, B3 := 200, F4 := 4000, B4 := 300, F5 := 4500, B5 := 300,
    F6 := 5000, B6 := 300, FN := 250, BN := 100 }

/-- `PHONEME_D_BURST` of `phonemes.c`. -/
def PHONEME_D_BURST : PhonemeParams ℚ :=
  { F0 := 120, AF := 1, AN := 1 / 2, F1 := 0, B1 := 0, F2 := 2500, B2 := 100,
    F3 := 3000, B3 := 100, F4 := 3500, B4 := 200, F5 := 4500, B5 := 200,
    F6 := 5500, B6 := 200, FN := 250, BN := 100 }

/-- `PHONEME_AY_VOWEL` of `phonemes.c`. -/
def PHONEME_AY_VOWEL : PhonemeParams ℚ :=
  { F0 := 120, AF := 1, AN := 0, F1 := 700, B1 := 50, F2 := 1200, B2 := 80,
    F3 := 2400, B3 := 120, F4 := 3300, B4 := 150, F5 := 3900, B5 := 200,
    F6 := 4500, B6 := 250, FN := 250, BN := 100 }

/-- `PHONEME_T_BURST` of `phonemes.c`. -/
def PHONEME_T_BURST : PhonemeParams ℚ :=
  { F0 := 0, AF := 0, AN := 1, F1 := 0, B1 := 0, F2 := 2500, B2 := 100,
    F3 := 3000, B3 := 100, F4 := 3500, B4 := 200, F5 := 4500, B5 := 200,
    F6 := 5500, B6 := 200, FN := 250, BN := 100 }

/-- `PHONEME_IY_VOWEL` of `phonemes.c`. -/
def PHONEME_IY_VOWEL : PhonemeParams ℚ :=
  { F0 := 120, AF := 1, AN := 0, F1 := 250, B1 := 50, F2 := 2200, B2 := 80,
    F3 := 2900, B3 := 120, F4 := 3300, B4 := 150, F5 := 3900, B5 := 200,
    F6 := 4500, B6 := 250, FN := 250, BN := 100 }

/-- `PHONEME_S_FRICATIVE` of `phonemes.c`. -/
def PHONEME_S_FRICATIVE : PhonemeParams ℚ :=
  { F0 := 0, AF := 0, AN := 1, F1 := 0, B1 := 0, F2 := 2500, B2 := 200,
    F3 := 3500, B3 := 200, F4 := 4000, B4 := 300, F5 := 4500, B5 := 300,
    F6 := 5000, B6 := 300, FN := 250, BN := 100 }

/-- `PHONEME_V_FRICATIVE` of `phonemes.c`. -/
def PHONEME_V_FRICATIVE : PhonemeParams ℚ :=
  { F0 := 120, AF := 1, AN := 1 / 2, F1 := 0, B1 := 0, F2 := 2500, B2 := 200,
    F3 := 3500, B3 := 200, F4 := 4000, B4 := 300, F5 := 4500, B5 := 300,
    F6 := 5000, B6 := 300, FN := 250, BN := 100 }

/-- `PHONEME_TH_FRICATIVE` of `phonemes.c`. -/
def PHONEME_TH_FRICATIVE : PhonemeParams ℚ :=
  { F0 := 0, AF := 0, AN := 1, F1 := 0, B1 := 0, F2 := 2000, B2 := 200,
    F3 := 3000, B3 := 200, F4 := 4000, B4 := 300, F5 := 5000, B5 := 300,
    F6 := 6000, B6 := 300, FN := 250, BN := 100 }

/-- `PHONEME_P_BURST` of `phonemes.c`. -/
def PHONEME_P_BURST : PhonemeParams ℚ :=
  { F0 := 0, AF := 0, AN := 1, F1 := 0, B1 := 0, F2 := 2500, B2 := 100,
    F3 := 3000, B3 := 100, F4 := 3500, B4 := 200, F5 := 4500, B5 := 200,
    F6 := 5500, B6 := 200, FN := 250, BN := 100 }

/-- `PHONEME_M_NASAL` of `phonemes.c`. -/
def PHONEME_M_NASAL : PhonemeParams ℚ :=
  { F0 := 120, AF := 1, AN := 0, F1 := 300, B1 := 50, F2 := 1200, B2 := 80,
    F3 := 2500, B3 := 120, F4 := 3500, B4 := 150, F5 := 3900, B5 := 200,
    F6 := 4500, B6 := 250, FN := 250, BN := 100 }

/-- `PHONEME_ER_VOWEL` of `phonemes.c`. -/
def PHONEME_ER_VOWEL : PhonemeParams ℚ :=
  { F0 := 120, AF := 1, AN := 0, F1 := 400, B1 := 80, F2 := 1400, B2 := 100,
    F3 := 1800, B3 := 150, F4 := 3500, B4 := 200, F5 := 4500, B5 := 200,
    F6 := 5000, B6 := 200, FN := 0, BN := 0 }

/-- `diphones_wednesday` of `phonemes.c`. -/
def diphones_wednesday : List (Diphone ℚ) :=
  [{ name := "w-eh", p1 := PHONEME_W_GLIDE, p2 := PHONEME_EH_VOWEL,
     start_frames := 10, transition_frames := 5, end_frames := 10 },
   { name := "eh-n", p1 := PHONEME_EH_VOWEL, p2 := PHONEME_N_NASAL,
     start_frames := 10, transition_frames := 5, end_frames := 10 },
   { name := "n-z", p1 := PHONEME_N_NASAL, p2 := PHONEME_Z_FRICATIVE,
     start_frames := 10, transition_frames := 5, end_frames := 10 },
   { name := "z-d", p1 := PHONEME_Z_FRICATIVE, p2 := PHONEME_D_BURST,
     start_frames := 10, transition_frames := 5, end_frames := 10 },
   { name := "d-eh", p1 := PHONEME_D_BURST, p2 := PHONEME_EH_VOWEL,
     start_frames := 10, transition_frames := 5, end_frames := 10 },
   { name := "eh-y", p1 := PHONEME_EH_VOWEL, p2 := PHONEME_AY_VOWEL,
     start_frames := 10, transition_frames := 5, end_frames := 10 }]

/-- `diphones_twentyseventh` of `phonemes.c`. -/
def diphones_twentyseventh : List (Diphone ℚ) :=
  [{ name := "t-w", p1 := PHONEME_T_BURST, p2 := PHONEME_W_GLIDE,
     start_frames := 10, transition_frames := 5, end_frames := 10 },
   { name := "w-eh", p1 := PHONEME_W_GLIDE, p2 := PHONEME_EH_VOWEL,
     start_frames := 10, transition_frames := 5, end_frames := 10 },
   { name := "eh-n", p1 := PHONEME_EH_VOWEL, p2 := PHONEME_N_NASAL,
     start_frames := 10, transition_frames := 5, end_frames := 10 },
   { name := "n-t", p1 := PHONEME_N_NASAL, p2 := PHONEME_T_BURST,
     start_frames := 10, transition_frames := 5, end_frames := 10 },
   { name := "t-iy", p1 := PHONEME_T_BURST, p2 := PHONEME_IY_VOWEL,
     start_frames := 10, transition_frames := 5, end_frames := 10 },
   { name := "iy-s", p1 := PHONEME_IY_VOWEL, p2 := PHONEME_S_FRICATIVE,
     start_frames := 10, transition_frames := 5, end_frames := 10 },
   { name := "s-eh", p1 := PHONEME_S_FRICATIVE, p2 := PHONEME_EH_VOWEL,
     start_frames := 10, transition_frames := 5, end_frames := 10 },
   { name := "eh-v", p1 := PHONEME_EH_VOWEL, p2 := PHONEME_V_FRICATIVE,
     start_frames := 10, transition_frames := 5, end_frames := 10 },
   { name := "v-eh", p1 := PHONEME_V_FRICATIVE, p2 := PHONEME_EH_VOWEL,
     start_frames := 10, transition_frames := 5, end_frames := 10 },
   { name := "eh-n", p1 := PHONEME_EH_VOWEL, p2 := PHONEME_N_NASAL,
     start_frames := 10, transition_frames := 5, end_frames := 10 },
   { name := "n-th", p1 := PHONEME_N_NASAL, p2 := PHONEME_TH_FRICATIVE,
     start_frames := 10, transition_frames := 5, end_frames := 10 },
   { name := "th-sil", p1 := PHONEME_TH_FRICATIVE, p2 := PHONEME_SILENCE,
     start_frames := 10, transition_frames := 5, end_frames := 10 }]

/-- `diphones_september` of `phonemes.c`. -/
def diphones_september : List (Diphone ℚ) :=
  [{ name := "s-eh", p1 := PHONEME_S_FRICATIVE, p2 := PHONEME_EH_VOWEL,
     start_frames := 10, transition_frames := 5, end_frames := 10 },
   { name := "eh-p", p1 := PHONEME_EH_VOWEL, p2 := PHONEME_P_BURST,
     start_frames := 10, transition_frames := 5, end_frames := 10 },
   { name := "p-t", p1 := PHONEME_P_BURST, p2 := PHONEME_T_BURST,
     start_frames := 10, transition_frames := 5, end_frames := 10 },
   { name := "t-eh", p1 := PHONEME_T_BURST, p2 := PHONEME_EH_VOWEL,
     start_frames := 10, transition_frames := 5, end_frames := 10 },
   { name := "eh-m", p1 := PHONEME_EH_VOWEL, p2 := PHONEME_M_NASAL,
     start_frames := 10, transition_frames := 5, end_frames := 10 },
   { name := "m-b", p1 := PHONEME_M_NASAL, p2 := PHONEME_D_BURST,
     start_frames := 10, transition_frames := 5, end_frames := 10 },
   { name := "b-er", p1 := PHONEME_D_BURST, p2 := PHONEME_ER_VOWEL,
     start_frames := 10, transition_frames := 5, end_frames := 10 }]


/-- The two-sample buffer `[49.0, -24.5]`. -/
def buffer_49 : Int → ℚ := fun i => if i = 0 then 49 else if i = 1 then -49 / 2 else 0

/-- The `double` denoted by the C literal `0.1`. -/
def double_0_1 : ℚ := 3602879701896397 / 36028797018963968

/-- Silence with the voiced amplitude `AF` set to `a`. -/
def silence_with_AF (a : ℚ) : PhonemeParams ℚ := { PHONEME_SILENCE with AF := a }

/-- The two-sample buffer `[1.0, -0.5]`. -/
def buffer_1_mhalf : Int → ℚ := fun i => if i = 0 then 1 else if i = 1 then -1 / 2 else 0

end Klatt

namespace Klatt

variable {α : Type} [LinearOrderedField α]

/-! ## Frame length and cursor arithmetic -/

theorem num_frame_samples_eq : num_frame_samples = 160 := by
  have h : (SAMPLE_RATE : ℚ) * FRAME_PERIOD_S = ((160 : Int) : ℚ) := by
    norm_num [SAMPLE_RATE, FRAME_PERIOD_S, FRAME_PERIOD_MS]
  unfold num_frame_samples trunc
  rw [h]
  simp

theorem synthesize_sample_cursor (m : LibM α) (params : PhonemeParams α) (s : Synth α) :
    (synthesize_sample m params s).current_sample = s.current_sample + 1 := by
  unfold synthesize_sample
  by_cases h : s.current_sample < MAX_SAMPLES <;> simp [h]

omit [LinearOrderedField α] in
theorem iterate_cursor (f : Synth α → Synth α) (k : Int)
    (hf : ∀ s, (f s).current_sample = s.current_sample + k) (n : Nat) (s : Synth α) :
    (Nat.iterate f n s).current_sample = s.current_sample + n * k := by
  induction n generalizing s with
  | zero => simp
  | succ n ih =>
    rw [Function.iterate_succ_apply, ih, hf]
    push_cast
    ring

theorem synthesize_frame_cursor (m : LibM α) (params : PhonemeParams α) (s : Synth α) :
    (synthesize_frame m params s).current_sample = s.current_sample + 160 := by
  unfold synthesize_frame
  rw [iterate_cursor _ 1 (synthesize_sample_cursor m params), num_frame_samples_eq]
  simp

theorem foldl_frames_cursor (m : LibM α) (g : Nat → PhonemeParams α) (l : List Nat)
    (s : Synth α) :
    (List.foldl (fun st i => synthesize_frame m (g i) st) s l).current_sample
      = s.current_sample + l.length * 160 := by
  induction l generalizing s with
  | nil => simp
  | cons a l ih =>
    rw [List.foldl_cons, ih, synthesize_frame_cursor]
    simp only [List.length_cons]
    push_cast
    ring

theorem synthesize_diphone_cursor (m : LibM α) (d : Diphone α) (s : Synth α) :
    (synthesize_diphone m d s).current_sample
      = s.current_sample
        + ((d.start_frames.toNat : Int) + d.transition_frames.toNat + d.end_frames.toNat) * 160 := by
  unfold synthesize_diphone
  simp only []
  rw [iterate_cursor _ 160 (synthesize_frame_cursor m d.p2),
    foldl_frames_cursor m
      (fun i => interpolate_params d.p1 d.p2 d.transition_frames (i : Int)),
    iterate_cursor _ 160 (synthesize_frame_cursor m d.p1), List.length_range]
  ring

/-- C1: for every engine state, buffer, cursor value `c` and every diphone whose three
frame counts are non-negative, `synthesize_diphone` leaves the cursor at exactly
`c + (start_frames + transition_frames + end_frames) * 160`. -/
theorem C1_diphone_duration (m : LibM α) (d : Diphone α) (s : Synth α)
    (hs : 0 ≤ d.start_frames) (ht : 0 ≤ d.transition_frames) (he : 0 ≤ d.end_frames) :
    (synthesize_diphone m d s).current_sample
      = s.current_sample + (d.start_frames + d.transition_frames + d.end_frames) * 160 := by
  rw [synthesize_diphone_cursor, Int.toNat_of_nonneg hs, Int.toNat_of_nonneg ht,
    Int.toNat_of_nonneg he]

/-- C2: for every parameter set, engine state, buffer and cursor value `c` (no bound on
`c`, so also `c >= MAX_SAMPLES`), `synthesize_frame` leaves the cursor at exactly
`c + 160`, and `160` is `round (SAMPLE_RATE * FRAME_PERIOD_S)`. -/
theorem C2_frame_duration (m : LibM α) (params : PhonemeParams α) (s : Synth α) :
    (synthesize_frame m params s).current_sample = s.current_sample + 160
      ∧ (160 : Int) = round ((SAMPLE_RATE : ℚ) * FRAME_PERIOD_S) := by
  refine ⟨synthesize_frame_cursor m params s, ?_⟩
  have h : (SAMPLE_RATE : ℚ) * FRAME_PERIOD_S = ((160 : Int) : ℚ) := by
    norm_num [SAMPLE_RATE, FRAME_PERIOD_S, FRAME_PERIOD_MS]
  rw [h, round_intCast]

end Klatt

namespace Klatt

variable {α : Type} [LinearOrderedField α]

/-! ## Reset determinism -/

theorem process_filter_core (f : KlattFilter α) (x : α) :
    process_filter f.core x = ((process_filter f x).1, (process_filter f x).2.core) := by
  unfold process_filter
  by_cases h : f.frequency = 0 <;> simp [KlattFilter.core, h]

theorem glottal_core (m : LibM α) (F0 a : α) (e : Engine α) :
    generate_glottal_pulse_derivative m F0 a e.core
      = ((generate_glottal_pulse_derivative m F0 a e).1,
         (generate_glottal_pulse_derivative m F0 a e).2.core) := by
  unfold generate_glottal_pulse_derivative
  by_cases h : F0 ≤ 0 ∨ a = 0 <;> simp [Engine.core, h]

theorem noise_core (a : α) (e : Engine α) :
    generate_noise_source a e.core
      = ((generate_noise_source a e).1, (generate_noise_source a e).2.core) := by
  unfold generate_noise_source
  by_cases h : a = 0
  · simp [h]
  · have hf : e.core.fn_noise = e.fn_noise.core := rfl
    simp [h, hf, process_filter_core]
    simp [Engine.core]

theorem high_pass_core (x : α) (e : Engine α) :
    process_high_pass_filter x e.core
      = ((process_high_pass_filter x e).1, (process_high_pass_filter x e).2.core) := by
  simp [process_high_pass_filter, Engine.core]

theorem synthesize_sample_core (m : LibM α) (params : PhonemeParams α) (s : Synth α) :
    synthesize_sample m params s.core = (synthesize_sample m params s).core := by
  have hc : s.core.current_sample = s.current_sample := rfl
  have hcells : s.core.cells = s.cells := rfl
  have hst : s.core.stores = s.stores := rfl
  have he : s.core.engine = s.engine.core := rfl
  have h1 : ∀ e : Engine α, e.core.f1 = e.f1.core := fun _ => rfl
  have h2 : ∀ e : Engine α, e.core.f2 = e.f2.core := fun _ => rfl
  have h3 : ∀ e : Engine α, e.core.f3 = e.f3.core := fun _ => rfl
  have h4 : ∀ e : Engine α, e.core.f4 = e.f4.core := fun _ => rfl
  have h5 : ∀ e : Engine α, e.core.f5 = e.f5.core := fun _ => rfl
  have h6 : ∀ e : Engine α, e.core.f6 = e.f6.core := fun _ => rfl
  have hup : ∀ (e : Engine α) (a b c d f g : KlattFilter α),
      ({ e.core with f1 := a.core, f2 := b.core, f3 := c.core, f4 := d.core,
                     f5 := f.core, f6 := g.core } : Engine α)
        = ({ e with f1 := a, f2 := b, f3 := c, f4 := d, f5 := f, f6 := g } : Engine α).core :=
    fun _ _ _ _ _ _ _ => rfl
  unfold synthesize_sample
  simp only [hc, hcells, hst, he, glottal_core, noise_core, h1, h2, h3, h4, h5, h6,
    process_filter_core, hup, high_pass_core]
  by_cases h : s.current_sample < MAX_SAMPLES <;> simp [h, Synth.core]

theorem iterate_sample_core (m : LibM α) (params : PhonemeParams α) (n : Nat) (s : Synth α) :
    Nat.iterate (synthesize_sample m params) n s.core
      = (Nat.iterate (synthesize_sample m params) n s).core := by
  induction n generalizing s with
  | zero => rfl
  | succ n ih => rw [Function.iterate_succ_apply, Function.iterate_succ_apply,
      synthesize_sample_core, ih]

theorem update_filter_core (m : LibM α) (f : KlattFilter α) (fr bw : α) :
    (update_filter_coefficients m f.core fr bw).core
      = (update_filter_coefficients m f fr bw).core := by
  unfold update_filter_coefficients
  by_cases h : fr = 0 ∨ bw = 0 <;> simp [KlattFilter.core, h]

theorem synthesize_frame_core (m : LibM α) (params : PhonemeParams α) (s : Synth α) :
    (synthesize_frame m params s.core).core = (synthesize_frame m params s).core := by
  unfold synthesize_frame
  simp only []
  rw [← iterate_sample_core, ← iterate_sample_core]
  congr 1
  simp only [Synth.core, Engine.core, update_filter_core]
  simp [KlattFilter.core]

theorem iterate_core (f : Synth α → Synth α)
    (hf : ∀ s, (f s.core).core = (f s).core) (n : Nat) (s : Synth α) :
    (Nat.iterate f n s.core).core = (Nat.iterate f n s).core := by
  induction n generalizing s with
  | zero => rfl
  | succ n ih =>
    rw [Function.iterate_succ_apply, Function.iterate_succ_apply, ← ih (f s.core), hf, ih]

theorem foldl_core {β : Type} (f : Synth α → β → Synth α)
    (hf : ∀ b s, (f s.core b).core = (f s b).core) (l : List β) (s : Synth α) :
    (List.foldl f s.core l).core = (List.foldl f s l).core := by
  induction l generalizing s with
  | nil => rfl
  | cons b l ih =>
    rw [List.foldl_cons, List.foldl_cons, ← ih (f s.core b), hf, ih]

theorem synthesize_diphone_core (m : LibM α) (d : Diphone α) (s : Synth α) :
    (synthesize_diphone m d s.core).core = (synthesize_diphone m d s).core := by
  unfold synthesize_diphone
  simp only []
  have hA := iterate_core _ (synthesize_frame_core m d.p1) d.start_frames.toNat s
  have hB : ∀ X Y : Synth α, X.core = Y.core →
      (List.foldl (fun st (i : Nat) => synthesize_frame m
          (interpolate_params d.p1 d.p2 d.transition_frames (i : Int)) st) X
          (List.range d.transition_frames.toNat)).core
      = (List.foldl (fun st (i : Nat) => synthesize_frame m
          (interpolate_params d.p1 d.p2 d.transition_frames (i : Int)) st) Y
          (List.range d.transition_frames.toNat)).core := by
    intro X Y h
    rw [← foldl_core _ (fun b st => synthesize_frame_core m _ st) _ X, h,
      foldl_core _ (fun b st => synthesize_frame_core m _ st) _ Y]
  have hC : ∀ X Y : Synth α, X.core = Y.core →
      (Nat.iterate (synthesize_frame m d.p2) d.end_frames.toNat X).core
      = (Nat.iterate (synthesize_frame m d.p2) d.end_frames.toNat Y).core := by
    intro X Y h
    rw [← iterate_core _ (synthesize_frame_core m d.p2) _ X, h,
      iterate_core _ (synthesize_frame_core m d.p2) _ Y]
  exact hC _ _ (hB _ _ hA)

theorem synthesize_diphones_core (m : LibM α) (ds : List (Diphone α)) (s : Synth α) :
    (synthesize_diphones m ds s.core).core = (synthesize_diphones m ds s).core :=
  foldl_core _ (fun d st => synthesize_diphone_core m d st) ds s

theorem reset_core (m : LibM α) (e1 e2 : Engine α) :
    (reset_synthesis_engine_state m e1).core = (reset_synthesis_engine_state m e2).core := by
  simp [reset_synthesis_engine_state, initialize_high_pass_filter, initialize_filter,
    Engine.core, KlattFilter.core]

/-- C3 (reset determinism): for any two engine states `e1`, `e2` (arbitrary coefficients,
histories, radius/angle fields, glottal phase, seed, high-pass history), any diphone
sequence, any common initial buffer (in particular the zeroed one) and cursor: resetting
and then synthesizing the sequence yields the same buffer contents, the same executed
stores, the same final cursor, and therefore the same output of
`normalize_and_write_to_file`; the two final engines agree on every field that is ever
read. -/
theorem C3_reset_determinism [FloorRing α] (m : LibM α) (e1 e2 : Engine α)
    (ds : List (Diphone α)) (cells : Int → α) (c : Int) :
    (synthesize_diphones m ds ⟨reset_synthesis_engine_state m e1, cells, [], c⟩).cells
      = (synthesize_diphones m ds ⟨reset_synthesis_engine_state m e2, cells, [], c⟩).cells
    ∧ (synthesize_diphones m ds ⟨reset_synthesis_engine_state m e1, cells, [], c⟩).stores
      = (synthesize_diphones m ds ⟨reset_synthesis_engine_state m e2, cells, [], c⟩).stores
    ∧ (synthesize_diphones m ds ⟨reset_synthesis_engine_state m e1, cells, [], c⟩).current_sample
      = (synthesize_diphones m ds
          ⟨reset_synthesis_engine_state m e2, cells, [], c⟩).current_sample
    ∧ (synthesize_diphones m ds ⟨reset_synthesis_engine_state m e1, cells, [], c⟩).engine.core
      = (synthesize_diphones m ds ⟨reset_synthesis_engine_state m e2, cells, [], c⟩).engine.core
    ∧ ∀ (fopen_ok : Bool) (filename : String) (num_samples sample_rate : Int),
        normalize_and_write_to_file fopen_ok filename
          (synthesize_diphones m ds ⟨reset_synthesis_engine_state m e1, cells, [], c⟩).cells
          num_samples sample_rate
        = normalize_and_write_to_file fopen_ok filename
          (synthesize_diphones m ds ⟨reset_synthesis_engine_state m e2, cells, [], c⟩).cells
          num_samples sample_rate := by
  have h0 : (⟨reset_synthesis_engine_state m e1, cells, [], c⟩ : Synth α).core
      = (⟨reset_synthesis_engine_state m e2, cells, [], c⟩ : Synth α).core := by
    simp only [Synth.core, reset_core m e1 e2]
  have h : (synthesize_diphones m ds ⟨reset_synthesis_engine_state m e1, cells, [], c⟩).core
      = (synthesize_diphones m ds ⟨reset_synthesis_engine_state m e2, cells, [], c⟩).core := by
    rw [← synthesize_diphones_core, h0, synthesize_diphones_core]
  have hcells := congrArg Synth.cells h
  have hstores := congrArg Synth.stores h
  have hcur := congrArg Synth.current_sample h
  have heng := congrArg Synth.engine h
  simp only [Synth.core] at hcells hstores hcur heng
  refine ⟨hcells, hstores, hcur, heng, ?_⟩
  intro fopen_ok filename num_samples sample_rate
  rw [hcells]

/-! ## Normalisation -/

theorem scan_step_eq_max (b : Int → α) (acc : α) (i : Nat) :
    (if |b (i : Int)| > acc then |b (i : Int)| else acc) = max acc |b (i : Int)| := by
  by_cases h : |b (i : Int)| > acc
  · rw [if_pos h, max_eq_right (le_of_lt h)]
  · rw [if_neg h, max_eq_left (not_lt.mp h)]

theorem scan_ge_acc (b : Int → α) (l : List Nat) (acc : α) :
    acc ≤ List.foldl
      (fun max_abs (i : Nat) => if |b (i : Int)| > max_abs then |b (i : Int)| else max_abs)
      acc l := by
  induction l generalizing acc with
  | nil => exact le_refl _
  | cons a l ih =>
    rw [List.foldl_cons, scan_step_eq_max]
    exact le_trans (le_max_left _ _) (ih _)

theorem scan_ge_mem (b : Int → α) (l : List Nat) (acc : α) (i : Nat) (hi : i ∈ l) :
    |b (i : Int)| ≤ List.foldl
      (fun max_abs (i : Nat) => if |b (i : Int)| > max_abs then |b (i : Int)| else max_abs)
      acc l := by
  induction l generalizing acc with
  | nil => cases hi
  | cons a l ih =>
    rw [List.foldl_cons, scan_step_eq_max]
    rcases List.mem_cons.mp hi with h | h
    · subst h
      exact le_trans (le_max_right _ _) (scan_ge_acc b l _)
    · exact ih _ h

theorem scan_attained (b : Int → α) (l : List Nat) (acc : α) :
    List.foldl
      (fun max_abs (i : Nat) => if |b (i : Int)| > max_abs then |b (i : Int)| else max_abs)
      acc l = acc
    ∨ ∃ i ∈ l, |b (i : Int)| = List.foldl
      (fun max_abs (i : Nat) => if |b (i : Int)| > max_abs then |b (i : Int)| else max_abs)
      acc l := by
  induction l generalizing acc with
  | nil => exact Or.inl rfl
  | cons a l ih =>
    rw [List.foldl_cons, scan_step_eq_max]
    rcases ih (max acc |b (a : Int)|) with h | ⟨i, hi, h⟩
    · rcases le_total acc |b (a : Int)| with hle | hle
      · right
        refine ⟨a, List.mem_cons_self _ _, ?_⟩
        rw [h, max_eq_right hle]
      · left
        rw [h, max_eq_left hle]
    · exact Or.inr ⟨i, List.mem_cons_of_mem _ hi, h⟩

theorem max_abs_scan_nonneg (b : Int → α) (n : Int) : 0 ≤ max_abs_scan b n :=
  scan_ge_acc b _ 0

theorem max_abs_scan_ge (b : Int → α) (n : Int) (i : Nat) (hi : (i : Int) < n) :
    |b (i : Int)| ≤ max_abs_scan b n :=
  scan_ge_mem b _ 0 i (List.mem_range.mpr (by omega))

theorem max_abs_scan_attained (b : Int → α) (n : Int) (h : max_abs_scan b n ≠ 0) :
    ∃ i : Nat, (i : Int) < n ∧ |b (i : Int)| = max_abs_scan b n := by
  rcases scan_attained b (List.range n.toNat) 0 with h0 | ⟨i, hi, hv⟩
  · exact absurd h0 h
  · exact ⟨i, by have := List.mem_range.mp hi; omega, hv⟩

theorem max_abs_scan_pos (b : Int → α) (n : Int) (j : Nat) (hj : (j : Int) < n)
    (hne : b (j : Int) ≠ 0) : 0 < max_abs_scan b n :=
  lt_of_lt_of_le (abs_pos.mpr hne) (max_abs_scan_ge b n j hj)

theorem trunc_intCast [FloorRing α] (z : Int) : trunc (z : α) = z := by
  unfold trunc
  by_cases h : (0 : α) ≤ (z : α) <;> simp [h]

theorem trunc_abs_le [FloorRing α] (x : α) (k : Int) (h : |x| ≤ (k : α)) : |trunc x| ≤ k := by
  have hx := abs_le.mp h
  unfold trunc
  by_cases h0 : 0 ≤ x
  · rw [if_pos h0]
    have h1 : 0 ≤ Int.floor x := Int.floor_nonneg.mpr h0
    have h2 : Int.floor x ≤ k := by
      have : ((Int.floor x : Int) : α) ≤ (k : α) := le_trans (Int.floor_le x) hx.2
      exact_mod_cast this
    rw [abs_of_nonneg h1]
    exact h2
  · rw [if_neg h0]
    have hneg : x ≤ 0 := le_of_lt (not_le.mp h0)
    have h1 : Int.ceil x ≤ 0 := Int.ceil_le.mpr (by simpa using hneg)
    have h2 : -k ≤ Int.ceil x := by
      have : ((-k : Int) : α) ≤ ((Int.ceil x : Int) : α) := by
        push_cast
        exact le_trans hx.1 (Int.le_ceil x)
      exact_mod_cast this
    rw [abs_of_nonpos h1]
    omega

theorem to_int16_of_abs_le (v : Int) (h : |v| ≤ 32767) : to_int16 v = v := by
  have := abs_le.mp h
  unfold to_int16
  omega

theorem scaled_abs_le (b : Int → α) (n : Int) (i : Nat) (hi : (i : Int) < n) :
    |b (i : Int) * norm_factor (max_abs_scan b n)| ≤ ((32767 : Int) : α) := by
  unfold norm_factor
  by_cases hM : max_abs_scan b n > 0
  · rw [if_pos hM, abs_mul, abs_div, abs_of_pos hM]
    have h1 := max_abs_scan_ge b n i hi
    have h2 : |((MAX_AMPLITUDE : Int) : α)| = 32767 := by simp [MAX_AMPLITUDE]
    rw [h2, ← mul_div_assoc, div_le_iff₀ hM]
    push_cast
    nlinarith [abs_nonneg (b (i : Int))]
  · rw [if_neg hM]
    simp

theorem encoded_samples_length [FloorRing α] (b : Int → α) (n : Int) :
    (encoded_samples b n).length = n.toNat := by
  simp [encoded_samples]

theorem encoded_samples_get [FloorRing α] (b : Int → α) (n : Int) (i : Nat)
    (hi : (i : Int) < n) :
    (encoded_samples b n)[i]?
      = some (trunc (b (i : Int) * norm_factor (max_abs_scan b n))) := by
  have hlt : i < n.toNat := by omega
  have h := trunc_abs_le _ _ (scaled_abs_le b n i hi)
  simp [encoded_samples, List.getElem?_range hlt, to_int16_of_abs_le _ h]

theorem peak_encoding [FloorRing α] (b : Int → α) (n : Int) (i : Nat) (hi : (i : Int) < n)
    (hM : 0 < max_abs_scan b n) (hpk : |b (i : Int)| = max_abs_scan b n) :
    (encoded_samples b n)[i]? = some 32767 ∨ (encoded_samples b n)[i]? = some (-32767) := by
  rw [encoded_samples_get b n i hi]
  have hne : max_abs_scan b n ≠ 0 := ne_of_gt hM
  unfold norm_factor
  rw [if_pos hM]
  rcases abs_choice (b (i : Int)) with h | h
  · left
    have hx : b (i : Int) * ((MAX_AMPLITUDE : α) / max_abs_scan b n) = ((32767 : Int) : α) := by
      rw [← hpk, h] at hne ⊢
      rw [mul_div_assoc', mul_comm, mul_div_assoc, div_self hne]
      simp [MAX_AMPLITUDE]
    rw [hx, trunc_intCast]
  · right
    have hb : b (i : Int) = -max_abs_scan b n := by rw [← hpk, h, neg_neg]
    have hx : b (i : Int) * ((MAX_AMPLITUDE : α) / max_abs_scan b n) = ((-32767 : Int) : α) := by
      rw [hb, neg_mul, mul_div_assoc', mul_comm, mul_div_assoc, div_self hne]
      simp [MAX_AMPLITUDE]
    rw [hx, trunc_intCast]

theorem encoded_samples_abs_le [FloorRing α] (b : Int → α) (n : Int) (v : Int)
    (hv : v ∈ encoded_samples b n) : |v| ≤ 32767 := by
  unfold encoded_samples at hv
  simp only [List.mem_map, List.mem_range] at hv
  obtain ⟨i, hi, rfl⟩ := hv
  have h := trunc_abs_le _ _ (scaled_abs_le b n i (by omega))
  rw [to_int16_of_abs_le _ h]
  exact h

/-- C4: for a buffer of `n >= 1` samples that is not all zero, in exact arithmetic the
stream of samples encoded by `normalize_and_write_to_file` contains a sample equal to
`32767` or `-32767`; every index attaining the peak `|buffer[i]| = max_abs` encodes to
`32767` or `-32767`; and no encoded sample has magnitude above `32767`. -/
theorem C4_normalized_peak [FloorRing α] (buffer : Int → α) (n : Int) (_hn : 1 ≤ n)
    (hne : ∃ j : Nat, (j : Int) < n ∧ buffer (j : Int) ≠ 0) :
    (∃ i : Nat, (i : Int) < n ∧
        ((encoded_samples buffer n)[i]? = some 32767
          ∨ (encoded_samples buffer n)[i]? = some (-32767)))
    ∧ (∀ i : Nat, (i : Int) < n → |buffer (i : Int)| = max_abs_scan buffer n →
        ((encoded_samples buffer n)[i]? = some 32767
          ∨ (encoded_samples buffer n)[i]? = some (-32767)))
    ∧ (∀ v ∈ encoded_samples buffer n, |v| ≤ 32767)
    ∧ (∀ (filename : String) (sample_rate : Int),
        (normalize_and_write_to_file true filename buffer n sample_rate).file
          = some (write_wav_header n sample_rate
              ++ (encoded_samples buffer n).flatMap int16_bytes)) := by
  obtain ⟨j, hj, hjne⟩ := hne
  have hM := max_abs_scan_pos buffer n j hj hjne
  obtain ⟨i, hi, hpk⟩ := max_abs_scan_attained buffer n (ne_of_gt hM)
  refine ⟨⟨i, hi, peak_encoding buffer n i hi hM hpk⟩, ?_, encoded_samples_abs_le buffer n, ?_⟩
  · intro i hi hpk
    exact peak_encoding buffer n i hi hM hpk
  · intro filename sample_rate
    rfl

theorem flatMap_int16_bytes_zero (k : Nat) :
    (List.replicate k (0 : Int)).flatMap int16_bytes = List.replicate (2 * k) 0 := by
  induction k with
  | zero => rfl
  | succ k ih =>
    rw [List.replicate_succ, List.flatMap_cons, ih]
    have h : int16_bytes 0 = [0, 0] := by decide
    rw [h, Nat.mul_succ]
    rfl

/-- C5: for a buffer whose `n` samples are all `0.0` (also when `n = 0`),
`normalize_and_write_to_file` finds `max_abs = 0`, the test `max_abs > 0.0` fails so the
quotient `MAX_AMPLITUDE / max_abs` is not taken and the scale factor is `0`, and every
one of the `n` encoded 16-bit samples is `0` (two zero bytes each after the header). -/
theorem C5_silent_buffer [FloorRing α] (buffer : Int → α) (n : Int)
    (hzero : ∀ i : Nat, (i : Int) < n → buffer (i : Int) = 0)
    (filename : String) (sample_rate : Int) :
    max_abs_scan buffer n = 0
    ∧ ¬ (max_abs_scan buffer n > 0)
    ∧ norm_factor (max_abs_scan buffer n) = 0
    ∧ encoded_samples buffer n = List.replicate n.toNat 0
    ∧ (normalize_and_write_to_file true filename buffer n sample_rate).file
        = some (write_wav_header n sample_rate ++ List.replicate (2 * n.toNat) 0) := by
  have hM : max_abs_scan buffer n = 0 := by
    by_contra hne
    obtain ⟨i, hi, hpk⟩ := max_abs_scan_attained buffer n hne
    rw [hzero i hi, abs_zero] at hpk
    exact hne hpk.symm
  have hnf : norm_factor (max_abs_scan buffer n) = 0 := by
    rw [hM]
    simp [norm_factor]
  have henc : encoded_samples buffer n = List.replicate n.toNat 0 := by
    rw [List.eq_replicate_iff]
    refine ⟨encoded_samples_length buffer n, ?_⟩
    intro v hv
    unfold encoded_samples at hv
    simp only [List.mem_map, List.mem_range] at hv
    obtain ⟨i, hi, rfl⟩ := hv
    rw [hnf, mul_zero]
    have h0 : trunc (0 : α) = 0 := by
      have h := (trunc_intCast (0 : Int) : trunc ((0 : Int) : α) = 0)
      simpa using h
    rw [h0]
    decide
  refine ⟨hM, ?_, hnf, henc, ?_⟩
  · rw [hM]
    exact lt_irrefl _
  · simp only [normalize_and_write_to_file, if_true, henc, flatMap_int16_bytes_zero]

/-! ## WAV header -/

theorem int_bytes_eq_LE32 (x : Int) (h0 : 0 ≤ x) (h1 : x < 2 ^ 31) :
    fwrite_int x 4 = LE32 x.toNat := by
  have h : x % 2 ^ 32 = x := Int.emod_eq_of_lt h0 (by omega)
  simp only [fwrite_int, int_bytes, LE32, h]
  rfl

theorem header_total_file_size (n : Int) (h0 : 0 ≤ n) (h1 : 36 + 2 * n < 2 ^ 31) :
    to_int (to_size_t (36 + to_size_t (to_size_t (n * 1) * sizeof_int16_t))) = 36 + 2 * n := by
  simp only [to_int, to_size_t, sizeof_int16_t]
  omega

theorem header_data_size (n : Int) (h0 : 0 ≤ n) (h1 : 36 + 2 * n < 2 ^ 31) :
    to_int (to_size_t (n * sizeof_int16_t)) = 2 * n := by
  simp only [to_int, to_size_t, sizeof_int16_t]
  omega

theorem header_byte_rate (r : Int) (h0 : 0 ≤ 2 * r) (h1 : 2 * r < 2 ^ 31) :
    to_int (to_size_t (to_size_t (r * 1) * sizeof_int16_t)) = 2 * r := by
  simp only [to_int, to_size_t, sizeof_int16_t]
  omega

theorem write_wav_header_layout (n r : Int) (hn : 0 ≤ n) (hsize : 36 + 2 * n < 2 ^ 31)
    (hr : 0 ≤ 2 * r) (hr2 : 2 * r < 2 ^ 31) :
    write_wav_header n r
      = [82, 73, 70, 70] ++ LE32 (36 + 2 * n).toNat ++ [87, 65, 86, 69]
        ++ [102, 109, 116, 32] ++ LE32 16 ++ LE16 1 ++ LE16 1 ++ LE32 r.toNat
        ++ LE32 (2 * r).toNat ++ LE16 2 ++ LE16 16
        ++ [100, 97, 116, 97] ++ LE32 (2 * n).toNat := by
  unfold write_wav_header
  simp only []
  rw [header_total_file_size n hn hsize, header_data_size n hn hsize,
    header_byte_rate r hr hr2,
    int_bytes_eq_LE32 (36 + 2 * n) (by omega) hsize,
    int_bytes_eq_LE32 (2 * n) (by omega) (by omega),
    int_bytes_eq_LE32 (2 * r) hr hr2,
    int_bytes_eq_LE32 r (by omega) (by omega)]
  have h1 : fwrite_str "RIFF" = [82, 73, 70, 70] := by decide
  have h2 : fwrite_str "WAVE" = [87, 65, 86, 69] := by decide
  have h3 : fwrite_str "fmt " = [102, 109, 116, 32] := by decide
  have h4 : fwrite_str "data" = [100, 97, 116, 97] := by decide
  have h5 : fwrite_int 16 4 = LE32 16 := by decide
  have h6 : fwrite_int 1 2 = LE16 1 := by decide
  have h7 : fwrite_int (to_int (to_size_t (1 * sizeof_int16_t))) 2 = LE16 2 := by decide
  have h8 : fwrite_int 16 2 = LE16 16 := by decide
  rw [h1, h2, h3, h4, h5, h6, h7, h8]

theorem flatMap_int16_bytes_length (l : List Int) :
    (l.flatMap int16_bytes).length = 2 * l.length := by
  induction l with
  | nil => rfl
  | cons v l ih =>
    rw [List.flatMap_cons, List.length_append, ih, List.length_cons]
    simp only [int16_bytes, List.length_cons, List.length_nil]
    omega

/-- C7: for `0 <= n`, `36 + 2n < 2^31` and `0 <= 2R < 2^31`, on a little-endian host
`write_wav_header` emits exactly 44 bytes: "RIFF" (82 73 70 70), LE32(36 + 2n), "WAVE"
(87 65 86 69), "fmt " (102 109 116 32), LE32(16), LE16(1), LE16(1), LE32(R), LE32(2R),
LE16(2), LE16(16), "data" (100 97 116 97), LE32(2n); the complete file written by
`normalize_and_write_to_file` has length `44 + 2n` and its RIFF size field (bytes 4..7)
is that length minus 8. -/
theorem C7_wav_header_layout [FloorRing α] (n r : Int) (hn : 0 ≤ n)
    (hsize : 36 + 2 * n < 2 ^ 31) (hr : 0 ≤ 2 * r) (hr2 : 2 * r < 2 ^ 31)
    (buffer : Int → α) (filename : String) :
    write_wav_header n r
      = [82, 73, 70, 70] ++ LE32 (36 + 2 * n).toNat ++ [87, 65, 86, 69]
        ++ [102, 109, 116, 32] ++ LE32 16 ++ LE16 1 ++ LE16 1 ++ LE32 r.toNat
        ++ LE32 (2 * r).toNat ++ LE16 2 ++ LE16 16
        ++ [100, 97, 116, 97] ++ LE32 (2 * n).toNat
    ∧ (write_wav_header n r).length = 44
    ∧ ∃ bytes : List Nat,
        (normalize_and_write_to_file true filename buffer n r).file = some bytes
        ∧ (bytes.length : Int) = 44 + 2 * n
        ∧ (bytes.drop 4).take 4 = LE32 (bytes.length - 8) := by
  have hlay := write_wav_header_layout n r hn hsize hr hr2
  have hlen : (write_wav_header n r).length = 44 := by
    rw [hlay]
    simp [LE32, LE16]
  refine ⟨hlay, hlen, write_wav_header n r ++ (encoded_samples buffer n).flatMap int16_bytes,
    rfl, ?_, ?_⟩
  · rw [List.length_append, hlen, flatMap_int16_bytes_length, encoded_samples_length]
    push_cast
    omega
  · rw [List.length_append, hlen, flatMap_int16_bytes_length, encoded_samples_length, hlay]
    have h : 44 + 2 * n.toNat - 8 = (36 + 2 * n).toNat := by omega
    rw [h]
    simp [LE32, LE16]

/-! ## Truncation and the two-sample scenario -/

theorem trunc_spec [FloorRing α] (x : α) :
    |((trunc x : Int) : α)| ≤ |x| ∧ |x| < |((trunc x : Int) : α)| + 1
      ∧ 0 ≤ ((trunc x : Int) : α) * x := by
  unfold trunc
  by_cases h0 : 0 ≤ x
  · rw [if_pos h0]
    have h1 : (0 : α) ≤ ((Int.floor x : Int) : α) := by
      exact_mod_cast Int.floor_nonneg.mpr h0
    rw [abs_of_nonneg h1, abs_of_nonneg h0]
    exact ⟨Int.floor_le x, Int.lt_floor_add_one x, mul_nonneg h1 h0⟩
  · rw [if_neg h0]
    have hneg : x ≤ 0 := le_of_lt (not_le.mp h0)
    have h1 : ((Int.ceil x : Int) : α) ≤ 0 := by
      exact_mod_cast Int.ceil_le.mpr (by simpa using hneg)
    rw [abs_of_nonpos h1, abs_of_nonpos hneg]
    refine ⟨neg_le_neg (Int.le_ceil x), ?_, mul_nonneg_of_nonpos_of_nonpos h1 hneg⟩
    have := Int.ceil_lt_add_one x
    linarith

theorem int16_bytes_spec (v : Int) :
    ∃ lo hi : Nat, int16_bytes v = [lo, hi] ∧ lo < 256 ∧ hi < 256
      ∧ ((lo + 256 * hi : Nat) : Int) = v % 65536 := by
  let u : Nat := (v % 2 ^ 16).toNat
  have hu : (u : Int) = v % 65536 := by
    simp only [u]
    omega
  refine ⟨u % 256, u / 256 % 256, rfl, ?_, ?_, ?_⟩
  · omega
  · omega
  · rw [← hu]
    omega

theorem max_abs_1_mhalf : max_abs_scan buffer_1_mhalf 2 = 1 := by
  have hr : List.range (2 : Int).toNat = [0, 1] := by decide
  simp only [max_abs_scan, hr, List.foldl_cons, List.foldl_nil, buffer_1_mhalf]
  norm_num [abs_of_pos, abs_of_neg]

theorem norm_factor_one : norm_factor (1 : ℚ) = 32767 := by
  norm_num [norm_factor, MAX_AMPLITUDE]

theorem trunc_mhalf : trunc ((-1 / 2 : ℚ) * 32767) = -16383 := by
  unfold trunc
  norm_num
  rw [Int.ceil_eq_iff]
  norm_num

theorem encoded_1_mhalf : encoded_samples buffer_1_mhalf 2 = [32767, -16383] := by
  have hr : List.range (2 : Int).toNat = [0, 1] := by decide
  simp only [encoded_samples, hr, max_abs_1_mhalf, norm_factor_one, List.map_cons,
    List.map_nil]
  have h0 : buffer_1_mhalf ((0 : Nat) : Int) * 32767 = ((32767 : Int) : ℚ) := by
    norm_num [buffer_1_mhalf]
  have h1 : buffer_1_mhalf ((1 : Nat) : Int) * 32767 = (-1 / 2 : ℚ) * 32767 := by
    norm_num [buffer_1_mhalf]
  rw [h0, h1, trunc_intCast, trunc_mhalf]
  decide

/-- C6 (amended): in exact arithmetic, for a non-silent buffer, `max_abs` is the largest
`|buffer[j]|`, and for every index `i` the encoded 16-bit value is the truncation toward
zero of
`buffer[i] * 32767 / max_abs` (the integer `v` of the same sign with
`|v| <= |x| < |v| + 1`), written as the two little-endian bytes of its 16-bit two's
complement after the header.  For the buffer `[1.0, -0.5]`: `max_abs = 1`, scale `32767`,
encoded values `32767` and `-16383` (bytes 255 127 1 192), after a 44-byte header whose
data sub-chunk size field (bytes 40..43) is `4`. -/
theorem C6_truncating_encoding [FloorRing α] (buffer : Int → α) (n : Int)
    (hne : ∃ j : Nat, (j : Int) < n ∧ buffer (j : Int) ≠ 0) :
    (∀ j : Nat, (j : Int) < n → |buffer (j : Int)| ≤ max_abs_scan buffer n)
    ∧ (∃ j : Nat, (j : Int) < n ∧ |buffer (j : Int)| = max_abs_scan buffer n)
    ∧ (∀ i : Nat, (i : Int) < n → ∃ v : Int,
        (encoded_samples buffer n)[i]? = some v
        ∧ v = trunc (buffer (i : Int) * 32767 / max_abs_scan buffer n)
        ∧ |(v : α)| ≤ |buffer (i : Int) * 32767 / max_abs_scan buffer n|
        ∧ |buffer (i : Int) * 32767 / max_abs_scan buffer n| < |(v : α)| + 1
        ∧ 0 ≤ (v : α) * (buffer (i : Int) * 32767 / max_abs_scan buffer n))
    ∧ (∀ (filename : String) (sample_rate : Int),
        (normalize_and_write_to_file true filename buffer n sample_rate).file
          = some (write_wav_header n sample_rate
              ++ (encoded_samples buffer n).flatMap int16_bytes))
    ∧ (∀ v : Int, ∃ lo hi : Nat, int16_bytes v = [lo, hi] ∧ lo < 256 ∧ hi < 256
        ∧ ((lo + 256 * hi : Nat) : Int) = v % 65536)
    ∧ max_abs_scan buffer_1_mhalf 2 = 1
    ∧ norm_factor (max_abs_scan buffer_1_mhalf 2) = 32767
    ∧ encoded_samples buffer_1_mhalf 2 = [32767, -16383]
    ∧ (normalize_and_write_to_file true "out.wav" buffer_1_mhalf 2 16000).file
        = some ([82, 73, 70, 70, 40, 0, 0, 0, 87, 65, 86, 69, 102, 109, 116, 32,
                 16, 0, 0, 0, 1, 0, 1, 0, 128, 62, 0, 0, 0, 125, 0, 0, 2, 0, 16, 0,
                 100, 97, 116, 97, 4, 0, 0, 0] ++ [255, 127, 1, 192])
    ∧ (write_wav_header 2 16000).length = 44
    ∧ ((write_wav_header 2 16000).drop 40).take 4 = LE32 4 := by
  obtain ⟨j, hj, hjne⟩ := hne
  have hM := max_abs_scan_pos buffer n j hj hjne
  refine ⟨max_abs_scan_ge buffer n, max_abs_scan_attained buffer n (ne_of_gt hM), ?_,
    fun _ _ => rfl, int16_bytes_spec, max_abs_1_mhalf, ?_, encoded_1_mhalf, ?_, ?_, ?_⟩
  · intro i hi
    have hx : buffer (i : Int) * norm_factor (max_abs_scan buffer n)
        = buffer (i : Int) * 32767 / max_abs_scan buffer n := by
      unfold norm_factor
      rw [if_pos hM, mul_div_assoc]
      simp [MAX_AMPLITUDE]
    have hs := trunc_spec (buffer (i : Int) * 32767 / max_abs_scan buffer n)
    refine ⟨_, encoded_samples_get buffer n i hi, by rw [hx], ?_, ?_, ?_⟩
    · rw [hx]; exact hs.1
    · rw [hx]; exact hs.2.1
    · rw [hx]; exact hs.2.2
  · rw [max_abs_1_mhalf, norm_factor_one]
  · simp only [normalize_and_write_to_file, if_true, encoded_1_mhalf]
    decide
  · decide
  · decide

/-! ## Interpolation endpoints -/

/-- C8: for all parameter sets `p1`, `p2` and every `N > 0`, in exact arithmetic
`interpolate_params(p1, p2, N, 0)` equals `p1` and `interpolate_params(p1, p2, N, N)`
equals `p2`, in all 17 fields. -/
theorem C8_interpolation_endpoints (p1 p2 : PhonemeParams α) (N : Int) (hN : 0 < N) :
    interpolate_params p1 p2 N 0 = p1 ∧ interpolate_params p1 p2 N N = p2 := by
  have hN0 : (N : α) ≠ 0 := by
    exact_mod_cast (ne_of_gt hN)
  cases p1
  cases p2
  constructor
  · simp [interpolate_params]
  · simp [interpolate_params, div_self hN0]

/-! ## Resonant filter: pass-through and recurrence -/

theorem process_filter_disabled (f : KlattFilter α) (h : f.frequency = 0) (x : α) :
    process_filter f x = (x, f) := by
  simp [process_filter, h]

theorem process_filter_seq_disabled (f : KlattFilter α) (h : f.frequency = 0) (xs : List α) :
    process_filter_seq f xs = (xs, f) := by
  induction xs with
  | nil => rfl
  | cons x xs ih => simp [process_filter_seq, process_filter_disabled f h, ih]

/-- C9: for every filter state and every `(frequency, bandwidth)` with `frequency == 0`
or `bandwidth == 0`, after `update_filter_coefficients` (which keeps `y1`, `y2`) or
`initialize_filter` the coefficients are `a1 = a2 = 0`; each call of `process_filter`
returns its input and leaves the filter (so the history `y1`, `y2`) unchanged, and so
does every finite sequence of calls. -/
theorem C9_disabled_pass_through (m : LibM α) (f : KlattFilter α) (frequency bandwidth : α)
    (h : frequency = 0 ∨ bandwidth = 0) :
    (update_filter_coefficients m f frequency bandwidth).a1 = 0
    ∧ (update_filter_coefficients m f frequency bandwidth).a2 = 0
    ∧ (update_filter_coefficients m f frequency bandwidth).y1 = f.y1
    ∧ (update_filter_coefficients m f frequency bandwidth).y2 = f.y2
    ∧ (initialize_filter m f frequency bandwidth).a1 = 0
    ∧ (initialize_filter m f frequency bandwidth).a2 = 0
    ∧ (∀ x : α,
        process_filter (update_filter_coefficients m f frequency bandwidth) x
          = (x, update_filter_coefficients m f frequency bandwidth)
        ∧ process_filter (initialize_filter m f frequency bandwidth) x
          = (x, initialize_filter m f frequency bandwidth))
    ∧ (∀ xs : List α,
        process_filter_seq (update_filter_coefficients m f frequency bandwidth) xs
          = (xs, update_filter_coefficients m f frequency bandwidth)
        ∧ process_filter_seq (initialize_filter m f frequency bandwidth) xs
          = (xs, initialize_filter m f frequency bandwidth)) := by
  have hu : (update_filter_coefficients m f frequency bandwidth).frequency = 0 := by
    simp [update_filter_coefficients, h]
  have hi : (initialize_filter m f frequency bandwidth).frequency = 0 := by
    simp [initialize_filter, h]
  refine ⟨?_, ?_, ?_, ?_, ?_, ?_, ?_, ?_⟩
  · simp [update_filter_coefficients, h]
  · simp [update_filter_coefficients, h]
  · simp [update_filter_coefficients, h]
  · simp [update_filter_coefficients, h]
  · simp [initialize_filter, h]
  · simp [initialize_filter, h]
  · exact fun x => ⟨process_filter_disabled _ hu x, process_filter_disabled _ hi x⟩
  · exact fun xs => ⟨process_filter_seq_disabled _ hu xs, process_filter_seq_disabled _ hi xs⟩

theorem process_filter_seq_length (f : KlattFilter α) (xs : List α) :
    (process_filter_seq f xs).1.length = xs.length := by
  induction xs generalizing f with
  | nil => rfl
  | cons x xs ih => simp [process_filter_seq, ih]

theorem process_filter_enabled (f : KlattFilter α) (h : f.frequency ≠ 0) (x : α) :
    (process_filter f x).1 = x - f.a1 * f.y1 - f.a2 * f.y2
    ∧ (process_filter f x).2.y1 = x - f.a1 * f.y1 - f.a2 * f.y2
    ∧ (process_filter f x).2.y2 = f.y1
    ∧ (process_filter f x).2.a1 = f.a1
    ∧ (process_filter f x).2.a2 = f.a2
    ∧ (process_filter f x).2.frequency = f.frequency := by
  simp [process_filter, h]

/-- C10: for an enabled filter (`frequency != 0`) with coefficients `a1`, `a2` and any
input sequence `x_0, x_1, ...`, the outputs of successive `process_filter` calls satisfy
`y_n = x_n - a1*y_(n-1) - a2*y_(n-2)` with `y_(-1)`, `y_(-2)` the initial `y1`, `y2`
(the list `y2 :: y1 :: outputs` holds `y_(k-2)` at position `k`), and after the call on
`x_n` the stored history is `(y1, y2) = (y_n, y_(n-1))`, the coefficients being
unchanged. -/
theorem C10_filter_recurrence (f : KlattFilter α) (hf : f.frequency ≠ 0) (xs : List α) :
    (process_filter_seq f xs).1.length = xs.length
    ∧ ∀ (n : Nat) (x : α), xs[n]? = some x →
        ∃ yn yn1 yn2 : α,
          (f.y2 :: f.y1 :: (process_filter_seq f xs).1)[n + 2]? = some yn
          ∧ (f.y2 :: f.y1 :: (process_filter_seq f xs).1)[n + 1]? = some yn1
          ∧ (f.y2 :: f.y1 :: (process_filter_seq f xs).1)[n]? = some yn2
          ∧ yn = x - f.a1 * yn1 - f.a2 * yn2
          ∧ (process_filter_seq f (xs.take (n + 1))).2.y1 = yn
          ∧ (process_filter_seq f (xs.take (n + 1))).2.y2 = yn1
          ∧ (process_filter_seq f (xs.take (n + 1))).2.a1 = f.a1
          ∧ (process_filter_seq f (xs.take (n + 1))).2.a2 = f.a2
          ∧ (process_filter_seq f (xs.take (n + 1))).2.frequency = f.frequency := by
  refine ⟨process_filter_seq_length f xs, ?_⟩
  induction xs generalizing f with
  | nil =>
    intro n x hx
    simp at hx
  | cons x0 xs ih =>
    intro n x hx
    obtain ⟨ho, hy1, hy2, ha1, ha2, hfr⟩ := process_filter_enabled f hf x0
    cases n with
    | zero =>
      simp only [List.getElem?_cons_zero, Option.some.injEq] at hx
      subst hx
      refine ⟨x0 - f.a1 * f.y1 - f.a2 * f.y2, f.y1, f.y2, ?_, ?_, ?_, rfl, ?_, ?_, ?_, ?_, ?_⟩
      · simp [process_filter_seq, ho]
      · simp
      · simp
      · simp [process_filter_seq, hy1]
      · simp [process_filter_seq, hy2]
      · simp [process_filter_seq, ha1]
      · simp [process_filter_seq, ha2]
      · simp [process_filter_seq, hfr]
    | succ k =>
      have hx' : xs[k]? = some x := by simpa using hx
      have hf' : (process_filter f x0).2.frequency ≠ 0 := by rw [hfr]; exact hf
      obtain ⟨yn, yn1, yn2, h2, h1, h0, hrec, hs1, hs2, hsa1, hsa2, hsf⟩ :=
        ih (process_filter f x0).2 hf' k x hx'
      rw [hy2, hy1] at h2 h1 h0
      rw [ha1, ha2] at hrec
      refine ⟨yn, yn1, yn2, ?_, ?_, ?_, hrec, ?_, ?_, ?_, ?_, ?_⟩
      · simpa [process_filter_seq, ho] using h2
      · simpa [process_filter_seq, ho] using h1
      · simpa [process_filter_seq, ho] using h0
      · simpa [process_filter_seq] using hs1
      · simpa [process_filter_seq] using hs2
      · simpa [process_filter_seq, ha1] using hsa1
      · simpa [process_filter_seq, ha2] using hsa2
      · simpa [process_filter_seq, hfr] using hsf

/-! ## The theorems at concrete inputs -/

theorem C1_diphone_duration_witness :
    0 ≤ diphone_sil_ae.start_frames ∧ 0 ≤ diphone_sil_ae.transition_frames
    ∧ 0 ≤ diphone_sil_ae.end_frames
    ∧ (synthesize_diphone ratLibM diphone_sil_ae startSynth).current_sample
        = startSynth.current_sample
          + (diphone_sil_ae.start_frames + diphone_sil_ae.transition_frames
              + diphone_sil_ae.end_frames) * 160 :=
  ⟨by decide, by decide, by decide,
    C1_diphone_duration ratLibM diphone_sil_ae startSynth (by decide) (by decide) (by decide)⟩

theorem C4_normalized_peak_witness :
    (1 : Int) ≤ 2
    ∧ (∃ j : Nat, (j : Int) < 2 ∧ buffer_1_mhalf (j : Int) ≠ 0)
    ∧ (∃ i : Nat, (i : Int) < 2 ∧
        ((encoded_samples buffer_1_mhalf 2)[i]? = some 32767
          ∨ (encoded_samples buffer_1_mhalf 2)[i]? = some (-32767)))
    ∧ (∀ v ∈ encoded_samples buffer_1_mhalf 2, |v| ≤ 32767) :=
  have h1 : (1 : Int) ≤ 2 := by decide
  have h2 : ∃ j : Nat, (j : Int) < 2 ∧ buffer_1_mhalf (j : Int) ≠ 0 :=
    ⟨0, by decide, by simp [buffer_1_mhalf]⟩
  ⟨h1, h2, (C4_normalized_peak buffer_1_mhalf 2 h1 h2).1,
    (C4_normalized_peak buffer_1_mhalf 2 h1 h2).2.2.1⟩

theorem C5_silent_buffer_witness :
    (∀ i : Nat, (i : Int) < 3 → silent_buffer (i : Int) = 0)
    ∧ max_abs_scan silent_buffer 3 = 0
    ∧ norm_factor (max_abs_scan silent_buffer 3) = 0
    ∧ encoded_samples silent_buffer 3 = List.replicate (3 : Int).toNat 0 :=
  have h : ∀ i : Nat, (i : Int) < 3 → silent_buffer (i : Int) = 0 := fun _ _ => rfl
  ⟨h, (C5_silent_buffer silent_buffer 3 h "out.wav" 16000).1,
    (C5_silent_buffer silent_buffer 3 h "out.wav" 16000).2.2.1,
    (C5_silent_buffer silent_buffer 3 h "out.wav" 16000).2.2.2.1⟩

theorem C6_truncating_encoding_witness :
    (∃ j : Nat, (j : Int) < 2 ∧ buffer_1_mhalf (j : Int) ≠ 0)
    ∧ (∀ j : Nat, (j : Int) < 2 → |buffer_1_mhalf (j : Int)| ≤ max_abs_scan buffer_1_mhalf 2)
    ∧ (∃ v : Int,
        (encoded_samples buffer_1_mhalf 2)[1]? = some v
        ∧ v = trunc (buffer_1_mhalf ((1 : Nat) : Int) * 32767 / max_abs_scan buffer_1_mhalf 2)
        ∧ |(v : ℚ)| ≤ |buffer_1_mhalf ((1 : Nat) : Int) * 32767 / max_abs_scan buffer_1_mhalf 2|
        ∧ |buffer_1_mhalf ((1 : Nat) : Int) * 32767 / max_abs_scan buffer_1_mhalf 2|
            < |(v : ℚ)| + 1
        ∧ 0 ≤ (v : ℚ)
            * (buffer_1_mhalf ((1 : Nat) : Int) * 32767 / max_abs_scan buffer_1_mhalf 2)) :=
  have h : ∃ j : Nat, (j : Int) < 2 ∧ buffer_1_mhalf (j : Int) ≠ 0 :=
    ⟨0, by decide, by simp [buffer_1_mhalf]⟩
  ⟨h, (C6_truncating_encoding buffer_1_mhalf 2 h).1,
    (C6_truncating_encoding buffer_1_mhalf 2 h).2.2.1 1 (by decide)⟩

theorem C7_wav_header_layout_witness :
    (0 : Int) ≤ 2 ∧ (36 + 2 * 2 : Int) < 2 ^ 31 ∧ (0 : Int) ≤ 2 * 16000
    ∧ (2 * 16000 : Int) < 2 ^ 31
    ∧ write_wav_header 2 16000
      = [82, 73, 70, 70] ++ LE32 (36 + 2 * 2 : Int).toNat ++ [87, 65, 86, 69]
        ++ [102, 109, 116, 32] ++ LE32 16 ++ LE16 1 ++ LE16 1 ++ LE32 (16000 : Int).toNat
        ++ LE32 (2 * 16000 : Int).toNat ++ LE16 2 ++ LE16 16
        ++ [100, 97, 116, 97] ++ LE32 (2 * 2 : Int).toNat
    ∧ (write_wav_header 2 16000).length = 44 :=
  ⟨by decide, by decide, by decide, by decide,
    (C7_wav_header_layout 2 16000 (by decide) (by decide) (by decide) (by decide)
      buffer_1_mhalf "out.wav").1,
    (C7_wav_header_layout 2 16000 (by decide) (by decide) (by decide) (by decide)
      buffer_1_mhalf "out.wav").2.1⟩

theorem C8_interpolation_endpoints_witness :
    (0 : Int) < 10
    ∧ interpolate_params PHONEME_SILENCE PHONEME_AE_VOWEL 10 0 = PHONEME_SILENCE
    ∧ interpolate_params PHONEME_SILENCE PHONEME_AE_VOWEL 10 10 = PHONEME_AE_VOWEL :=
  ⟨by decide, C8_interpolation_endpoints PHONEME_SILENCE PHONEME_AE_VOWEL 10 (by decide)⟩

theorem C9_disabled_pass_through_witness :
    ((0 : ℚ) = 0 ∨ (50 : ℚ) = 0)
    ∧ (update_filter_coefficients ratLibM ringingFilter 0 50).a1 = 0
    ∧ (update_filter_coefficients ratLibM ringingFilter 0 50).a2 = 0
    ∧ (update_filter_coefficients ratLibM ringingFilter 0 50).y1 = ringingFilter.y1
    ∧ (update_filter_coefficients ratLibM ringingFilter 0 50).y2 = ringingFilter.y2
    ∧ process_filter_seq (update_filter_coefficients ratLibM ringingFilter 0 50) [1, -2, 3]
        = ([1, -2, 3], update_filter_coefficients ratLibM ringingFilter 0 50) :=
  have h : (0 : ℚ) = 0 ∨ (50 : ℚ) = 0 := Or.inl rfl
  ⟨h, (C9_disabled_pass_through ratLibM ringingFilter 0 50 h).1,
    (C9_disabled_pass_through ratLibM ringingFilter 0 50 h).2.1,
    (C9_disabled_pass_through ratLibM ringingFilter 0 50 h).2.2.1,
    (C9_disabled_pass_through ratLibM ringingFilter 0 50 h).2.2.2.1,
    ((C9_disabled_pass_through ratLibM ringingFilter 0 50 h).2.2.2.2.2.2.2 [1, -2, 3]).1⟩

theorem C10_filter_recurrence_witness :
    ringingFilter.frequency ≠ 0
    ∧ (process_filter_seq ringingFilter [1, 0, 0]).1.length = [(1 : ℚ), 0, 0].length
    ∧ ∃ yn yn1 yn2 : ℚ,
        (ringingFilter.y2 :: ringingFilter.y1
            :: (process_filter_seq ringingFilter [1, 0, 0]).1)[1 + 2]? = some yn
        ∧ (ringingFilter.y2 :: ringingFilter.y1
            :: (process_filter_seq ringingFilter [1, 0, 0]).1)[1 + 1]? = some yn1
        ∧ (ringingFilter.y2 :: ringingFilter.y1
            :: (process_filter_seq ringingFilter [1, 0, 0]).1)[1]? = some yn2
        ∧ yn = 0 - ringingFilter.a1 * yn1 - ringingFilter.a2 * yn2
        ∧ (process_filter_seq ringingFilter ([(1 : ℚ), 0, 0].take (1 + 1))).2.y1 = yn
        ∧ (process_filter_seq ringingFilter ([(1 : ℚ), 0, 0].take (1 + 1))).2.y2 = yn1
        ∧ (process_filter_seq ringingFilter ([(1 : ℚ), 0, 0].take (1 + 1))).2.a1
            = ringingFilter.a1
        ∧ (process_filter_seq ringingFilter ([(1 : ℚ), 0, 0].take (1 + 1))).2.a2
            = ringingFilter.a2
        ∧ (process_filter_seq ringingFilter ([(1 : ℚ), 0, 0].take (1 + 1))).2.frequency
            = ringingFilter.frequency :=
  have h : ringingFilter.frequency ≠ 0 := by simp [ringingFilter]
  ⟨h, (C10_filter_recurrence ringingFilter h [1, 0, 0]).1,
    (C10_filter_recurrence ringingFilter h [1, 0, 0]).2 1 0 rfl⟩

end Klatt

namespace Klatt

variable {α : Type} [LinearOrderedField α]

/-! ## Pole placement of the resonator (libm taken as the real functions) -/

theorem update_enabled_real (f : KlattFilter ℝ) (frequency bandwidth : ℝ)
    (hf : frequency ≠ 0) (hb : bandwidth ≠ 0) :
    update_filter_coefficients (LibM.mk Real.pi Real.exp Real.cos Real.sin) f frequency bandwidth
      = { f with
          radius := Real.exp (-Real.pi * bandwidth / 16000)
          angle := 2 * Real.pi * frequency / 16000
          a1 := -2 * Real.exp (-Real.pi * bandwidth / 16000)
                  * Real.cos (2 * Real.pi * frequency / 16000)
          a2 := Real.exp (-Real.pi * bandwidth / 16000)
                  * Real.exp (-Real.pi * bandwidth / 16000)
          frequency := frequency
          bandwidth := bandwidth } := by
  have h1 : -Real.pi * bandwidth * (1 / ((SAMPLE_RATE : Int) : ℝ))
      = -Real.pi * bandwidth / 16000 := by
    simp [SAMPLE_RATE]; ring
  have h2 : 2 * Real.pi * frequency * (1 / ((SAMPLE_RATE : Int) : ℝ))
      = 2 * Real.pi * frequency / 16000 := by
    simp [SAMPLE_RATE]; ring
  unfold update_filter_coefficients
  simp only [hf, hb, or_self, if_false, h1, h2]

theorem initialize_enabled_real (f : KlattFilter ℝ) (frequency bandwidth : ℝ)
    (hf : frequency ≠ 0) (hb : bandwidth ≠ 0) :
    initialize_filter (LibM.mk Real.pi Real.exp Real.cos Real.sin) f frequency bandwidth
      = { radius := Real.exp (-Real.pi * bandwidth / 16000)
          angle := 2 * Real.pi * frequency / 16000
          a1 := -2 * Real.exp (-Real.pi * bandwidth / 16000)
                  * Real.cos (2 * Real.pi * frequency / 16000)
          a2 := Real.exp (-Real.pi * bandwidth / 16000)
                  * Real.exp (-Real.pi * bandwidth / 16000)
          y1 := 0
          y2 := 0
          frequency := frequency
          bandwidth := bandwidth } := by
  have h1 : -Real.pi * bandwidth * (1 / ((SAMPLE_RATE : Int) : ℝ))
      = -Real.pi * bandwidth / 16000 := by
    simp [SAMPLE_RATE]; ring
  have h2 : 2 * Real.pi * frequency * (1 / ((SAMPLE_RATE : Int) : ℝ))
      = 2 * Real.pi * frequency / 16000 := by
    simp [SAMPLE_RATE]; ring
  unfold initialize_filter
  simp only [hf, hb, or_self, if_false, h1, h2]

theorem radius_bounds (bandwidth : ℝ) (hb : 0 < bandwidth) :
    0 < Real.exp (-Real.pi * bandwidth / 16000)
      ∧ Real.exp (-Real.pi * bandwidth / 16000) < 1 := by
  refine ⟨Real.exp_pos _, Real.exp_lt_one_iff.mpr ?_⟩
  have := mul_pos Real.pi_pos hb
  have h : -Real.pi * bandwidth / 16000 = -(Real.pi * bandwidth) / 16000 := by ring
  rw [h]
  apply div_neg_of_neg_of_pos
  · linarith
  · norm_num

/-- C12, at `frequency = 0`: with `bandwidth = 100 > 0` both entry points take the
disabled branch and store `a2 = 0`, so the stored `a2` is not in `(0, 1)`. -/
theorem C12_disabled_counterexample :
    (0 : ℝ) < 100
    ∧ ¬ (0 < (update_filter_coefficients (LibM.mk Real.pi Real.exp Real.cos Real.sin)
          (KlattFilter.mk 0 0 0 0 0 0 0 0) 0 100).a2)
    ∧ ¬ (0 < (initialize_filter (LibM.mk Real.pi Real.exp Real.cos Real.sin)
          (KlattFilter.mk 0 0 0 0 0 0 0 0) 0 100).a2) := by
  refine ⟨by norm_num, ?_, ?_⟩
  · simp [update_filter_coefficients]
  · simp [initialize_filter]

/-- C12 (amended): in exact real arithmetic (`exp`, `cos`, `sin` and `pi` the real ones),
for every `bandwidth > 0`, `r = exp(-pi*bandwidth/16000)` satisfies `0 < r < 1`; for
every `frequency != 0`, `initialize_filter` and
`update_filter_coefficients` store `radius = r` and `a2 = r^2` with `0 < a2 < 1`; for
`frequency = 0` they compute no radius and store `a2 = 0` (filter disabled). -/
theorem C12_radius_stable (f : KlattFilter ℝ) (frequency bandwidth : ℝ)
    (hb : 0 < bandwidth) :
    (0 < Real.exp (-Real.pi * bandwidth / 16000)
      ∧ Real.exp (-Real.pi * bandwidth / 16000) < 1)
    ∧ (frequency ≠ 0 →
        (update_filter_coefficients (LibM.mk Real.pi Real.exp Real.cos Real.sin)
            f frequency bandwidth).radius = Real.exp (-Real.pi * bandwidth / 16000)
        ∧ (update_filter_coefficients (LibM.mk Real.pi Real.exp Real.cos Real.sin)
            f frequency bandwidth).a2 = Real.exp (-Real.pi * bandwidth / 16000) ^ 2
        ∧ 0 < (update_filter_coefficients (LibM.mk Real.pi Real.exp Real.cos Real.sin)
            f frequency bandwidth).a2
        ∧ (update_filter_coefficients (LibM.mk Real.pi Real.exp Real.cos Real.sin)
            f frequency bandwidth).a2 < 1
        ∧ (initialize_filter (LibM.mk Real.pi Real.exp Real.cos Real.sin)
            f frequency bandwidth).radius = Real.exp (-Real.pi * bandwidth / 16000)
        ∧ (initialize_filter (LibM.mk Real.pi Real.exp Real.cos Real.sin)
            f frequency bandwidth).a2 = Real.exp (-Real.pi * bandwidth / 16000) ^ 2
        ∧ 0 < (initialize_filter (LibM.mk Real.pi Real.exp Real.cos Real.sin)
            f frequency bandwidth).a2
        ∧ (initialize_filter (LibM.mk Real.pi Real.exp Real.cos Real.sin)
            f frequency bandwidth).a2 < 1)
    ∧ (frequency = 0 →
        (update_filter_coefficients (LibM.mk Real.pi Real.exp Real.cos Real.sin)
            f frequency bandwidth).a2 = 0
        ∧ (initialize_filter (LibM.mk Real.pi Real.exp Real.cos Real.sin)
            f frequency bandwidth).a2 = 0) := by
  obtain ⟨h0, h1⟩ := radius_bounds bandwidth hb
  have hsq0 : 0 < Real.exp (-Real.pi * bandwidth / 16000)
      * Real.exp (-Real.pi * bandwidth / 16000) := mul_pos h0 h0
  have hsq1 : Real.exp (-Real.pi * bandwidth / 16000)
      * Real.exp (-Real.pi * bandwidth / 16000) < 1 := by nlinarith
  refine ⟨⟨h0, h1⟩, ?_, ?_⟩
  · intro hf
    rw [update_enabled_real f frequency bandwidth hf (ne_of_gt hb),
      initialize_enabled_real f frequency bandwidth hf (ne_of_gt hb)]
    exact ⟨rfl, (sq _).symm, hsq0, hsq1, rfl, (sq _).symm, hsq0, hsq1⟩
  · intro hf
    constructor
    · simp [update_filter_coefficients, hf]
    · simp [initialize_filter, hf]

/-! ## The frames of a diphone -/

omit [LinearOrderedField α] in
theorem iterate_eq_foldl_replicate {σ : Type} (frame : PhonemeParams α → σ → σ)
    (p : PhonemeParams α) (n : Nat) (s : σ) :
    Nat.iterate (frame p) n s
      = List.foldl (fun st q => frame q st) s (List.replicate n p) := by
  induction n generalizing s with
  | zero => rfl
  | succ n ih => rw [Function.iterate_succ_apply, List.replicate_succ, List.foldl_cons, ih]

theorem synthesize_diphone_calls_eq_foldl {σ : Type} (frame : PhonemeParams α → σ → σ)
    (d : Diphone α) (s : σ) :
    synthesize_diphone_calls frame d s
      = List.foldl (fun st q => frame q st) s
          (List.replicate d.start_frames.toNat d.p1
            ++ (List.range d.transition_frames.toNat).map
                (fun (i : Nat) => interpolate_params d.p1 d.p2 d.transition_frames (i : Int))
            ++ List.replicate d.end_frames.toNat d.p2) := by
  unfold synthesize_diphone_calls
  simp only []
  rw [List.foldl_append, List.foldl_append, List.foldl_map, iterate_eq_foldl_replicate,
    iterate_eq_foldl_replicate]

omit [LinearOrderedField α] in
theorem foldl_log (l acc : List (PhonemeParams α)) :
    List.foldl (fun (st : List (PhonemeParams α)) q => st ++ [q]) acc l = acc ++ l := by
  induction l generalizing acc with
  | nil => simp
  | cons a l ih => rw [List.foldl_cons, ih, List.append_assoc, List.singleton_append]

/-- C13: for a diphone `(p1, p2, s, t, e)` with non-negative counts, the parameter sets
that `synthesize_diphone` passes to `synthesize_frame` are, in order: `p1` repeated `s`
times, then `interpolate_params(p1, p2, t, i)` for `i = 0, ..., t-1`, then `p2` repeated
`e` times.  `synthesize_diphone` is its three loops with `synthesize_frame` as callee;
the same loops with a callee that records its argument yield the stated list; and the
result of `synthesize_diphone` is `synthesize_frame` folded over that list. -/
theorem C13_diphone_frame_sequence (m : LibM α) (d : Diphone α) (st : Synth α)
    (s t e : Nat) (hs : d.start_frames = (s : Int)) (ht : d.transition_frames = (t : Int))
    (he : d.end_frames = (e : Int)) :
    synthesize_diphone m d st = synthesize_diphone_calls (synthesize_frame m) d st
    ∧ synthesize_diphone_calls (fun p (log : List (PhonemeParams α)) => log ++ [p]) d []
        = List.replicate s d.p1
          ++ (List.range t).map (fun (i : Nat) => interpolate_params d.p1 d.p2 (t : Int) (i : Int))
          ++ List.replicate e d.p2
    ∧ synthesize_diphone m d st
        = List.foldl (fun acc p => synthesize_frame m p acc) st
            (List.replicate s d.p1
              ++ (List.range t).map
                  (fun (i : Nat) => interpolate_params d.p1 d.p2 (t : Int) (i : Int))
              ++ List.replicate e d.p2) := by
  have hs' : d.start_frames.toNat = s := by rw [hs]; rfl
  have ht' : d.transition_frames.toNat = t := by rw [ht]; rfl
  have he' : d.end_frames.toNat = e := by rw [he]; rfl
  refine ⟨rfl, ?_, ?_⟩
  · rw [synthesize_diphone_calls_eq_foldl, foldl_log, hs', ht', he', ht]
    rfl
  · have h : synthesize_diphone m d st = synthesize_diphone_calls (synthesize_frame m) d st :=
      rfl
    rw [h, synthesize_diphone_calls_eq_foldl, hs', ht', he', ht]

/-! ## Engine reset -/

/-- C15: from every engine state, `reset_synthesis_engine_state` produces a state with
`glottal_pulse_phase = 0`, `glottal_pulse_last_sample = 0`, `random_seed = 1`,
`hp_x1 = hp_y1 = 0`, and each of the seven filters `f1..f6`, `fn_noise` has
`frequency = bandwidth = a1 = a2 = y1 = y2 = 0`. -/
theorem C15_reset_quiescent (m : LibM α) (e : Engine α) :
    (reset_synthesis_engine_state m e).glottal_pulse_phase = 0
    ∧ (reset_synthesis_engine_state m e).glottal_pulse_last_sample = 0
    ∧ (reset_synthesis_engine_state m e).random_seed = 1
    ∧ (reset_synthesis_engine_state m e).hp_x1 = 0
    ∧ (reset_synthesis_engine_state m e).hp_y1 = 0
    ∧ ∀ g ∈ [(reset_synthesis_engine_state m e).f1, (reset_synthesis_engine_state m e).f2,
              (reset_synthesis_engine_state m e).f3, (reset_synthesis_engine_state m e).f4,
              (reset_synthesis_engine_state m e).f5, (reset_synthesis_engine_state m e).f6,
              (reset_synthesis_engine_state m e).fn_noise],
        g.frequency = 0 ∧ g.bandwidth = 0 ∧ g.a1 = 0 ∧ g.a2 = 0 ∧ g.y1 = 0 ∧ g.y2 = 0 := by
  refine ⟨rfl, rfl, rfl, rfl, rfl, ?_⟩
  intro g hg
  simp only [List.mem_cons, List.mem_singleton, List.not_mem_nil, or_false] at hg
  rcases hg with h | h | h | h | h | h | h <;>
    (subst h
     simp [reset_synthesis_engine_state, initialize_high_pass_filter, initialize_filter])

/-! ## Sources -/

/-- C16: for `F0 <= 0` or `amplitude == 0`, `generate_glottal_pulse_derivative` returns `0`
and sets `glottal_pulse_phase` and `glottal_pulse_last_sample` to `0`, leaving every other
part of the engine state unchanged. -/
theorem C16_voicing_off (m : LibM α) (F0 amplitude : α) (e : Engine α)
    (h : F0 ≤ 0 ∨ amplitude = 0) :
    generate_glottal_pulse_derivative m F0 amplitude e
      = (0, { e with glottal_pulse_phase := 0, glottal_pulse_last_sample := 0 }) := by
  unfold generate_glottal_pulse_derivative
  rw [if_pos h]

/-- C17: for `F0 > 0` and `amplitude != 0`, with `T0 = 1/F0` and `p` the phase after the
advance-and-wrap step (the stored new phase), `generate_glottal_pulse_derivative` computes
`raw = sin(pi*p/(0.3*T0))` when `p < 0.3*T0` and `raw = -sin(pi*(p - 0.3*T0)/(0.05*T0))`
otherwise, returns `(raw - previous raw) * amplitude`, and stores `raw` as the new
`glottal_pulse_last_sample`; nothing else of the engine changes. -/
theorem C17_glottal_shape (m : LibM α) (F0 amplitude : α) (e : Engine α) (T0 p raw : α)
    (hF : 0 < F0) (ha : amplitude ≠ 0) (hT : T0 = 1 / F0)
    (hp : p = (generate_glottal_pulse_derivative m F0 amplitude e).2.glottal_pulse_phase)
    (hraw : raw = if p < 3 / 10 * T0 then m.sin (m.M_PI * p / (3 / 10 * T0))
                  else -m.sin (m.M_PI * (p - 3 / 10 * T0) / (5 / 100 * T0))) :
    (generate_glottal_pulse_derivative m F0 amplitude e).1
      = (raw - e.glottal_pulse_last_sample) * amplitude
    ∧ (generate_glottal_pulse_derivative m F0 amplitude e).2.glottal_pulse_last_sample = raw
    ∧ (generate_glottal_pulse_derivative m F0 amplitude e).2
        = { e with glottal_pulse_phase := p, glottal_pulse_last_sample := raw }
    ∧ p = (if e.glottal_pulse_phase + 1 / 16000 ≥ T0
            then e.glottal_pulse_phase + 1 / 16000 - T0
            else e.glottal_pulse_phase + 1 / 16000) := by
  have hcond : ¬ (F0 ≤ 0 ∨ amplitude = 0) := by
    rintro (h | h)
    · exact absurd hF (not_lt.mpr h)
    · exact ha h
  have hsr : ((SAMPLE_RATE : Int) : α) = 16000 := by simp [SAMPLE_RATE]
  have hpe : p = (if e.glottal_pulse_phase + 1 / 16000 ≥ T0
            then e.glottal_pulse_phase + 1 / 16000 - T0
            else e.glottal_pulse_phase + 1 / 16000) := by
    rw [hp, hT]
    unfold generate_glottal_pulse_derivative
    simp only [if_neg hcond, hsr]
  have hopen : (1 / F0) * (3 / 10 : α) = 3 / 10 * T0 := by rw [hT]; ring
  have hclose : (1 / F0) * (5 / 100 : α) = 5 / 100 * T0 := by rw [hT]; ring
  have hval : generate_glottal_pulse_derivative m F0 amplitude e
      = ((raw - e.glottal_pulse_last_sample) * amplitude,
          { e with glottal_pulse_phase := p, glottal_pulse_last_sample := raw }) := by
    rw [hraw, hpe, hT]
    unfold generate_glottal_pulse_derivative
    simp only [if_neg hcond, hsr, hopen, hclose, hT]
  rw [hval]
  exact ⟨rfl, rfl, rfl, hpe⟩

/-- C19: for every engine state, `generate_noise_source(0)` returns `0` and leaves the
whole engine state unchanged (`random_seed` and the noise filter included). -/
theorem C19_noise_off (e : Engine α) : generate_noise_source (0 : α) e = (0, e) := by
  simp [generate_noise_source]

/-- C20: for every seed `s` and every `amplitude != 0`, `generate_noise_source` sets
`random_seed` to `s' = (s * 1103515245 + 12345) mod 2^32` and feeds the noise filter the
value `v = 2*s'/(2^32 - 1) - 1`, which satisfies `-1 <= v <= 1`; the result is the filter
output times `amplitude`, and with the noise filter disabled it is `amplitude * v`. -/
theorem C20_noise_lcg (amplitude : α) (e : Engine α) (s' : Nat) (v : α)
    (ha : amplitude ≠ 0) (hs : s' = (e.random_seed * 1103515245 + 12345) % 2 ^ 32)
    (hv : v = 2 * (s' : α) / (2 ^ 32 - 1) - 1) :
    generate_noise_source amplitude e
      = ((process_filter e.fn_noise v).1 * amplitude,
          { e with random_seed := s', fn_noise := (process_filter e.fn_noise v).2 })
    ∧ s' < 2 ^ 32
    ∧ -1 ≤ v ∧ v ≤ 1
    ∧ (e.fn_noise.frequency = 0 →
        (generate_noise_source amplitude e).1 = amplitude * v
        ∧ (generate_noise_source amplitude e).2 = { e with random_seed := s' }) := by
  have hlt : s' < 2 ^ 32 := by
    rw [hs]
    exact Nat.mod_lt _ (by norm_num)
  have hv' : ((s' : α) / ((UINT32_MAX : Nat) : α)) * 2 - 1 = v := by
    rw [hv]
    simp only [UINT32_MAX]
    norm_num
    ring
  have hgen : generate_noise_source amplitude e
      = ((process_filter e.fn_noise v).1 * amplitude,
          { e with random_seed := s', fn_noise := (process_filter e.fn_noise v).2 }) := by
    unfold generate_noise_source
    simp only [if_neg ha, ← hs, hv']
  have hle : (s' : α) ≤ 2 ^ 32 - 1 := by
    have h : s' ≤ 2 ^ 32 - 1 := by omega
    have h2 : ((s' : Nat) : α) ≤ ((2 ^ 32 - 1 : Nat) : α) := by exact_mod_cast h
    have h3 : ((2 ^ 32 - 1 : Nat) : α) = 2 ^ 32 - 1 := by norm_num
    rw [h3] at h2
    exact h2
  have hden : (0 : α) < 2 ^ 32 - 1 := by norm_num
  have h0 : (0 : α) ≤ (s' : α) := Nat.cast_nonneg _
  refine ⟨hgen, hlt, ?_, ?_, ?_⟩
  · rw [hv]
    have : 0 ≤ 2 * (s' : α) / (2 ^ 32 - 1) := div_nonneg (by linarith) (le_of_lt hden)
    linarith
  · rw [hv]
    have : 2 * (s' : α) / (2 ^ 32 - 1) ≤ 2 := by
      rw [div_le_iff₀ hden]
      linarith
    linarith
  · intro hdis
    rw [hgen, process_filter_disabled _ hdis]
    refine ⟨mul_comm _ _, ?_⟩
    simp

end Klatt

namespace Klatt

variable {α : Type} [LinearOrderedField α]

/-! ## Stores only at or above the cursor -/

omit [LinearOrderedField α] in
theorem Synth.Extends.refl (s : Synth α) : s.Extends s :=
  ⟨le_refl _, fun _ _ => rfl, [], rfl, fun _ h => by cases h⟩

omit [LinearOrderedField α] in
theorem Synth.Extends.trans {s r t : Synth α} (h1 : s.Extends r) (h2 : r.Extends t) :
    s.Extends t := by
  obtain ⟨hc1, hcell1, w1, hw1, hb1⟩ := h1
  obtain ⟨hc2, hcell2, w2, hw2, hb2⟩ := h2
  refine ⟨le_trans hc1 hc2, ?_, w2 ++ w1, ?_, ?_⟩
  · intro j hj
    rw [hcell2 j (lt_of_lt_of_le hj hc1), hcell1 j hj]
  · rw [hw2, hw1, List.append_assoc]
  · intro x hx
    rcases List.mem_append.mp hx with h | h
    · exact le_trans hc1 (hb2 x h)
    · exact hb1 x h

theorem synthesize_sample_extends (m : LibM α) (p : PhonemeParams α) (s : Synth α) :
    s.Extends (synthesize_sample m p s) := by
  unfold synthesize_sample
  by_cases h : s.current_sample < MAX_SAMPLES
  · simp only [h, if_true]
    refine ⟨by simp, ?_, [(s.current_sample, _)], rfl, ?_⟩
    · intro j hj
      exact Function.update_noteq (ne_of_lt hj) _ _
    · intro x hx
      rw [List.mem_singleton.mp hx]
  · simp only [h, if_false]
    exact ⟨by simp, fun _ _ => rfl, [], rfl, fun _ hx => by cases hx⟩

omit [LinearOrderedField α] in
theorem iterate_extends (f : Synth α → Synth α) (hf : ∀ s : Synth α, s.Extends (f s)) (n : Nat)
    (s : Synth α) : s.Extends (Nat.iterate f n s) := by
  induction n generalizing s with
  | zero => exact Synth.Extends.refl s
  | succ n ih =>
    rw [Function.iterate_succ_apply]
    exact (hf s).trans (ih (f s))

omit [LinearOrderedField α] in
theorem foldl_extends {β : Type} (f : Synth α → β → Synth α)
    (hf : ∀ (b : β) (s : Synth α), s.Extends (f s b)) (l : List β) (s : Synth α) :
    s.Extends (List.foldl f s l) := by
  induction l generalizing s with
  | nil => exact Synth.Extends.refl s
  | cons b l ih =>
    rw [List.foldl_cons]
    exact (hf b s).trans (ih (f s b))

theorem synthesize_frame_extends (m : LibM α) (p : PhonemeParams α) (s : Synth α) :
    s.Extends (synthesize_frame m p s) := by
  unfold synthesize_frame
  exact iterate_extends _ (synthesize_sample_extends m p) _ _

/-! ## Silence frames from the reset state -/

theorem generate_noise_source_zero (e : Engine α) :
    generate_noise_source (0 : α) e = (0, e) := by
  simp [generate_noise_source]

theorem glottal_quiet (m : LibM α) (F0 a : α) (E : Engine α) (hF0 : F0 = 0)
    (hph : E.glottal_pulse_phase = 0) (hl : E.glottal_pulse_last_sample = 0) :
    generate_glottal_pulse_derivative m F0 a E = (0, E) := by
  unfold generate_glottal_pulse_derivative
  rw [if_pos (Or.inl (le_of_eq hF0))]
  cases E
  simp only at hph hl
  subst hph hl
  rfl

theorem high_pass_quiet (E : Engine α) (hx : E.hp_x1 = 0) (hy : E.hp_y1 = 0) :
    process_high_pass_filter 0 E = (0, E) := by
  unfold process_high_pass_filter
  cases E
  simp only at hx hy
  subst hx hy
  simp

theorem quiet_sample (m : LibM α) (p : PhonemeParams α) (E : Engine α) (s : Synth α)
    (hs : s.engine = E) (hF0 : p.F0 = 0) (hAN : p.AN = 0)
    (hph : E.glottal_pulse_phase = 0) (hl : E.glottal_pulse_last_sample = 0)
    (h1 : E.f1.frequency = 0) (h2 : E.f2.frequency = 0) (h3 : E.f3.frequency = 0)
    (h4 : E.f4.frequency = 0) (h5 : E.f5.frequency = 0) (h6 : E.f6.frequency = 0)
    (hx : E.hp_x1 = 0) (hy : E.hp_y1 = 0) :
    synthesize_sample m p s
      = if s.current_sample < MAX_SAMPLES then
          { engine := E
            cells := Function.update s.cells s.current_sample 0
            stores := (s.current_sample, 0) :: s.stores
            current_sample := s.current_sample + 1 }
        else
          { engine := E
            cells := s.cells
            stores := s.stores
            current_sample := s.current_sample + 1 } := by
  have hE : ({ E with f1 := E.f1, f2 := E.f2, f3 := E.f3, f4 := E.f4, f5 := E.f5,
                      f6 := E.f6 } : Engine α) = E := rfl
  unfold synthesize_sample
  simp only [hs, hAN, glottal_quiet m p.F0 p.AF E hF0 hph hl, generate_noise_source_zero,
    add_zero, process_filter_disabled _ h1, process_filter_disabled _ h2,
    process_filter_disabled _ h3, process_filter_disabled _ h4,
    process_filter_disabled _ h5, process_filter_disabled _ h6, hE,
    high_pass_quiet E hx hy]

theorem initialize_filter_off (m : LibM α) (f : KlattFilter α) :
    (initialize_filter m f 0 0).frequency = 0 := by
  simp [initialize_filter]

theorem update_after_initialize_off (m : LibM α) (f : KlattFilter α) (B : α) :
    update_filter_coefficients m (initialize_filter m f 0 0) 0 B
      = initialize_filter m f 0 0 := by
  simp [update_filter_coefficients, initialize_filter]

theorem silent_sample_reset (m : LibM α) (p : PhonemeParams α) (e : Engine α) (s : Synth α)
    (hs : s.engine = reset_synthesis_engine_state m e) (hF0 : p.F0 = 0) (hAN : p.AN = 0) :
    synthesize_sample m p s
      = if s.current_sample < MAX_SAMPLES then
          { engine := reset_synthesis_engine_state m e
            cells := Function.update s.cells s.current_sample 0
            stores := (s.current_sample, 0) :: s.stores
            current_sample := s.current_sample + 1 }
        else
          { engine := reset_synthesis_engine_state m e
            cells := s.cells
            stores := s.stores
            current_sample := s.current_sample + 1 } :=
  quiet_sample m p (reset_synthesis_engine_state m e) s hs hF0 hAN rfl rfl
    (initialize_filter_off m e.f1) (initialize_filter_off m e.f2)
    (initialize_filter_off m e.f3) (initialize_filter_off m e.f4)
    (initialize_filter_off m e.f5) (initialize_filter_off m e.f6) rfl rfl

theorem silent_frame_eq_samples (m : LibM α) (p : PhonemeParams α) (e : Engine α)
    (s : Synth α) (hs : s.engine = reset_synthesis_engine_state m e)
    (h1 : p.F1 = 0) (h2 : p.F2 = 0) (h3 : p.F3 = 0) (h4 : p.F4 = 0) (h5 : p.F5 = 0)
    (h6 : p.F6 = 0) :
    synthesize_frame m p s = Nat.iterate (synthesize_sample m p) 160 s := by
  have hf1 : (reset_synthesis_engine_state m e).f1 = initialize_filter m e.f1 0 0 := rfl
  have hf2 : (reset_synthesis_engine_state m e).f2 = initialize_filter m e.f2 0 0 := rfl
  have hf3 : (reset_synthesis_engine_state m e).f3 = initialize_filter m e.f3 0 0 := rfl
  have hf4 : (reset_synthesis_engine_state m e).f4 = initialize_filter m e.f4 0 0 := rfl
  have hf5 : (reset_synthesis_engine_state m e).f5 = initialize_filter m e.f5 0 0 := rfl
  have hf6 : (reset_synthesis_engine_state m e).f6 = initialize_filter m e.f6 0 0 := rfl
  have hn : num_frame_samples.toNat = 160 := by rw [num_frame_samples_eq]; rfl
  unfold synthesize_frame
  simp only [hn, hs, h1, h2, h3, h4, h5, h6, hf1, hf2, hf3, hf4, hf5, hf6,
    update_after_initialize_off]
  congr 1
  cases s
  simp only at hs
  subst hs
  rfl

theorem silent_samples (m : LibM α) (p : PhonemeParams α) (e : Engine α)
    (hF0 : p.F0 = 0) (hAN : p.AN = 0) (n : Nat) (s : Synth α)
    (hs : s.engine = reset_synthesis_engine_state m e) :
    (Nat.iterate (synthesize_sample m p) n s).engine = reset_synthesis_engine_state m e
    ∧ (Nat.iterate (synthesize_sample m p) n s).current_sample = s.current_sample + n
    ∧ (∀ j : Int, (Nat.iterate (synthesize_sample m p) n s).cells j = s.cells j
        ∨ (Nat.iterate (synthesize_sample m p) n s).cells j = 0)
    ∧ ∃ w : List (Int × α),
        (Nat.iterate (synthesize_sample m p) n s).stores = w ++ s.stores
        ∧ (∀ x ∈ w, x.2 = 0 ∧ s.current_sample ≤ x.1)
        ∧ (∀ j : Int, s.current_sample ≤ j → j < s.current_sample + n → j < MAX_SAMPLES →
            (Nat.iterate (synthesize_sample m p) n s).cells j = 0 ∧ (j, (0 : α)) ∈ w) := by
  induction n with
  | zero =>
    refine ⟨hs, by simp, fun j => Or.inl rfl, [], rfl, ?_, ?_⟩
    · intro x hx
      cases hx
    · intro j h1 h2
      simp only [Nat.cast_zero, add_zero] at h2
      omega
  | succ n ih =>
    obtain ⟨he, hc, hcells, w, hw, hwz, hrange⟩ := ih
    rw [Function.iterate_succ_apply']
    rw [silent_sample_reset m p e _ he hF0 hAN]
    by_cases hlt : (Nat.iterate (synthesize_sample m p) n s).current_sample < MAX_SAMPLES
    · rw [if_pos hlt]
      refine ⟨rfl, ?_, ?_,
        ((Nat.iterate (synthesize_sample m p) n s).current_sample, 0) :: w, ?_, ?_, ?_⟩
      · show (Nat.iterate (synthesize_sample m p) n s).current_sample + 1
          = s.current_sample + ((n + 1 : Nat) : Int)
        rw [hc]; push_cast; ring
      · intro j
        show Function.update (Nat.iterate (synthesize_sample m p) n s).cells
            (Nat.iterate (synthesize_sample m p) n s).current_sample 0 j = s.cells j
          ∨ Function.update (Nat.iterate (synthesize_sample m p) n s).cells
            (Nat.iterate (synthesize_sample m p) n s).current_sample 0 j = 0
        by_cases hj : j = (Nat.iterate (synthesize_sample m p) n s).current_sample
        · right
          rw [hj, Function.update_same]
        · rw [Function.update_noteq hj]
          exact hcells j
      · show ((Nat.iterate (synthesize_sample m p) n s).current_sample, (0 : α))
            :: (Nat.iterate (synthesize_sample m p) n s).stores
          = (((Nat.iterate (synthesize_sample m p) n s).current_sample, (0 : α)) :: w)
            ++ s.stores
        rw [hw, List.cons_append]
      · intro x hx
        rcases List.mem_cons.mp hx with h | h
        · rw [h]
          exact ⟨rfl, by simp only [hc]; omega⟩
        · exact hwz x h
      · intro j h1 h2 h3
        show Function.update (Nat.iterate (synthesize_sample m p) n s).cells
            (Nat.iterate (synthesize_sample m p) n s).current_sample 0 j = 0 ∧ _
        by_cases hj : j = (Nat.iterate (synthesize_sample m p) n s).current_sample
        · rw [hj, Function.update_same]
          exact ⟨rfl, List.mem_cons_self _ _⟩
        · rw [Function.update_noteq hj]
          have hj' : j < s.current_sample + n := by
            rw [hc] at hj
            push_cast at h2
            omega
          obtain ⟨hz, hmem⟩ := hrange j h1 hj' h3
          exact ⟨hz, List.mem_cons_of_mem _ hmem⟩
    · rw [if_neg hlt]
      refine ⟨rfl, ?_, hcells, w, hw, hwz, ?_⟩
      · show (Nat.iterate (synthesize_sample m p) n s).current_sample + 1
          = s.current_sample + ((n + 1 : Nat) : Int)
        rw [hc]; push_cast; ring
      intro j h1 h2 h3
      show (Nat.iterate (synthesize_sample m p) n s).cells j = 0 ∧ _
      have hj' : j < s.current_sample + n := by
        rw [hc] at hlt
        push_cast at h2
        omega
      exact hrange j h1 hj' h3

theorem silent_frames_eq_samples (m : LibM α) (p : PhonemeParams α) (e : Engine α)
    (hF0 : p.F0 = 0) (hAN : p.AN = 0)
    (h1 : p.F1 = 0) (h2 : p.F2 = 0) (h3 : p.F3 = 0) (h4 : p.F4 = 0) (h5 : p.F5 = 0)
    (h6 : p.F6 = 0) (k : Nat) (s : Synth α)
    (hs : s.engine = reset_synthesis_engine_state m e) :
    Nat.iterate (synthesize_frame m p) k s
      = Nat.iterate (synthesize_sample m p) (160 * k) s := by
  induction k with
  | zero => rfl
  | succ k ih =>
    rw [Function.iterate_succ_apply', ih,
      silent_frame_eq_samples m p e _ (silent_samples m p e hF0 hAN (160 * k) s hs).1
        h1 h2 h3 h4 h5 h6,
      ← Function.iterate_add_apply]
    congr 1
    omega

theorem synthesize_diphone_extends_start (m : LibM α) (d : Diphone α) (s : Synth α) :
    (Nat.iterate (synthesize_frame m d.p1) d.start_frames.toNat s).Extends
      (synthesize_diphone m d s) := by
  unfold synthesize_diphone
  simp only []
  exact (foldl_extends _ (fun _ st => synthesize_frame_extends m _ st) _ _).trans
    (iterate_extends _ (synthesize_frame_extends m d.p2) _ _)

theorem silent_start_of_diphone (m : LibM α) (d : Diphone α) (e : Engine α)
    (cells : Int → α) (n : Nat) (hn : d.start_frames.toNat = n)
    (hmax : ((160 * n : Nat) : Int) ≤ MAX_SAMPLES)
    (hF0 : d.p1.F0 = 0) (hAN : d.p1.AN = 0)
    (h1 : d.p1.F1 = 0) (h2 : d.p1.F2 = 0) (h3 : d.p1.F3 = 0) (h4 : d.p1.F4 = 0)
    (h5 : d.p1.F5 = 0) (h6 : d.p1.F6 = 0) :
    (∀ j : Int, 0 ≤ j → j < ((160 * n : Nat) : Int) →
        (synthesize_diphone m d ⟨reset_synthesis_engine_state m e, cells, [], 0⟩).cells j = 0
        ∧ (j, (0 : α)) ∈
            (synthesize_diphone m d ⟨reset_synthesis_engine_state m e, cells, [], 0⟩).stores)
    ∧ (∀ x ∈ (synthesize_diphone m d ⟨reset_synthesis_engine_state m e, cells, [], 0⟩).stores,
        x.1 < ((160 * n : Nat) : Int) → x.2 = 0) := by
  have hext := synthesize_diphone_extends_start m d
    ⟨reset_synthesis_engine_state m e, cells, [], 0⟩
  rw [hn, silent_frames_eq_samples m d.p1 e hF0 hAN h1 h2 h3 h4 h5 h6 n _ rfl] at hext
  obtain ⟨-, hc, -, w1, hw1, hz1, hr1⟩ :=
    silent_samples m d.p1 e hF0 hAN (160 * n)
      (⟨reset_synthesis_engine_state m e, cells, [], 0⟩ : Synth α) rfl
  simp only [zero_add] at hc hr1 hz1
  obtain ⟨-, hcell, w, hw, hb⟩ := hext
  rw [hc] at hcell hb
  rw [hw1, List.append_nil] at hw
  constructor
  · intro j hj0 hj
    obtain ⟨hzero, hmem⟩ := hr1 j hj0 hj (lt_of_lt_of_le hj hmax)
    rw [hcell j hj, hw]
    exact ⟨hzero, List.mem_append_right _ hmem⟩
  · intro x hx hlt
    rw [hw] at hx
    rcases List.mem_append.mp hx with h | h
    · exact absurd (hb x h) (not_le.mpr hlt)
    · exact (hz1 x h).1

/-- C14: starting from the state produced by `reset_synthesis_engine_state`, for every
`k >= 0`, synthesizing `k` frames with silence parameters (`F0 = 0`, `AF = 0`, `AN = 0`,
all formant frequencies and bandwidths `0`) stores `0.0` at every position it stores to
(every position from the cursor on that is below `MAX_SAMPLES`) and leaves the engine
equal to the reset state.  In particular, for the diphone
`{silence, PHONEME_AE_VOWEL, 5, 10, 5}` synthesized from a reset engine at cursor `0`,
the samples `0 .. 799` are stored as `0.0` and the cursor ends at `3200`. -/
theorem C14_silence_frames (m : LibM α) (p : PhonemeParams α) (e : Engine α)
    (cells : Int → α) (stores : List (Int × α)) (c : Int) (k : Nat)
    (hsil : p.F0 = 0 ∧ p.AF = 0 ∧ p.AN = 0 ∧ p.F1 = 0 ∧ p.B1 = 0 ∧ p.F2 = 0 ∧ p.B2 = 0
      ∧ p.F3 = 0 ∧ p.B3 = 0 ∧ p.F4 = 0 ∧ p.B4 = 0 ∧ p.F5 = 0 ∧ p.B5 = 0 ∧ p.F6 = 0
      ∧ p.B6 = 0) :
    (Nat.iterate (synthesize_frame m p) k
        ⟨reset_synthesis_engine_state m e, cells, stores, c⟩).engine
      = reset_synthesis_engine_state m e
    ∧ (Nat.iterate (synthesize_frame m p) k
        ⟨reset_synthesis_engine_state m e, cells, stores, c⟩).current_sample
      = c + 160 * (k : Int)
    ∧ (∀ j : Int,
        (Nat.iterate (synthesize_frame m p) k
          ⟨reset_synthesis_engine_state m e, cells, stores, c⟩).cells j = cells j
        ∨ (Nat.iterate (synthesize_frame m p) k
          ⟨reset_synthesis_engine_state m e, cells, stores, c⟩).cells j = 0)
    ∧ (∃ w : List (Int × α),
        (Nat.iterate (synthesize_frame m p) k
          ⟨reset_synthesis_engine_state m e, cells, stores, c⟩).stores = w ++ stores
        ∧ (∀ x ∈ w, x.2 = 0)
        ∧ (∀ j : Int, c ≤ j → j < c + 160 * (k : Int) → j < MAX_SAMPLES →
            (j, (0 : α)) ∈ w
            ∧ (Nat.iterate (synthesize_frame m p) k
                ⟨reset_synthesis_engine_state m e, cells, stores, c⟩).cells j = 0))
    ∧ (∀ (m0 : LibM ℚ) (e0 : Engine ℚ) (cells0 : Int → ℚ),
        (∀ j : Int, 0 ≤ j → j < 800 →
          (synthesize_diphone m0 diphone_sil_ae
            ⟨reset_synthesis_engine_state m0 e0, cells0, [], 0⟩).cells j = 0
          ∧ (j, (0 : ℚ)) ∈ (synthesize_diphone m0 diphone_sil_ae
              ⟨reset_synthesis_engine_state m0 e0, cells0, [], 0⟩).stores)
        ∧ (∀ x ∈ (synthesize_diphone m0 diphone_sil_ae
              ⟨reset_synthesis_engine_state m0 e0, cells0, [], 0⟩).stores,
            x.1 < 800 → x.2 = 0)
        ∧ (synthesize_diphone m0 diphone_sil_ae
            ⟨reset_synthesis_engine_state m0 e0, cells0, [], 0⟩).current_sample = 3200) := by
  obtain ⟨hF0, -, hAN, h1, -, h2, -, h3, -, h4, -, h5, -, h6, -⟩ := hsil
  rw [silent_frames_eq_samples m p e hF0 hAN h1 h2 h3 h4 h5 h6 k _ rfl]
  obtain ⟨he, hc, hcells, w, hw, hz, hr⟩ :=
    silent_samples m p e hF0 hAN (160 * k)
      (⟨reset_synthesis_engine_state m e, cells, stores, c⟩ : Synth α) rfl
  refine ⟨he, ?_, hcells, ⟨w, hw, fun x hx => (hz x hx).1, ?_⟩, ?_⟩
  · rw [hc]
    push_cast
    rfl
  · intro j hj1 hj2 hj3
    have hj2' : j < c + ((160 * k : Nat) : Int) := by
      push_cast
      exact hj2
    obtain ⟨hzero, hmem⟩ := hr j hj1 hj2' hj3
    exact ⟨hmem, hzero⟩
  · intro m0 e0 cells0
    have hstart : diphone_sil_ae.start_frames.toNat = 5 := rfl
    have hmax : ((160 * 5 : Nat) : Int) ≤ MAX_SAMPLES := by decide
    obtain ⟨ha, hb⟩ := silent_start_of_diphone m0 diphone_sil_ae e0 cells0 5 hstart hmax
      rfl rfl rfl rfl rfl rfl rfl rfl
    refine ⟨fun j hj0 hj => ha j hj0 (by push_cast; omega),
      fun x hx hlt => hb x hx (by push_cast; omega), ?_⟩
    rw [synthesize_diphone_cursor]
    rfl

/-! ## Glottal phase across a change of `F0` -/

theorem synthesize_sample_glottal_phase (m : LibM α) (p : PhonemeParams α) (s : Synth α) :
    (synthesize_sample m p s).engine.glottal_pulse_phase
      = (generate_glottal_pulse_derivative m p.F0 p.AF s.engine).2.glottal_pulse_phase := by
  unfold synthesize_sample generate_noise_source process_high_pass_filter
  by_cases h : s.current_sample < MAX_SAMPLES <;> by_cases h2 : p.AN = 0 <;> simp [h, h2]

theorem glottal_phase_no_wrap (m : LibM α) (F0 a : α) (e : Engine α) (hF : 0 < F0)
    (ha : a ≠ 0) (hlt : e.glottal_pulse_phase + 1 / 16000 < 1 / F0) :
    (generate_glottal_pulse_derivative m F0 a e).2.glottal_pulse_phase
      = e.glottal_pulse_phase + 1 / 16000 := by
  have hcond : ¬ (F0 ≤ 0 ∨ a = 0) := by
    rintro (h | h)
    · exact absurd hF (not_lt.mpr h)
    · exact ha h
  have hsr : ((SAMPLE_RATE : Int) : α) = 16000 := by simp [SAMPLE_RATE]
  unfold generate_glottal_pulse_derivative
  simp only [if_neg hcond, hsr, ge_iff_le, if_neg (not_le.mpr hlt)]

theorem iterate_sample_phase (m : LibM α) (p : PhonemeParams α) (hF : 0 < p.F0)
    (ha : p.AF ≠ 0) (n : Nat) (s : Synth α)
    (hb : s.engine.glottal_pulse_phase + (n : α) / 16000 < 1 / p.F0) :
    (Nat.iterate (synthesize_sample m p) n s).engine.glottal_pulse_phase
      = s.engine.glottal_pulse_phase + (n : α) / 16000 := by
  induction n with
  | zero => simp
  | succ n ih =>
    have hstep : s.engine.glottal_pulse_phase + (n : α) / 16000 + 1 / 16000
        = s.engine.glottal_pulse_phase + ((n + 1 : Nat) : α) / 16000 := by
      push_cast
      ring
    have hb' : s.engine.glottal_pulse_phase + (n : α) / 16000 < 1 / p.F0 := by
      have h16 : (0 : α) < 1 / 16000 := by norm_num
      rw [← hstep] at hb
      linarith
    rw [Function.iterate_succ_apply', synthesize_sample_glottal_phase,
      glottal_phase_no_wrap m p.F0 p.AF _ hF ha (by rw [ih hb', hstep]; exact hb),
      ih hb', hstep]

theorem synthesize_frame_phase (m : LibM α) (p : PhonemeParams α) (hF : 0 < p.F0)
    (ha : p.AF ≠ 0) (s : Synth α)
    (hb : s.engine.glottal_pulse_phase + 160 / 16000 < 1 / p.F0) :
    (synthesize_frame m p s).engine.glottal_pulse_phase
      = s.engine.glottal_pulse_phase + 160 / 16000 := by
  have hn : num_frame_samples.toNat = 160 := by rw [num_frame_samples_eq]; rfl
  unfold synthesize_frame
  simp only [hn]
  rw [iterate_sample_phase m p hF ha 160 _ (by simpa using hb)]
  simp

/-- C18, evaluated: one frame with `F0 = 50`, `AF = 1` from the reset state leaves the
phase at `160/16000 = 1/100`; the next call of `generate_glottal_pulse_derivative` with
`F0 = 400` (`T0 = 1/400`) subtracts `T0` once and leaves the phase at `121/16000`, which is
not below `T0`, whereas `(1/100 + 1/16000)` modulo `T0` is `1/16000`. -/
theorem C18_phase_exceeds_period :
    (synthesize_frame ratLibM voiced_50Hz startSynth).engine.glottal_pulse_phase = 1 / 100
    ∧ (0 : ℚ) < 400 ∧ (1 : ℚ) ≠ 0
    ∧ (generate_glottal_pulse_derivative ratLibM 400 1
        (synthesize_frame ratLibM voiced_50Hz startSynth).engine).2.glottal_pulse_phase
      = 121 / 16000
    ∧ ¬ ((generate_glottal_pulse_derivative ratLibM 400 1
        (synthesize_frame ratLibM voiced_50Hz startSynth).engine).2.glottal_pulse_phase
      < 1 / 400)
    ∧ (1 / 100 + 1 / 16000 : ℚ) - 4 * (1 / 400) = 1 / 16000
    ∧ (0 : ℚ) ≤ 1 / 16000 ∧ (1 / 16000 : ℚ) < 1 / 400 := by
  have hframe : (synthesize_frame ratLibM voiced_50Hz startSynth).engine.glottal_pulse_phase
      = 1 / 100 := by
    have h0 : startSynth.engine.glottal_pulse_phase = 0 := rfl
    have hF : (0 : ℚ) < voiced_50Hz.F0 := by norm_num [voiced_50Hz]
    have ha : voiced_50Hz.AF ≠ 0 := by norm_num [voiced_50Hz]
    rw [synthesize_frame_phase ratLibM voiced_50Hz hF ha startSynth
      (by rw [h0]; norm_num [voiced_50Hz]), h0]
    norm_num
  have hcall : (generate_glottal_pulse_derivative ratLibM 400 1
        (synthesize_frame ratLibM voiced_50Hz startSynth).engine).2.glottal_pulse_phase
      = 121 / 16000 := by
    unfold generate_glottal_pulse_derivative
    simp only [hframe, SAMPLE_RATE]
    norm_num
  refine ⟨hframe, by norm_num, by norm_num, hcall, ?_, by norm_num, by norm_num, by norm_num⟩
  rw [hcall]
  norm_num

/-! ## The theorems of this part at concrete inputs -/

theorem C12_radius_stable_witness :
    (0 : ℝ) < 50
    ∧ 0 < Real.exp (-Real.pi * 50 / 16000)
    ∧ Real.exp (-Real.pi * 50 / 16000) < 1
    ∧ ((700 : ℝ) ≠ 0 →
        0 < (update_filter_coefficients (LibM.mk Real.pi Real.exp Real.cos Real.sin)
              (KlattFilter.mk 0 0 0 0 0 0 0 0) 700 50).a2
        ∧ (update_filter_coefficients (LibM.mk Real.pi Real.exp Real.cos Real.sin)
              (KlattFilter.mk 0 0 0 0 0 0 0 0) 700 50).a2 < 1) :=
  have hb : (0 : ℝ) < 50 := by norm_num
  ⟨hb, (C12_radius_stable (KlattFilter.mk 0 0 0 0 0 0 0 0) 700 50 hb).1.1,
    (C12_radius_stable (KlattFilter.mk 0 0 0 0 0 0 0 0) 700 50 hb).1.2,
    fun hf =>
      ⟨((C12_radius_stable (KlattFilter.mk 0 0 0 0 0 0 0 0) 700 50 hb).2.1 hf).2.2.1,
        ((C12_radius_stable (KlattFilter.mk 0 0 0 0 0 0 0 0) 700 50 hb).2.1 hf).2.2.2.1⟩⟩

theorem C13_diphone_frame_sequence_witness :
    diphone_sil_ae.start_frames = ((5 : Nat) : Int)
    ∧ diphone_sil_ae.transition_frames = ((10 : Nat) : Int)
    ∧ diphone_sil_ae.end_frames = ((5 : Nat) : Int)
    ∧ synthesize_diphone_calls (fun p (log : List (PhonemeParams ℚ)) => log ++ [p])
        diphone_sil_ae []
      = List.replicate 5 diphone_sil_ae.p1
        ++ (List.range 10).map
            (fun (i : Nat) =>
              interpolate_params diphone_sil_ae.p1 diphone_sil_ae.p2 ((10 : Nat) : Int) (i : Int))
        ++ List.replicate 5 diphone_sil_ae.p2 :=
  ⟨rfl, rfl, rfl,
    (C13_diphone_frame_sequence ratLibM diphone_sil_ae startSynth 5 10 5 rfl rfl rfl).2.1⟩

theorem C14_silence_frames_witness :
    (PHONEME_SILENCE.F0 = 0 ∧ PHONEME_SILENCE.AF = 0 ∧ PHONEME_SILENCE.AN = 0
      ∧ PHONEME_SILENCE.F1 = 0 ∧ PHONEME_SILENCE.B1 = 0 ∧ PHONEME_SILENCE.F2 = 0
      ∧ PHONEME_SILENCE.B2 = 0 ∧ PHONEME_SILENCE.F3 = 0 ∧ PHONEME_SILENCE.B3 = 0
      ∧ PHONEME_SILENCE.F4 = 0 ∧ PHONEME_SILENCE.B4 = 0 ∧ PHONEME_SILENCE.F5 = 0
      ∧ PHONEME_SILENCE.B5 = 0 ∧ PHONEME_SILENCE.F6 = 0 ∧ PHONEME_SILENCE.B6 = 0)
    ∧ (Nat.iterate (synthesize_frame ratLibM PHONEME_SILENCE) 5
        ⟨reset_synthesis_engine_state ratLibM startEngine, silent_buffer, [], 0⟩).engine
      = reset_synthesis_engine_state ratLibM startEngine
    ∧ (Nat.iterate (synthesize_frame ratLibM PHONEME_SILENCE) 5
        ⟨reset_synthesis_engine_state ratLibM startEngine, silent_buffer, [], 0⟩).current_sample
      = 0 + 160 * ((5 : Nat) : Int) :=
  have h : PHONEME_SILENCE.F0 = 0 ∧ PHONEME_SILENCE.AF = 0 ∧ PHONEME_SILENCE.AN = 0
      ∧ PHONEME_SILENCE.F1 = 0 ∧ PHONEME_SILENCE.B1 = 0 ∧ PHONEME_SILENCE.F2 = 0
      ∧ PHONEME_SILENCE.B2 = 0 ∧ PHONEME_SILENCE.F3 = 0 ∧ PHONEME_SILENCE.B3 = 0
      ∧ PHONEME_SILENCE.F4 = 0 ∧ PHONEME_SILENCE.B4 = 0 ∧ PHONEME_SILENCE.F5 = 0
      ∧ PHONEME_SILENCE.B5 = 0 ∧ PHONEME_SILENCE.F6 = 0 ∧ PHONEME_SILENCE.B6 = 0 :=
    ⟨rfl, rfl, rfl, rfl, rfl, rfl, rfl, rfl, rfl, rfl, rfl, rfl, rfl, rfl, rfl⟩
  ⟨h, (C14_silence_frames ratLibM PHONEME_SILENCE startEngine silent_buffer [] 0 5 h).1,
    (C14_silence_frames ratLibM PHONEME_SILENCE startEngine silent_buffer [] 0 5 h).2.1⟩

theorem C16_voicing_off_witness :
    ((0 : ℚ) ≤ 0 ∨ (1 : ℚ) = 0)
    ∧ generate_glottal_pulse_derivative ratLibM 0 1 startEngine
      = (0, { startEngine with glottal_pulse_phase := 0, glottal_pulse_last_sample := 0 }) :=
  have h : (0 : ℚ) ≤ 0 ∨ (1 : ℚ) = 0 := Or.inl (le_refl 0)
  ⟨h, C16_voicing_off ratLibM 0 1 startEngine h⟩

theorem C17_glottal_shape_witness :
    (0 : ℚ) < 120 ∧ (1 : ℚ) ≠ 0
    ∧ (generate_glottal_pulse_derivative ratLibM 120 1 startEngine).2.glottal_pulse_phase
      = (if startEngine.glottal_pulse_phase + 1 / 16000 ≥ 1 / 120
          then startEngine.glottal_pulse_phase + 1 / 16000 - 1 / 120
          else startEngine.glottal_pulse_phase + 1 / 16000)
    ∧ (generate_glottal_pulse_derivative ratLibM 120 1 startEngine).1
      = ((if (generate_glottal_pulse_derivative ratLibM 120 1
                startEngine).2.glottal_pulse_phase < 3 / 10 * (1 / 120)
          then ratLibM.sin (ratLibM.M_PI
                * (generate_glottal_pulse_derivative ratLibM 120 1
                    startEngine).2.glottal_pulse_phase / (3 / 10 * (1 / 120)))
          else -ratLibM.sin (ratLibM.M_PI
                * ((generate_glottal_pulse_derivative ratLibM 120 1
                    startEngine).2.glottal_pulse_phase - 3 / 10 * (1 / 120))
                / (5 / 100 * (1 / 120))))
          - startEngine.glottal_pulse_last_sample) * 1 :=
  have hF : (0 : ℚ) < 120 := by norm_num
  have ha : (1 : ℚ) ≠ 0 := by norm_num
  ⟨hF, ha,
    (C17_glottal_shape ratLibM 120 1 startEngine (1 / 120) _ _ hF ha rfl rfl rfl).2.2.2,
    (C17_glottal_shape ratLibM 120 1 startEngine (1 / 120) _ _ hF ha rfl rfl rfl).1⟩

theorem C20_noise_lcg_witness :
    (1 : ℚ) ≠ 0
    ∧ 1103527590 = (startEngine.random_seed * 1103515245 + 12345) % 2 ^ 32
    ∧ generate_noise_source (1 : ℚ) startEngine
      = ((process_filter startEngine.fn_noise
            (2 * ((1103527590 : Nat) : ℚ) / (2 ^ 32 - 1) - 1)).1 * 1,
          { startEngine with
            random_seed := 1103527590
            fn_noise := (process_filter startEngine.fn_noise
              (2 * ((1103527590 : Nat) : ℚ) / (2 ^ 32 - 1) - 1)).2 })
    ∧ (-1 : ℚ) ≤ 2 * ((1103527590 : Nat) : ℚ) / (2 ^ 32 - 1) - 1
    ∧ 2 * ((1103527590 : Nat) : ℚ) / (2 ^ 32 - 1) - 1 ≤ 1 :=
  have ha : (1 : ℚ) ≠ 0 := by norm_num
  have hs : 1103527590 = (startEngine.random_seed * 1103515245 + 12345) % 2 ^ 32 := by decide
  ⟨ha, hs, (C20_noise_lcg 1 startEngine 1103527590 _ ha hs rfl).1,
    (C20_noise_lcg 1 startEngine 1103527590 _ ha hs rfl).2.2.1,
    (C20_noise_lcg 1 startEngine 1103527590 _ ha hs rfl).2.2.2.1⟩

end Klatt

namespace Klatt

variable {α : Type} [LinearOrderedField α]

/-! ## The two derivation entry points of the resonator -/

/-- C24: for every filter state and every `(frequency, bandwidth)`,
`update_filter_coefficients` leaves `y1`, `y2` unchanged, `initialize_filter` sets
`y1 = y2 = 0`, and `initialize_filter(f, frequency, bandwidth)` yields the same state as
`update_filter_coefficients(f, frequency, bandwidth)` followed by zeroing `y1` and `y2`. -/
theorem C24_initialize_is_update_zeroed (m : LibM α) (f : KlattFilter α)
    (frequency bandwidth : α) :
    (update_filter_coefficients m f frequency bandwidth).y1 = f.y1
    ∧ (update_filter_coefficients m f frequency bandwidth).y2 = f.y2
    ∧ (initialize_filter m f frequency bandwidth).y1 = 0
    ∧ (initialize_filter m f frequency bandwidth).y2 = 0
    ∧ initialize_filter m f frequency bandwidth
        = { update_filter_coefficients m f frequency bandwidth with y1 := 0, y2 := 0 } := by
  unfold update_filter_coefficients initialize_filter
  by_cases h : frequency = 0 ∨ bandwidth = 0
  · rw [if_pos h, if_pos h]
    exact ⟨rfl, rfl, rfl, rfl, rfl⟩
  · rw [if_neg h, if_neg h]
    exact ⟨rfl, rfl, rfl, rfl, rfl⟩

/-! ## Diphones: empty diphone and the calls of `interpolate_params` -/

/-- C25: for every engine state, buffer and cursor, `synthesize_diphone` applied to a
diphone whose start, transition and end frame counts are all `0` leaves the cursor, the
buffer (cells and executed stores) and the whole engine state unchanged. -/
theorem C25_empty_diphone (m : LibM α) (d : Diphone α) (s : Synth α)
    (hs : d.start_frames = 0) (ht : d.transition_frames = 0) (he : d.end_frames = 0) :
    synthesize_diphone m d s = s := by
  simp [synthesize_diphone, hs, ht, he]

omit [LinearOrderedField α] in
theorem foldl_append_log {β γ : Type} (g : β → γ) (l : List β) (acc : List γ) :
    List.foldl (fun (st : List γ) (i : β) => st ++ [g i]) acc l = acc ++ l.map g := by
  induction l generalizing acc with
  | nil => simp
  | cons a l ih =>
    rw [List.foldl_cons, ih, List.map_cons, List.append_assoc, List.singleton_append]

theorem interpolate_call_log (d : Diphone α) :
    synthesize_diphone_gen
        (fun p1 p2 t i (log : List (Int × Int)) => (interpolate_params p1 p2 t i, log ++ [(t, i)]))
        (fun _ log => log) d []
      = (List.range d.transition_frames.toNat).map
          (fun (i : Nat) => (d.transition_frames, (i : Int))) := by
  unfold synthesize_diphone_gen
  have hid : ∀ (n : Nat) (l : List (Int × Int)),
      Nat.iterate (fun (log : List (Int × Int)) => log) n l = l := by
    intro n l
    induction n with
    | zero => rfl
    | succ n ih => rw [Function.iterate_succ_apply, ih]
  simp only [hid]
  rw [foldl_append_log (fun (i : Nat) => (d.transition_frames, (i : Int)))]
  rfl

/-- C26: for every diphone, with any integer frame counts (also `transition_frames`
zero or negative), every call of `interpolate_params` made by `synthesize_diphone` has
`total_frames >= 1` and `0 <= current_frame < total_frames`, so the divisor
`(double)total_frames` is never zero; with `transition_frames <= 0` no call is made.
`synthesize_diphone` is its three loops with `interpolate_params` and `synthesize_frame` as
callees; the same loops with a callee recording `(total_frames, current_frame)` give the
list of calls. -/
theorem C26_interpolate_never_divides_by_zero (m : LibM α) (d : Diphone α) (s : Synth α) :
    synthesize_diphone m d s
      = synthesize_diphone_gen (fun p1 p2 t i st => (interpolate_params p1 p2 t i, st))
          (synthesize_frame m) d s
    ∧ (∀ x ∈ synthesize_diphone_gen
          (fun p1 p2 t i (log : List (Int × Int)) =>
            (interpolate_params p1 p2 t i, log ++ [(t, i)]))
          (fun _ log => log) d [],
        1 ≤ x.1 ∧ 0 ≤ x.2 ∧ x.2 < x.1 ∧ ((x.1 : Int) : α) ≠ 0)
    ∧ (d.transition_frames ≤ 0 →
        synthesize_diphone_gen
          (fun p1 p2 t i (log : List (Int × Int)) =>
            (interpolate_params p1 p2 t i, log ++ [(t, i)]))
          (fun _ log => log) d [] = []) := by
  refine ⟨rfl, ?_, ?_⟩
  · intro x hx
    rw [interpolate_call_log] at hx
    simp only [List.mem_map, List.mem_range] at hx
    obtain ⟨i, hi, rfl⟩ := hx
    have h1 : (1 : Int) ≤ d.transition_frames := by omega
    refine ⟨h1, by simp, by simp only; omega, ?_⟩
    have : (d.transition_frames : Int) ≠ 0 := by omega
    exact_mod_cast this
  · intro hle
    rw [interpolate_call_log]
    have : d.transition_frames.toNat = 0 := by omega
    rw [this]
    rfl

/-! ## One sample: sources, parallel formant filters, high-pass -/

theorem glottal_keeps (m : LibM α) (F0 a : α) (e : Engine α) :
    (generate_glottal_pulse_derivative m F0 a e).2
      = { e with
          glottal_pulse_phase :=
            (generate_glottal_pulse_derivative m F0 a e).2.glottal_pulse_phase
          glottal_pulse_last_sample :=
            (generate_glottal_pulse_derivative m F0 a e).2.glottal_pulse_last_sample } := by
  unfold generate_glottal_pulse_derivative
  by_cases h : F0 ≤ 0 ∨ a = 0
  · rw [if_pos h]
  · rw [if_neg h]

theorem noise_keeps (a : α) (e : Engine α) :
    (generate_noise_source a e).2
      = { e with
          random_seed := (generate_noise_source a e).2.random_seed
          fn_noise := (generate_noise_source a e).2.fn_noise } := by
  unfold generate_noise_source
  by_cases h : a = 0
  · rw [if_pos h]
  · rw [if_neg h]

theorem process_filter_keeps (f : KlattFilter α) (x : α) :
    (process_filter f x).2
      = { f with y1 := (process_filter f x).2.y1, y2 := (process_filter f x).2.y2 } := by
  unfold process_filter
  by_cases h : f.frequency = 0
  · rw [if_pos h]
  · rw [if_neg h]

theorem sources_keep (m : LibM α) (F0 AF AN : α) (e : Engine α) :
    (generate_noise_source AN (generate_glottal_pulse_derivative m F0 AF e).2).2
      = { e with
          glottal_pulse_phase :=
            (generate_glottal_pulse_derivative m F0 AF e).2.glottal_pulse_phase
          glottal_pulse_last_sample :=
            (generate_glottal_pulse_derivative m F0 AF e).2.glottal_pulse_last_sample
          random_seed :=
            (generate_noise_source AN
              (generate_glottal_pulse_derivative m F0 AF e).2).2.random_seed
          fn_noise :=
            (generate_noise_source AN
              (generate_glottal_pulse_derivative m F0 AF e).2).2.fn_noise } := by
  rw [noise_keeps, glottal_keeps]

theorem synthesize_sample_shape (m : LibM α) (p : PhonemeParams α) (s : Synth α)
    (src total : α)
    (hsrc : src = (generate_glottal_pulse_derivative m p.F0 p.AF s.engine).1
      + (generate_noise_source p.AN
          (generate_glottal_pulse_derivative m p.F0 p.AF s.engine).2).1)
    (htotal : total = (process_filter s.engine.f1 src).1 + (process_filter s.engine.f2 src).1
      + (process_filter s.engine.f3 src).1 + (process_filter s.engine.f4 src).1
      + (process_filter s.engine.f5 src).1 + (process_filter s.engine.f6 src).1) :
    synthesize_sample m p s
      = if s.current_sample < MAX_SAMPLES then
          { engine :=
              { (generate_noise_source p.AN
                  (generate_glottal_pulse_derivative m p.F0 p.AF s.engine).2).2 with
                f1 := (process_filter s.engine.f1 src).2
                f2 := (process_filter s.engine.f2 src).2
                f3 := (process_filter s.engine.f3 src).2
                f4 := (process_filter s.engine.f4 src).2
                f5 := (process_filter s.engine.f5 src).2
                f6 := (process_filter s.engine.f6 src).2
                hp_y1 := (process_high_pass_filter total s.engine).1
                hp_x1 := total }
            cells := Function.update s.cells s.current_sample
              (process_high_pass_filter total s.engine).1
            stores := (s.current_sample, (process_high_pass_filter total s.engine).1)
              :: s.stores
            current_sample := s.current_sample + 1 }
        else
          { engine :=
              { (generate_noise_source p.AN
                  (generate_glottal_pulse_derivative m p.F0 p.AF s.engine).2).2 with
                f1 := (process_filter s.engine.f1 src).2
                f2 := (process_filter s.engine.f2 src).2
                f3 := (process_filter s.engine.f3 src).2
                f4 := (process_filter s.engine.f4 src).2
                f5 := (process_filter s.engine.f5 src).2
                f6 := (process_filter s.engine.f6 src).2
                hp_y1 := (process_high_pass_filter total s.engine).1
                hp_x1 := total }
            cells := s.cells
            stores := s.stores
            current_sample := s.current_sample + 1 } := by
  have hk := sources_keep m p.F0 p.AF p.AN s.engine
  have h1 := congrArg Engine.f1 hk
  have h2 := congrArg Engine.f2 hk
  have h3 := congrArg Engine.f3 hk
  have h4 := congrArg Engine.f4 hk
  have h5 := congrArg Engine.f5 hk
  have h6 := congrArg Engine.f6 hk
  have ha := congrArg Engine.hp_a1 hk
  have hb0 := congrArg Engine.hp_b0 hk
  have hb1 := congrArg Engine.hp_b1 hk
  have hx := congrArg Engine.hp_x1 hk
  have hy := congrArg Engine.hp_y1 hk
  simp only at h1 h2 h3 h4 h5 h6 ha hb0 hb1 hx hy
  unfold synthesize_sample process_high_pass_filter
  simp only [h1, h2, h3, h4, h5, h6, ha, hb0, hb1, hx, hy, ← hsrc, ← htotal]

theorem synthesize_frame_eq_samples (m : LibM α) (p : PhonemeParams α) (s : Synth α) :
    synthesize_frame m p s
      = Nat.iterate (synthesize_sample m p) 160
          { s with engine :=
              { s.engine with
                f1 := update_filter_coefficients m s.engine.f1 p.F1 p.B1
                f2 := update_filter_coefficients m s.engine.f2 p.F2 p.B2
                f3 := update_filter_coefficients m s.engine.f3 p.F3 p.B3
                f4 := update_filter_coefficients m s.engine.f4 p.F4 p.B4
                f5 := update_filter_coefficients m s.engine.f5 p.F5 p.B5
                f6 := update_filter_coefficients m s.engine.f6 p.F6 p.B6 } } := by
  have hn : num_frame_samples.toNat = 160 := by rw [num_frame_samples_eq]; rfl
  unfold synthesize_frame
  simp only [hn]

/-- C22: for every sample of every frame, with `src` the glottal output plus the noise
output of that sample, the value produced is `process_high_pass_filter` applied to the
sum over `k = 1..6` of `process_filter(f_k, src)`: each of the six formant filters
receives the same `src` and the state it had before the sample, and advances only its
own history `y1`, `y2`.  A frame is 160 such samples after the coefficient update. -/
theorem C22_parallel_formants (m : LibM α) (p : PhonemeParams α) (s : Synth α)
    (src total v : α)
    (hsrc : src = (generate_glottal_pulse_derivative m p.F0 p.AF s.engine).1
      + (generate_noise_source p.AN
          (generate_glottal_pulse_derivative m p.F0 p.AF s.engine).2).1)
    (htotal : total = (process_filter s.engine.f1 src).1 + (process_filter s.engine.f2 src).1
      + (process_filter s.engine.f3 src).1 + (process_filter s.engine.f4 src).1
      + (process_filter s.engine.f5 src).1 + (process_filter s.engine.f6 src).1)
    (hv : v = (process_high_pass_filter total s.engine).1) :
    ((synthesize_sample m p s).engine.f1 = (process_filter s.engine.f1 src).2
      ∧ (synthesize_sample m p s).engine.f2 = (process_filter s.engine.f2 src).2
      ∧ (synthesize_sample m p s).engine.f3 = (process_filter s.engine.f3 src).2
      ∧ (synthesize_sample m p s).engine.f4 = (process_filter s.engine.f4 src).2
      ∧ (synthesize_sample m p s).engine.f5 = (process_filter s.engine.f5 src).2
      ∧ (synthesize_sample m p s).engine.f6 = (process_filter s.engine.f6 src).2)
    ∧ (synthesize_sample m p s).engine.hp_y1 = v
    ∧ (synthesize_sample m p s).engine.hp_x1 = total
    ∧ (s.current_sample < MAX_SAMPLES →
        (synthesize_sample m p s).cells s.current_sample = v
        ∧ (synthesize_sample m p s).stores = (s.current_sample, v) :: s.stores)
    ∧ (∀ fg ∈ [(s.engine.f1, (synthesize_sample m p s).engine.f1),
                (s.engine.f2, (synthesize_sample m p s).engine.f2),
                (s.engine.f3, (synthesize_sample m p s).engine.f3),
                (s.engine.f4, (synthesize_sample m p s).engine.f4),
                (s.engine.f5, (synthesize_sample m p s).engine.f5),
                (s.engine.f6, (synthesize_sample m p s).engine.f6)],
        fg.2 = { fg.1 with y1 := fg.2.y1, y2 := fg.2.y2 })
    ∧ synthesize_frame m p s
        = Nat.iterate (synthesize_sample m p) 160
            { s with engine :=
                { s.engine with
                  f1 := update_filter_coefficients m s.engine.f1 p.F1 p.B1
                  f2 := update_filter_coefficients m s.engine.f2 p.F2 p.B2
                  f3 := update_filter_coefficients m s.engine.f3 p.F3 p.B3
                  f4 := update_filter_coefficients m s.engine.f4 p.F4 p.B4
                  f5 := update_filter_coefficients m s.engine.f5 p.F5 p.B5
                  f6 := update_filter_coefficients m s.engine.f6 p.F6 p.B6 } } := by
  have hshape := synthesize_sample_shape m p s src total hsrc htotal
  have hf : (synthesize_sample m p s).engine.f1 = (process_filter s.engine.f1 src).2
      ∧ (synthesize_sample m p s).engine.f2 = (process_filter s.engine.f2 src).2
      ∧ (synthesize_sample m p s).engine.f3 = (process_filter s.engine.f3 src).2
      ∧ (synthesize_sample m p s).engine.f4 = (process_filter s.engine.f4 src).2
      ∧ (synthesize_sample m p s).engine.f5 = (process_filter s.engine.f5 src).2
      ∧ (synthesize_sample m p s).engine.f6 = (process_filter s.engine.f6 src).2 := by
    rw [hshape]
    by_cases h : s.current_sample < MAX_SAMPLES
    · rw [if_pos h]
      exact ⟨rfl, rfl, rfl, rfl, rfl, rfl⟩
    · rw [if_neg h]
      exact ⟨rfl, rfl, rfl, rfl, rfl, rfl⟩
  refine ⟨hf, ?_, ?_, ?_, ?_, synthesize_frame_eq_samples m p s⟩
  · rw [hshape, hv]
    by_cases h : s.current_sample < MAX_SAMPLES
    · rw [if_pos h]
    · rw [if_neg h]
  · rw [hshape]
    by_cases h : s.current_sample < MAX_SAMPLES
    · rw [if_pos h]
    · rw [if_neg h]
  · intro h
    rw [hshape, if_pos h, hv]
    exact ⟨Function.update_same _ _ _, rfl⟩
  · obtain ⟨h1, h2, h3, h4, h5, h6⟩ := hf
    intro fg hfg
    simp only [List.mem_cons, List.mem_singleton, List.not_mem_nil, or_false] at hfg
    rcases hfg with h | h | h | h | h | h <;> subst h
    · simp only [h1]; exact process_filter_keeps _ _
    · simp only [h2]; exact process_filter_keeps _ _
    · simp only [h3]; exact process_filter_keeps _ _
    · simp only [h4]; exact process_filter_keeps _ _
    · simp only [h5]; exact process_filter_keeps _ _
    · simp only [h6]; exact process_filter_keeps _ _

/-! ## The noise-branch filter is never configured -/

theorem synthesize_sample_fn_noise (m : LibM α) (p : PhonemeParams α) (s : Synth α)
    (h : s.engine.fn_noise.frequency = 0) :
    (synthesize_sample m p s).engine.fn_noise = s.engine.fn_noise := by
  have hg : (generate_glottal_pulse_derivative m p.F0 p.AF s.engine).2.fn_noise
      = s.engine.fn_noise := by
    rw [glottal_keeps]
  have hn : (generate_noise_source p.AN
      (generate_glottal_pulse_derivative m p.F0 p.AF s.engine).2).2.fn_noise
      = s.engine.fn_noise := by
    unfold generate_noise_source
    by_cases ha : p.AN = 0
    · rw [if_pos ha]
      exact hg
    · rw [if_neg ha]
      simp only [hg, process_filter_disabled _ h]
  rw [synthesize_sample_shape m p s _ _ rfl rfl]
  by_cases hc : s.current_sample < MAX_SAMPLES
  · rw [if_pos hc]
    exact hn
  · rw [if_neg hc]
    exact hn

theorem iterate_sample_fn_noise (m : LibM α) (p : PhonemeParams α) (n : Nat) (s : Synth α)
    (h : s.engine.fn_noise.frequency = 0) :
    (Nat.iterate (synthesize_sample m p) n s).engine.fn_noise = s.engine.fn_noise := by
  induction n with
  | zero => rfl
  | succ n ih =>
    rw [Function.iterate_succ_apply', synthesize_sample_fn_noise m p _ (by rw [ih]; exact h), ih]

theorem synthesize_frame_fn_noise (m : LibM α) (p : PhonemeParams α) (s : Synth α)
    (h : s.engine.fn_noise.frequency = 0) :
    (synthesize_frame m p s).engine.fn_noise = s.engine.fn_noise := by
  rw [synthesize_frame_eq_samples]
  exact iterate_sample_fn_noise m p 160 _ h

theorem iterate_frame_fn_noise (m : LibM α) (p : PhonemeParams α) (k : Nat) (s : Synth α)
    (h : s.engine.fn_noise.frequency = 0) :
    (Nat.iterate (synthesize_frame m p) k s).engine.fn_noise = s.engine.fn_noise := by
  induction k with
  | zero => rfl
  | succ k ih =>
    rw [Function.iterate_succ_apply', synthesize_frame_fn_noise m p _ (by rw [ih]; exact h), ih]

/-- C21, evaluated: `reset_synthesis_engine_state` disables `fn_noise`
(`initialize_filter(&fn_noise, 0, 0)`) and `synthesize_frame` updates the coefficients of
`f1..f6` only, so after any number of frames with any parameters `p`, and at every sample
of a further frame, `fn_noise` is still the disabled filter of the reset state with
`a1 = a2 = 0`: it never has the coefficients derived from `(p.FN, p.BN)`.  With the real
libm and `PHONEME_K_BURST` (`FN = 250`, `BN = 100`) the stored `a2` is `0`, whereas
`r^2 = exp(-pi*100/16000)^2 > 0`. -/
theorem C21_noise_filter_stays_disabled (m : LibM α) (p : PhonemeParams α) (e : Engine α)
    (cells : Int → α) (stores : List (Int × α)) (c : Int) (k n : Nat) :
    (Nat.iterate (synthesize_frame m p) k
        ⟨reset_synthesis_engine_state m e, cells, stores, c⟩).engine.fn_noise
      = (reset_synthesis_engine_state m e).fn_noise
    ∧ (Nat.iterate (synthesize_sample m p) n
        (Nat.iterate (synthesize_frame m p) k
          ⟨reset_synthesis_engine_state m e, cells, stores, c⟩)).engine.fn_noise
      = (reset_synthesis_engine_state m e).fn_noise
    ∧ (reset_synthesis_engine_state m e).fn_noise.frequency = 0
    ∧ (reset_synthesis_engine_state m e).fn_noise.a1 = 0
    ∧ (reset_synthesis_engine_state m e).fn_noise.a2 = 0
    ∧ (∀ (eR : Engine ℝ),
        (synthesize_frame (LibM.mk Real.pi Real.exp Real.cos Real.sin)
          (PhonemeParams.mk 0 0 0 2500 100 3000 100 3500 200 4500 200 5500 200 250 100 0 1)
          ⟨reset_synthesis_engine_state (LibM.mk Real.pi Real.exp Real.cos Real.sin) eR,
            fun _ => 0, [], 0⟩).engine.fn_noise.a2 = 0
        ∧ (0 : ℝ) < Real.exp (-Real.pi * 100 / 16000) ^ 2) := by
  have hoff : ∀ {β : Type} [LinearOrderedField β] (mm : LibM β) (ee : Engine β),
      (reset_synthesis_engine_state mm ee).fn_noise.frequency = 0
      ∧ (reset_synthesis_engine_state mm ee).fn_noise.a1 = 0
      ∧ (reset_synthesis_engine_state mm ee).fn_noise.a2 = 0 := by
    intro β _ mm ee
    have h : (reset_synthesis_engine_state mm ee).fn_noise
        = initialize_filter mm ee.fn_noise 0 0 := rfl
    rw [h]
    simp [initialize_filter]
  have hk := iterate_frame_fn_noise m p k
    (⟨reset_synthesis_engine_state m e, cells, stores, c⟩ : Synth α) (hoff m e).1
  refine ⟨hk, ?_, (hoff m e).1, (hoff m e).2.1, (hoff m e).2.2, ?_⟩
  · rw [iterate_sample_fn_noise m p n _ (by rw [hk]; exact (hoff m e).1), hk]
  · intro eR
    refine ⟨?_, pow_pos (Real.exp_pos _) 2⟩
    rw [synthesize_frame_fn_noise _ _ _ (hoff _ eR).1]
    exact (hoff _ eR).2.2

/-! ## Which indexes a frame stores to -/

theorem synthesize_sample_store (m : LibM α) (p : PhonemeParams α) (t : Synth α) :
    ∃ v : α, (synthesize_sample m p t).current_sample = t.current_sample + 1
      ∧ (t.current_sample < MAX_SAMPLES →
          (synthesize_sample m p t).cells = Function.update t.cells t.current_sample v
          ∧ (synthesize_sample m p t).stores = (t.current_sample, v) :: t.stores)
      ∧ (¬ t.current_sample < MAX_SAMPLES →
          (synthesize_sample m p t).cells = t.cells
          ∧ (synthesize_sample m p t).stores = t.stores) := by
  refine ⟨(synthesize_sample m p t).engine.hp_y1, synthesize_sample_cursor m p t, ?_, ?_⟩
  · intro h
    rw [synthesize_sample_shape m p t _ _ rfl rfl, if_pos h]
    exact ⟨rfl, rfl⟩
  · intro h
    rw [synthesize_sample_shape m p t _ _ rfl rfl, if_neg h]
    exact ⟨rfl, rfl⟩

theorem samples_store_range (m : LibM α) (p : PhonemeParams α) (n : Nat) (s : Synth α) :
    (Nat.iterate (synthesize_sample m p) n s).current_sample = s.current_sample + n
    ∧ (∀ j : Int, ¬ (s.current_sample ≤ j ∧ j < s.current_sample + n ∧ j < MAX_SAMPLES) →
        (Nat.iterate (synthesize_sample m p) n s).cells j = s.cells j)
    ∧ ∃ w : List (Int × α),
        (Nat.iterate (synthesize_sample m p) n s).stores = w ++ s.stores
        ∧ (∀ x ∈ w, s.current_sample ≤ x.1 ∧ x.1 < s.current_sample + n ∧ x.1 < MAX_SAMPLES)
        ∧ (∀ j : Int, s.current_sample ≤ j → j < s.current_sample + n → j < MAX_SAMPLES →
            (j, (Nat.iterate (synthesize_sample m p) n s).cells j) ∈ w) := by
  induction n with
  | zero =>
    refine ⟨by simp, fun _ _ => rfl, [], rfl, ?_, ?_⟩
    · intro x hx
      cases hx
    · intro j h1 h2
      simp only [Nat.cast_zero, add_zero] at h2
      omega
  | succ n ih =>
    obtain ⟨hc, hcells, w, hw, hb, hall⟩ := ih
    obtain ⟨v, hc', hstore, hdrop⟩ :=
      synthesize_sample_store m p (Nat.iterate (synthesize_sample m p) n s)
    rw [Function.iterate_succ_apply']
    have hcur : (synthesize_sample m p (Nat.iterate (synthesize_sample m p) n s)).current_sample
        = s.current_sample + ((n + 1 : Nat) : Int) := by
      rw [hc', hc]
      push_cast
      ring
    by_cases hlt : (Nat.iterate (synthesize_sample m p) n s).current_sample < MAX_SAMPLES
    · obtain ⟨hce, hst⟩ := hstore hlt
      refine ⟨hcur, ?_, ((Nat.iterate (synthesize_sample m p) n s).current_sample, v) :: w,
        ?_, ?_, ?_⟩
      · intro j hj
        rw [hce]
        have hne : j ≠ (Nat.iterate (synthesize_sample m p) n s).current_sample := by
          intro heq
          apply hj
          rw [heq, hc]
          rw [hc] at hlt
          push_cast
          exact ⟨by omega, by omega, hlt⟩
        rw [Function.update_noteq hne]
        apply hcells
        intro hj'
        apply hj
        push_cast
        exact ⟨hj'.1, by omega, hj'.2.2⟩
      · rw [hst, hw, List.cons_append]
      · intro x hx
        rcases List.mem_cons.mp hx with h | h
        · rw [h]
          rw [hc] at hlt ⊢
          push_cast
          exact ⟨by omega, by omega, hlt⟩
        · obtain ⟨h1, h2, h3⟩ := hb x h
          push_cast
          exact ⟨h1, by omega, h3⟩
      · intro j h1 h2 h3
        rw [hce]
        by_cases hj : j = (Nat.iterate (synthesize_sample m p) n s).current_sample
        · rw [hj, Function.update_same]
          exact List.mem_cons_self _ _
        · rw [Function.update_noteq hj]
          have hj' : j < s.current_sample + n := by
            rw [hc] at hj
            push_cast at h2
            omega
          exact List.mem_cons_of_mem _ (hall j h1 hj' h3)
    · obtain ⟨hce, hst⟩ := hdrop hlt
      refine ⟨hcur, ?_, w, ?_, ?_, ?_⟩
      · intro j hj
        rw [hce]
        apply hcells
        intro hj'
        apply hj
        push_cast
        exact ⟨hj'.1, by omega, hj'.2.2⟩
      · rw [hst, hw]
      · intro x hx
        obtain ⟨h1, h2, h3⟩ := hb x hx
        push_cast
        exact ⟨h1, by omega, h3⟩
      · intro j h1 h2 h3
        rw [hce]
        have hj' : j < s.current_sample + n := by
          rw [hc] at hlt
          push_cast at h2
          omega
        exact hall j h1 hj' h3

theorem frame_store_range (m : LibM α) (p : PhonemeParams α) (s : Synth α) :
    (∀ j : Int, ¬ (s.current_sample ≤ j ∧ j < s.current_sample + 160 ∧ j < MAX_SAMPLES) →
        (synthesize_frame m p s).cells j = s.cells j)
    ∧ ∃ w : List (Int × α),
        (synthesize_frame m p s).stores = w ++ s.stores
        ∧ (∀ x ∈ w, s.current_sample ≤ x.1 ∧ x.1 < s.current_sample + 160
            ∧ x.1 < MAX_SAMPLES)
        ∧ (∀ j : Int, s.current_sample ≤ j → j < s.current_sample + 160 → j < MAX_SAMPLES →
            (j, (synthesize_frame m p s).cells j) ∈ w) := by
  rw [synthesize_frame_eq_samples]
  obtain ⟨-, hcells, w, hw, hb, hall⟩ := samples_store_range m p 160
    { s with engine :=
        { s.engine with
          f1 := update_filter_coefficients m s.engine.f1 p.F1 p.B1
          f2 := update_filter_coefficients m s.engine.f2 p.F2 p.B2
          f3 := update_filter_coefficients m s.engine.f3 p.F3 p.B3
          f4 := update_filter_coefficients m s.engine.f4 p.F4 p.B4
          f5 := update_filter_coefficients m s.engine.f5 p.F5 p.B5
          f6 := update_filter_coefficients m s.engine.f6 p.F6 p.B6 } }
  exact ⟨hcells, w, hw, hb, hall⟩

theorem reset_high_pass_coefficients (m : LibM α) (e : Engine α) (h0 : 0 < m.M_PI)
    (h1 : m.M_PI < 160) :
    0 < (reset_synthesis_engine_state m e).hp_a1
    ∧ (reset_synthesis_engine_state m e).hp_a1 < 1
    ∧ (reset_synthesis_engine_state m e).hp_b0 + (reset_synthesis_engine_state m e).hp_b1 = 0
    ∧ 0 < (reset_synthesis_engine_state m e).hp_b0
    ∧ (reset_synthesis_engine_state m e).hp_b0 < 1 := by
  have ha : (reset_synthesis_engine_state m e).hp_a1
      = (1 - 2 * m.M_PI * 50 / ((SAMPLE_RATE : Int) : α))
        / (1 + 2 * m.M_PI * 50 / ((SAMPLE_RATE : Int) : α)) := rfl
  have hb0 : (reset_synthesis_engine_state m e).hp_b0
      = (1 / 2) * (1 + (reset_synthesis_engine_state m e).hp_a1) := rfl
  have hb1 : (reset_synthesis_engine_state m e).hp_b1
      = -(1 / 2) * (1 + (reset_synthesis_engine_state m e).hp_a1) := rfl
  have hsr : ((SAMPLE_RATE : Int) : α) = 16000 := by simp [SAMPLE_RATE]
  have ht0 : 0 < 2 * m.M_PI * 50 / (16000 : α) := by positivity
  have ht1 : 2 * m.M_PI * 50 / (16000 : α) < 1 := by
    rw [div_lt_one (by norm_num)]
    linarith
  have hpos : 0 < (reset_synthesis_engine_state m e).hp_a1 := by
    rw [ha, hsr]
    apply div_pos <;> linarith
  have hlt : (reset_synthesis_engine_state m e).hp_a1 < 1 := by
    rw [ha, hsr, div_lt_one (by linarith)]
    linarith
  refine ⟨hpos, hlt, ?_, ?_, ?_⟩
  · rw [hb0, hb1]
    ring
  · rw [hb0]
    linarith
  · rw [hb0]
    linarith

theorem pause_samples_eq : pause_samples = 4000 := by decide

omit [LinearOrderedField α] in
theorem add_word_duration_eq (w : List (Diphone α)) (t : Int) :
    add_word_duration w t
      = t + 160 * (w.map (fun d => d.start_frames + d.transition_frames + d.end_frames)).sum := by
  unfold add_word_duration
  induction w generalizing t with
  | nil => simp
  | cons d w ih =>
    rw [List.foldl_cons, ih, num_frame_samples_eq, List.map_cons, List.sum_cons]
    ring

omit [LinearOrderedField α] in
theorem word_frames_nonneg (w : List (Diphone α))
    (h : ∀ d ∈ w, 0 ≤ d.start_frames ∧ 0 ≤ d.transition_frames ∧ 0 ≤ d.end_frames) :
    0 ≤ (w.map (fun d => d.start_frames + d.transition_frames + d.end_frames)).sum := by
  induction w with
  | nil => simp
  | cons d w ih =>
    rw [List.map_cons, List.sum_cons]
    obtain ⟨h1, h2, h3⟩ := h d (List.mem_cons_self _ _)
    have := ih (fun d' hd' => h d' (List.mem_cons_of_mem _ hd'))
    omega

omit [LinearOrderedField α] in
theorem phrase_frames_nonneg (ws : List (List (Diphone α)))
    (h : ∀ w ∈ ws, ∀ d ∈ w,
      0 ≤ d.start_frames ∧ 0 ≤ d.transition_frames ∧ 0 ≤ d.end_frames) :
    0 ≤ (ws.map (fun w =>
      (w.map (fun d => d.start_frames + d.transition_frames + d.end_frames)).sum)).sum := by
  induction ws with
  | nil => simp
  | cons w ws ih =>
    rw [List.map_cons, List.sum_cons]
    have h1 := word_frames_nonneg w (h w (List.mem_cons_self _ _))
    have h2 := ih (fun w' hw' => h w' (List.mem_cons_of_mem _ hw'))
    omega

theorem synthesize_diphones_cursor (m : LibM α) (w : List (Diphone α)) (s : Synth α)
    (h : ∀ d ∈ w, 0 ≤ d.start_frames ∧ 0 ≤ d.transition_frames ∧ 0 ≤ d.end_frames) :
    (synthesize_diphones m w s).current_sample
      = s.current_sample
        + 160 * (w.map (fun d => d.start_frames + d.transition_frames + d.end_frames)).sum := by
  unfold synthesize_diphones
  induction w generalizing s with
  | nil => simp
  | cons d w ih =>
    obtain ⟨h1, h2, h3⟩ := h d (List.mem_cons_self _ _)
    rw [List.foldl_cons, ih _ (fun d' hd' => h d' (List.mem_cons_of_mem _ hd')),
      synthesize_diphone_cursor, Int.toNat_of_nonneg h1, Int.toNat_of_nonneg h2,
      Int.toNat_of_nonneg h3, List.map_cons, List.sum_cons]
    ring

theorem iterate_pause_step_cursor (total : Int) (n : Nat) (s : Synth α)
    (h : s.current_sample + n ≤ total) :
    (Nat.iterate (pause_step total) n s).current_sample = s.current_sample + n := by
  induction n generalizing s with
  | zero => simp
  | succ n ih =>
    have hlt : ¬ (s.current_sample ≥ total) := by
      push_cast at h
      omega
    have hstep : (pause_step total s).current_sample = s.current_sample + 1 := by
      unfold pause_step
      rw [if_neg hlt]
    rw [Function.iterate_succ_apply, ih (pause_step total s) (by rw [hstep]; push_cast at h ⊢; omega),
      hstep]
    push_cast
    ring

theorem pause_samples_toNat : ((pause_samples.toNat : Nat) : Int) = 4000 := by
  rw [Int.toNat_of_nonneg (by rw [pause_samples_eq]; norm_num), pause_samples_eq]

theorem pause_loop_cursor_toNat (total : Int) (s : Synth α)
    (h : s.current_sample + pause_samples.toNat ≤ total) :
    (pause_loop total s).current_sample = s.current_sample + pause_samples.toNat := by
  unfold pause_loop
  rw [iterate_pause_step_cursor total pause_samples.toNat s h]

theorem pause_loop_cursor (total : Int) (s : Synth α)
    (h : s.current_sample + 4000 ≤ total) :
    (pause_loop total s).current_sample = s.current_sample + 4000 := by
  have h' : s.current_sample + pause_samples.toNat ≤ total := by
    rw [pause_samples_toNat]
    exact h
  rw [pause_loop_cursor_toNat total s h', pause_samples_toNat]

omit [LinearOrderedField α] in
theorem phrase_duration_eq (n : Int) (ws : List (List (Diphone α))) (j t : Int)
    (hj : j + ws.length = n) :
    phrase_duration n j ws t
      = t + 160 * (ws.map (fun w =>
            (w.map (fun d => d.start_frames + d.transition_frames + d.end_frames)).sum)).sum
          + 4000 * ((ws.length - 1 : Nat) : Int) := by
  induction ws generalizing j t with
  | nil => simp [phrase_duration]
  | cons w ws ih =>
    simp only [List.length_cons, Nat.cast_add, Nat.cast_one] at hj
    simp only [phrase_duration]
    rw [ih (j + 1) _ (by omega), add_word_duration_eq, pause_samples_eq, List.map_cons,
      List.sum_cons]
    cases ws with
    | nil =>
      have hnot : ¬ (j < n - 1) := by
        simp only [List.length_nil, Nat.cast_zero] at hj
        omega
      rw [if_neg hnot]
      simp
    | cons w' ws' =>
      have hlt : j < n - 1 := by
        simp only [List.length_cons, Nat.cast_add, Nat.cast_one] at hj
        omega
      rw [if_pos hlt]
      simp only [List.length_cons, Nat.add_sub_cancel]
      push_cast
      ring

theorem synthesize_words_cursor (m : LibM α) (total n : Int) (ws : List (List (Diphone α)))
    (j : Int) (s : Synth α) (hj : j + ws.length = n)
    (hnn : ∀ w ∈ ws, ∀ d ∈ w,
      0 ≤ d.start_frames ∧ 0 ≤ d.transition_frames ∧ 0 ≤ d.end_frames)
    (hfit : s.current_sample
        + 160 * (ws.map (fun w =>
            (w.map (fun d => d.start_frames + d.transition_frames + d.end_frames)).sum)).sum
        + 4000 * ((ws.length - 1 : Nat) : Int) ≤ total) :
    (synthesize_words m total n j ws s).current_sample
      = s.current_sample
        + 160 * (ws.map (fun w =>
            (w.map (fun d => d.start_frames + d.transition_frames + d.end_frames)).sum)).sum
        + 4000 * ((ws.length - 1 : Nat) : Int) := by
  induction ws generalizing j s with
  | nil => simp [synthesize_words]
  | cons w ws ih =>
    simp only [List.length_cons, Nat.cast_add, Nat.cast_one] at hj
    have hw := synthesize_diphones_cursor m w s (hnn w (List.mem_cons_self _ _))
    have hnn' : ∀ w' ∈ ws, ∀ d ∈ w',
        0 ≤ d.start_frames ∧ 0 ≤ d.transition_frames ∧ 0 ≤ d.end_frames :=
      fun w' hw' => hnn w' (List.mem_cons_of_mem _ hw')
    have hrest := phrase_frames_nonneg ws hnn'
    simp only [synthesize_words]
    rw [List.map_cons, List.sum_cons] at hfit ⊢
    cases ws with
    | nil =>
      have hnot : ¬ (j < n - 1) := by
        simp only [List.length_nil, Nat.cast_zero] at hj
        omega
      rw [if_neg hnot]
      simp only [synthesize_words, hw]
      simp
    | cons w' ws' =>
      simp only [List.length_cons, Nat.cast_add, Nat.cast_one] at hj
      have hlt : j < n - 1 := by omega
      have hL1 : (((w :: w' :: ws').length - 1 : Nat) : Int) = (ws'.length : Int) + 1 := by
        simp
      have hL0 : (((w' :: ws').length - 1 : Nat) : Int) = (ws'.length : Int) := by simp
      have hlen : (0 : Int) ≤ (ws'.length : Int) := Int.ofNat_nonneg _
      rw [hL1] at hfit ⊢
      rw [if_pos hlt]
      have hpause : (pause_loop total (synthesize_diphones m w s)).current_sample
          = s.current_sample
            + 160 * (w.map
                (fun d => d.start_frames + d.transition_frames + d.end_frames)).sum
            + 4000 := by
        rw [pause_loop_cursor total _ (by rw [hw]; omega), hw]
      have hj' : j + 1 + ((w' :: ws').length : Int) = n := by
        simp only [List.length_cons, Nat.cast_add, Nat.cast_one]
        omega
      have hfit' : (pause_loop total (synthesize_diphones m w s)).current_sample
          + 160 * ((w' :: ws').map (fun w =>
              (w.map (fun d => d.start_frames + d.transition_frames + d.end_frames)).sum)).sum
          + 4000 * (((w' :: ws').length - 1 : Nat) : Int) ≤ total := by
        rw [hpause, hL0]
        linarith
      have hrec := ih (j + 1) (pause_loop total (synthesize_diphones m w s)) hj' hnn' hfit'
      rw [hL0, hpause] at hrec
      rw [hrec]
      ring

/-- C28: for a phrase of at least one word whose diphones all have non-negative frame
counts, `synthesize_phrase_and_save` requests from `calloc` exactly
`160 * (sum of start + transition + end frames over all diphones) + 4000 * (num_words - 1)`
samples, where `4000 = SAMPLE_RATE / 4` is the pause between consecutive words (none
after the last); when the allocation succeeds the cursor after the synthesis loop equals
that total, and the cursor is the sample count handed to `normalize_and_write_to_file`.
(`int` arithmetic is taken without overflow.) -/
theorem C28_phrase_total_and_cursor [FloorRing α] (m : LibM α) (calloc_ok fopen_ok : Bool)
    (filename : String) (word_diphones : List (List (Diphone α))) (e : Engine α)
    (hwords : 1 ≤ word_diphones.length)
    (hnn : ∀ w ∈ word_diphones, ∀ d ∈ w,
      0 ≤ d.start_frames ∧ 0 ≤ d.transition_frames ∧ 0 ≤ d.end_frames) :
    pause_samples = 4000 ∧
    (synthesize_phrase_and_save m calloc_ok fopen_ok filename word_diphones e).allocated
      = 160 * (word_diphones.map (fun w =>
            (w.map (fun d => d.start_frames + d.transition_frames + d.end_frames)).sum)).sum
          + 4000 * ((word_diphones.length : Int) - 1) ∧
    ∃ s : Synth α,
      (synthesize_phrase_and_save m true fopen_ok filename word_diphones e).audio = some s ∧
      s.current_sample
        = 160 * (word_diphones.map (fun w =>
              (w.map (fun d => d.start_frames + d.transition_frames + d.end_frames)).sum)).sum
            + 4000 * ((word_diphones.length : Int) - 1) ∧
      (synthesize_phrase_and_save m true fopen_ok filename word_diphones e).written
        = normalize_and_write_to_file fopen_ok filename s.cells
            (160 * (word_diphones.map (fun w =>
              (w.map (fun d => d.start_frames + d.transition_frames + d.end_frames)).sum)).sum
              + 4000 * ((word_diphones.length : Int) - 1)) SAMPLE_RATE := by
  have hlen : (((word_diphones.length - 1 : Nat)) : Int) = (word_diphones.length : Int) - 1 := by
    rw [Nat.cast_sub hwords, Nat.cast_one]
  have htotal := phrase_duration_eq (word_diphones.length : Int) word_diphones 0 0
    (zero_add _)
  rw [zero_add, hlen] at htotal
  have hcursor := synthesize_words_cursor m
    (phrase_duration (word_diphones.length : Int) 0 word_diphones 0)
    (word_diphones.length : Int) word_diphones 0
    { engine := reset_synthesis_engine_state m e, cells := fun _ => 0, stores := [],
      current_sample := 0 }
    (zero_add _) hnn (by rw [htotal, hlen, zero_add])
  rw [zero_add, hlen] at hcursor
  refine ⟨pause_samples_eq, ?_, ?_⟩
  · unfold synthesize_phrase_and_save
    cases calloc_ok
    · exact htotal
    · exact htotal
  · refine ⟨synthesize_words m (phrase_duration (word_diphones.length : Int) 0 word_diphones 0)
      (word_diphones.length : Int) 0 word_diphones
      { engine := reset_synthesis_engine_state m e, cells := fun _ => 0, stores := [],
        current_sample := 0 }, ?_, hcursor, ?_⟩
    · simp only [synthesize_phrase_and_save, if_true]
    · simp only [synthesize_phrase_and_save, if_true]
      rw [hcursor]

/-- A two-word phrase for which C28 gives the values 10560 and 10560. -/
theorem C28_phrase_total_and_cursor_witness :
    (1 ≤ [[diphone_sil_ae], [diphone_sil_ae, diphone_sil_frame]].length ∧
      ∀ w ∈ [[diphone_sil_ae], [diphone_sil_ae, diphone_sil_frame]], ∀ d ∈ w,
        0 ≤ d.start_frames ∧ 0 ≤ d.transition_frames ∧ 0 ≤ d.end_frames) ∧
    (synthesize_phrase_and_save ratLibM true true "date.wav"
        [[diphone_sil_ae], [diphone_sil_ae, diphone_sil_frame]] startEngine).allocated = 10560 ∧
    ∃ s : Synth ℚ,
      (synthesize_phrase_and_save ratLibM true true "date.wav"
        [[diphone_sil_ae], [diphone_sil_ae, diphone_sil_frame]] startEngine).audio = some s ∧
      s.current_sample = 10560 := by
  have hnn : ∀ w ∈ [[diphone_sil_ae], [diphone_sil_ae, diphone_sil_frame]], ∀ d ∈ w,
      0 ≤ d.start_frames ∧ 0 ≤ d.transition_frames ∧ 0 ≤ d.end_frames := by
    intro w hw d hd
    simp only [List.mem_cons, List.mem_singleton, List.not_mem_nil, or_false] at hw
    rcases hw with rfl | rfl
    · simp only [List.mem_singleton] at hd
      subst hd
      decide
    · simp only [List.mem_cons, List.mem_singleton, List.not_mem_nil, or_false] at hd
      rcases hd with rfl | rfl <;> decide
  have h := C28_phrase_total_and_cursor ratLibM true true "date.wav"
    [[diphone_sil_ae], [diphone_sil_ae, diphone_sil_frame]] startEngine (by decide) hnn
  obtain ⟨_, hall, s, hs, hcur, _⟩ := h
  have hval : (160 * ([[diphone_sil_ae], [diphone_sil_ae, diphone_sil_frame]].map (fun w =>
        (w.map (fun d => d.start_frames + d.transition_frames + d.end_frames)).sum)).sum
      + 4000 * (([[diphone_sil_ae], [diphone_sil_ae, diphone_sil_frame]].length : Int) - 1))
      = 10560 := by decide
  exact ⟨⟨by decide, hnn⟩, hall.trans hval, s, hs, hcur.trans hval⟩

/-! ## Entry state of the two callers in `main.c` -/

theorem pause_step_core (total : Int) (s : Synth α) :
    pause_step total s.core = (pause_step total s).core := by
  unfold pause_step
  by_cases h : s.current_sample ≥ total
  · have h' : s.core.current_sample ≥ total := h
    rw [if_pos h, if_pos h']
  · have h' : ¬ s.core.current_sample ≥ total := h
    rw [if_neg h, if_neg h']
    rfl

theorem pause_loop_core (total : Int) (s : Synth α) :
    (pause_loop total s.core).core = (pause_loop total s).core := by
  unfold pause_loop
  exact iterate_core _ (fun t => by rw [pause_step_core]; rfl) _ s

theorem synthesize_words_core (m : LibM α) (total n : Int) (ws : List (List (Diphone α)))
    (j : Int) (s : Synth α) :
    (synthesize_words m total n j ws s.core).core = (synthesize_words m total n j ws s).core := by
  induction ws generalizing j s with
  | nil => rfl
  | cons w ws ih =>
    simp only [synthesize_words]
    by_cases hlt : j < n - 1
    · rw [if_pos hlt, if_pos hlt, ← ih (j + 1) (pause_loop total (synthesize_diphones m w s.core)),
        ← ih (j + 1) (pause_loop total (synthesize_diphones m w s)),
        ← pause_loop_core total (synthesize_diphones m w s.core),
        ← pause_loop_core total (synthesize_diphones m w s), synthesize_diphones_core]
    · rw [if_neg hlt, if_neg hlt, ← ih (j + 1) (synthesize_diphones m w s.core),
        ← ih (j + 1) (synthesize_diphones m w s), synthesize_diphones_core]

theorem synthesize_phrase_entry_independent [FloorRing α] (m : LibM α)
    (calloc_ok fopen_ok : Bool) (filename : String) (words : List (List (Diphone α)))
    (e1 e2 : Engine α) :
    (synthesize_phrase_and_save m calloc_ok fopen_ok filename words e1).written
      = (synthesize_phrase_and_save m calloc_ok fopen_ok filename words e2).written
    ∧ (synthesize_phrase_and_save m calloc_ok fopen_ok filename words e1).audio.map Synth.cells
      = (synthesize_phrase_and_save m calloc_ok fopen_ok filename words e2).audio.map
          Synth.cells := by
  have h0 : (⟨reset_synthesis_engine_state m e1, fun _ => 0, [], 0⟩ : Synth α).core
      = (⟨reset_synthesis_engine_state m e2, fun _ => 0, [], 0⟩ : Synth α).core := by
    simp only [Synth.core, reset_core m e1 e2]
  have h := synthesize_words_core m (phrase_duration (words.length : Int) 0 words 0)
    (words.length : Int) words 0
    { engine := reset_synthesis_engine_state m e1, cells := fun _ => 0, stores := [],
      current_sample := 0 }
  rw [h0, synthesize_words_core] at h
  have hcells := congrArg Synth.cells h
  have hcur := congrArg Synth.current_sample h
  simp only [Synth.core] at hcells hcur
  unfold synthesize_phrase_and_save
  cases calloc_ok
  · exact ⟨rfl, rfl⟩
  · simp only [if_true, Option.map_some']
    rw [hcells, hcur]
    exact ⟨rfl, rfl⟩

theorem update_filter_off (m : LibM α) (f : KlattFilter α) (B : α) :
    (update_filter_coefficients m f 0 B).frequency = 0 := by
  simp [update_filter_coefficients]

theorem quiet_sample_cell (m : LibM α) (p : PhonemeParams α) (E : Engine α) (s : Synth α)
    (hs : s.engine = E) (hF0 : p.F0 = 0) (hAN : p.AN = 0)
    (hph : E.glottal_pulse_phase = 0) (hl : E.glottal_pulse_last_sample = 0)
    (h1 : E.f1.frequency = 0) (h2 : E.f2.frequency = 0) (h3 : E.f3.frequency = 0)
    (h4 : E.f4.frequency = 0) (h5 : E.f5.frequency = 0) (h6 : E.f6.frequency = 0)
    (hlt : s.current_sample < MAX_SAMPLES) :
    (synthesize_sample m p s).cells s.current_sample
      = E.hp_b1 * E.hp_x1 - E.hp_a1 * E.hp_y1 := by
  unfold synthesize_sample
  simp only [hs, hAN, glottal_quiet m p.F0 p.AF E hF0 hph hl, generate_noise_source_zero,
    add_zero, process_filter_disabled _ h1, process_filter_disabled _ h2,
    process_filter_disabled _ h3, process_filter_disabled _ h4,
    process_filter_disabled _ h5, process_filter_disabled _ h6, if_pos hlt,
    process_high_pass_filter, Function.update_same, mul_zero, zero_add]

theorem quiet_frame_first_cell (m : LibM α) (p : PhonemeParams α) (s : Synth α)
    (hF0 : p.F0 = 0) (hAN : p.AN = 0)
    (h1 : p.F1 = 0) (h2 : p.F2 = 0) (h3 : p.F3 = 0) (h4 : p.F4 = 0) (h5 : p.F5 = 0)
    (h6 : p.F6 = 0)
    (hph : s.engine.glottal_pulse_phase = 0) (hl : s.engine.glottal_pulse_last_sample = 0)
    (hlt : s.current_sample < MAX_SAMPLES) :
    (synthesize_frame m p s).cells s.current_sample
      = s.engine.hp_b1 * s.engine.hp_x1 - s.engine.hp_a1 * s.engine.hp_y1 := by
  rw [synthesize_frame_eq_samples, h1, h2, h3, h4, h5, h6]
  rw [show (160 : Nat) = 159 + 1 from rfl, Function.iterate_succ_apply]
  have hext := iterate_extends _ (synthesize_sample_extends m p) 159
    (synthesize_sample m p
      { s with engine :=
          { s.engine with
            f1 := update_filter_coefficients m s.engine.f1 0 p.B1
            f2 := update_filter_coefficients m s.engine.f2 0 p.B2
            f3 := update_filter_coefficients m s.engine.f3 0 p.B3
            f4 := update_filter_coefficients m s.engine.f4 0 p.B4
            f5 := update_filter_coefficients m s.engine.f5 0 p.B5
            f6 := update_filter_coefficients m s.engine.f6 0 p.B6 } })
  rw [hext.2.1 s.current_sample (by rw [synthesize_sample_cursor]; exact lt_add_one _)]
  exact quiet_sample_cell m p
    { s.engine with
      f1 := update_filter_coefficients m s.engine.f1 0 p.B1
      f2 := update_filter_coefficients m s.engine.f2 0 p.B2
      f3 := update_filter_coefficients m s.engine.f3 0 p.B3
      f4 := update_filter_coefficients m s.engine.f4 0 p.B4
      f5 := update_filter_coefficients m s.engine.f5 0 p.B5
      f6 := update_filter_coefficients m s.engine.f6 0 p.B6 }
    _ rfl hF0 hAN hph hl (update_filter_off m _ _)
    (update_filter_off m _ _) (update_filter_off m _ _) (update_filter_off m _ _)
    (update_filter_off m _ _) (update_filter_off m _ _) hlt

theorem word_sil_frame_first_cell (e : Engine ℚ)
    (hph : e.glottal_pulse_phase = 0) (hl : e.glottal_pulse_last_sample = 0) :
    ∃ s : Synth ℚ,
      (synthesize_word_and_save ratLibM true true "word.wav" [diphone_sil_frame] e).audio
        = some s
      ∧ s.cells 0 = e.hp_b1 * e.hp_x1 - e.hp_a1 * e.hp_y1 := by
  refine ⟨synthesize_frame ratLibM PHONEME_SILENCE
    { engine := e, cells := fun _ => 0, stores := [], current_sample := 0 }, rfl, ?_⟩
  exact quiet_frame_first_cell ratLibM PHONEME_SILENCE
    { engine := e, cells := fun _ => 0, stores := [], current_sample := 0 }
    rfl rfl rfl rfl rfl rfl rfl rfl hph hl (show (0 : Int) < MAX_SAMPLES by decide)

/-- C29: only `synthesize_phrase_and_save` resets the engine.  For any two entry engines
it writes the same file and leaves the same sample buffer; `synthesize_word_and_save`
synthesizes from the engine as it finds it: for the one-frame silence word, entered
once with the reset engine and once with the same engine whose high-pass output history
is `1`, the first sample of the buffer is `0` in the first case and `-3545/3687`
(`-hp_a1 * hp_y1`) in the second, so the two buffers differ. -/
theorem C29_word_keeps_entry_engine :
    (∀ (calloc_ok fopen_ok : Bool) (filename : String) (words : List (List (Diphone ℚ)))
        (e1 e2 : Engine ℚ),
      (synthesize_phrase_and_save ratLibM calloc_ok fopen_ok filename words e1).written
        = (synthesize_phrase_and_save ratLibM calloc_ok fopen_ok filename words e2).written
      ∧ (synthesize_phrase_and_save ratLibM calloc_ok fopen_ok filename words e1).audio.map
            Synth.cells
        = (synthesize_phrase_and_save ratLibM calloc_ok fopen_ok filename words e2).audio.map
            Synth.cells)
    ∧ ∃ s1 s2 : Synth ℚ,
      (synthesize_word_and_save ratLibM true true "word.wav" [diphone_sil_frame]
          (reset_synthesis_engine_state ratLibM startEngine)).audio = some s1
      ∧ (synthesize_word_and_save ratLibM true true "word.wav" [diphone_sil_frame]
          engine_with_history).audio = some s2
      ∧ s1.cells 0 = 0 ∧ s2.cells 0 = -3545 / 3687 ∧ s1.cells ≠ s2.cells := by
  refine ⟨fun c f n ws e1 e2 => synthesize_phrase_entry_independent ratLibM c f n ws e1 e2, ?_⟩
  obtain ⟨s1, h1, hc1⟩ :=
    word_sil_frame_first_cell (reset_synthesis_engine_state ratLibM startEngine) rfl rfl
  obtain ⟨s2, h2, hc2⟩ := word_sil_frame_first_cell engine_with_history rfl rfl
  have hv1 : s1.cells 0 = 0 := by
    rw [hc1]
    norm_num [reset_synthesis_engine_state, initialize_high_pass_filter]
  have hv2 : s2.cells 0 = -3545 / 3687 := by
    rw [hc2]
    norm_num [engine_with_history, reset_synthesis_engine_state, initialize_high_pass_filter,
      ratLibM, SAMPLE_RATE]
  refine ⟨s1, s2, h1, h2, hv1, hv2, ?_⟩
  intro heq
  have h0 := congrFun heq 0
  rw [hv1, hv2] at h0
  norm_num at h0

/-! ## Opening the output file fails -/

/-- C30, as stated, fails: the value the caller of `normalize_and_write_to_file`
receives when the file cannot be opened is the value it receives when it can (the
function returns `void`), here for the buffer `[1.0, -0.5]`. -/
theorem C30_failure_not_returned_counterexample :
    ¬ ((normalize_and_write_to_file_call false "out.wav" buffer_1_mhalf 2 16000).1
        ≠ (normalize_and_write_to_file_call true "out.wav" buffer_1_mhalf 2 16000).1) := by
  intro h
  exact h rfl

/-- C30 (amended): when the destination file cannot be opened,
`normalize_and_write_to_file` emits no header or sample bytes and prints
`Error: Could not open file <filename> for writing.` on `stderr`, where a successful call
prints nothing; the value returned to the caller is the same as for a successful call. -/
theorem C30_open_failure [FloorRing α] (filename : String) (buffer : Int → α)
    (num_samples sample_rate : Int) :
    (normalize_and_write_to_file_call false filename buffer num_samples sample_rate).2.file
      = none
    ∧ (normalize_and_write_to_file_call false filename buffer num_samples sample_rate).2.stderr
      = ["Error: Could not open file " ++ filename ++ " for writing.\n"]
    ∧ (normalize_and_write_to_file_call true filename buffer num_samples sample_rate).2.stderr
      = []
    ∧ (normalize_and_write_to_file_call true filename buffer num_samples sample_rate).2.file
      = some (write_wav_header num_samples sample_rate ++
          (encoded_samples buffer num_samples).flatMap int16_bytes)
    ∧ (normalize_and_write_to_file_call false filename buffer num_samples sample_rate).1
      = (normalize_and_write_to_file_call true filename buffer num_samples sample_rate).1 :=
  ⟨rfl, rfl, rfl, rfl, rfl⟩

/-! ## Evaluations of the theorems above at concrete inputs -/

theorem C22_parallel_formants_witness :
    ((0 : ℚ) = (generate_glottal_pulse_derivative ratLibM PHONEME_SILENCE.F0
          PHONEME_SILENCE.AF startSynth.engine).1
        + (generate_noise_source PHONEME_SILENCE.AN
            (generate_glottal_pulse_derivative ratLibM PHONEME_SILENCE.F0
              PHONEME_SILENCE.AF startSynth.engine).2).1
      ∧ (0 : ℚ) = (process_filter startSynth.engine.f1 0).1
          + (process_filter startSynth.engine.f2 0).1
          + (process_filter startSynth.engine.f3 0).1 + (process_filter startSynth.engine.f4 0).1
          + (process_filter startSynth.engine.f5 0).1 + (process_filter startSynth.engine.f6 0).1
      ∧ (0 : ℚ) = (process_high_pass_filter 0 startSynth.engine).1)
    ∧ (synthesize_sample ratLibM PHONEME_SILENCE startSynth).engine.hp_y1 = 0
    ∧ (synthesize_sample ratLibM PHONEME_SILENCE startSynth).engine.hp_x1 = 0 := by
  have hsrc : (0 : ℚ) = (generate_glottal_pulse_derivative ratLibM PHONEME_SILENCE.F0
          PHONEME_SILENCE.AF startSynth.engine).1
        + (generate_noise_source PHONEME_SILENCE.AN
            (generate_glottal_pulse_derivative ratLibM PHONEME_SILENCE.F0
              PHONEME_SILENCE.AF startSynth.engine).2).1 := by
    simp [generate_glottal_pulse_derivative, generate_noise_source, PHONEME_SILENCE]
  have htotal : (0 : ℚ) = (process_filter startSynth.engine.f1 0).1
          + (process_filter startSynth.engine.f2 0).1
          + (process_filter startSynth.engine.f3 0).1 + (process_filter startSynth.engine.f4 0).1
          + (process_filter startSynth.engine.f5 0).1
          + (process_filter startSynth.engine.f6 0).1 := by
    simp [process_filter, startSynth, reset_synthesis_engine_state,
      initialize_high_pass_filter, initialize_filter]
  have hv : (0 : ℚ) = (process_high_pass_filter 0 startSynth.engine).1 := by
    simp [process_high_pass_filter, startSynth, reset_synthesis_engine_state,
      initialize_high_pass_filter]
  have h := C22_parallel_formants ratLibM PHONEME_SILENCE startSynth 0 0 0 hsrc htotal hv
  exact ⟨⟨hsrc, htotal, hv⟩, h.2.1, h.2.2.1⟩

theorem C25_empty_diphone_witness :
    (({ diphone_sil_ae with start_frames := 0, transition_frames := 0, end_frames := 0 }
        : Diphone ℚ).start_frames = 0
      ∧ ({ diphone_sil_ae with start_frames := 0, transition_frames := 0, end_frames := 0 }
        : Diphone ℚ).transition_frames = 0
      ∧ ({ diphone_sil_ae with start_frames := 0, transition_frames := 0, end_frames := 0 }
        : Diphone ℚ).end_frames = 0)
    ∧ synthesize_diphone ratLibM
        { diphone_sil_ae with start_frames := 0, transition_frames := 0, end_frames := 0 }
        startSynth = startSynth :=
  ⟨⟨rfl, rfl, rfl⟩,
    C25_empty_diphone ratLibM
      { diphone_sil_ae with start_frames := 0, transition_frames := 0, end_frames := 0 }
      startSynth rfl rfl rfl⟩

/-- C31: for every buffer (silent or not) and every index `i` of the conversion loop,
in exact arithmetic the scaled value `buffer[i] * norm_factor` lies in `[-32767, 32767]`,
so does its truncation, and the conversion to `int16_t` returns the truncated value
itself: it never leaves the 16-bit signed range. -/
theorem C31_scaled_sample_in_range [FloorRing α] (buffer : Int → α) (n : Int) (i : Nat)
    (hi : (i : Int) < n) :
    -32767 ≤ buffer (i : Int) * norm_factor (max_abs_scan buffer n)
    ∧ buffer (i : Int) * norm_factor (max_abs_scan buffer n) ≤ 32767
    ∧ -32767 ≤ trunc (buffer (i : Int) * norm_factor (max_abs_scan buffer n))
    ∧ trunc (buffer (i : Int) * norm_factor (max_abs_scan buffer n)) ≤ 32767
    ∧ to_int16 (trunc (buffer (i : Int) * norm_factor (max_abs_scan buffer n)))
        = trunc (buffer (i : Int) * norm_factor (max_abs_scan buffer n))
    ∧ (encoded_samples buffer n)[i]?
        = some (trunc (buffer (i : Int) * norm_factor (max_abs_scan buffer n))) := by
  have h := scaled_abs_le buffer n i hi
  have ht := trunc_abs_le _ _ h
  have h' := abs_le.mp h
  have ht' := abs_le.mp ht
  push_cast at h'
  exact ⟨h'.1, h'.2, ht'.1, ht'.2, to_int16_of_abs_le _ ht, encoded_samples_get buffer n i hi⟩

theorem scan_scale (b : Int → α) (k : α) (hk : 0 < k) (l : List Nat) (acc : α) :
    List.foldl
        (fun max_abs (i : Nat) =>
          if |k * b (i : Int)| > max_abs then |k * b (i : Int)| else max_abs)
        (k * acc) l
      = k * List.foldl
        (fun max_abs (i : Nat) => if |b (i : Int)| > max_abs then |b (i : Int)| else max_abs)
        acc l := by
  induction l generalizing acc with
  | nil => rfl
  | cons a l ih =>
    rw [List.foldl_cons, List.foldl_cons, scan_step_eq_max b acc a,
      scan_step_eq_max (fun i => k * b i) (k * acc) a, ← ih]
    congr 1
    rw [abs_mul, abs_of_pos hk, mul_max_of_nonneg _ _ (le_of_lt hk)]

theorem max_abs_scan_scale (b : Int → α) (k : α) (hk : 0 < k) (n : Int) :
    max_abs_scan (fun i => k * b i) n = k * max_abs_scan b n := by
  unfold max_abs_scan
  have h := scan_scale b k hk (List.range n.toNat) 0
  rw [mul_zero] at h
  exact h

theorem scaled_sample_scale (b : Int → α) (k : α) (hk : 0 < k) (n : Int) (j : Int) :
    k * b j * norm_factor (max_abs_scan (fun i => k * b i) n)
      = b j * norm_factor (max_abs_scan b n) := by
  rw [max_abs_scan_scale b k hk n]
  unfold norm_factor
  by_cases hM : max_abs_scan b n > 0
  · rw [if_pos hM, if_pos (mul_pos hk hM)]
    have hk0 : k ≠ 0 := ne_of_gt hk
    have hM0 : max_abs_scan b n ≠ 0 := ne_of_gt hM
    field_simp
    ring
  · have hkM : ¬ (k * max_abs_scan b n > 0) := by
      intro h
      exact hM ((mul_pos_iff_of_pos_left hk).mp h)
    rw [if_neg hM, if_neg hkM, mul_zero, mul_zero]

/-- C38: for every buffer `b` and every `k > 0`, in exact arithmetic the 16-bit sample
stream that `normalize_and_write_to_file` encodes for `k*b` is the one it encodes for `b`
(the peak scales by `k`, the scale factor by `1/k`), and so is the whole file. -/
theorem C38_positive_scaling [FloorRing α] (b : Int → α) (k : α) (hk : 0 < k) (n : Int)
    (fopen_ok : Bool) (filename : String) (sample_rate : Int) :
    max_abs_scan (fun i => k * b i) n = k * max_abs_scan b n
    ∧ encoded_samples (fun i => k * b i) n = encoded_samples b n
    ∧ normalize_and_write_to_file fopen_ok filename (fun i => k * b i) n sample_rate
      = normalize_and_write_to_file fopen_ok filename b n sample_rate := by
  have henc : encoded_samples (fun i => k * b i) n = encoded_samples b n := by
    unfold encoded_samples
    simp only [scaled_sample_scale b k hk n]
  refine ⟨max_abs_scan_scale b k hk n, henc, ?_⟩
  unfold normalize_and_write_to_file
  rw [henc]

/-! ## The cells a frame writes -/

/-- C39: for every cursor value `c >= 0`, `synthesize_frame` stores a sample at every
index `i` with `c <= i < c + 160` and `i < MAX_SAMPLES = 80000` (the store of the cell's
final value is among the executed stores), stores nowhere else, and changes no other
cell: cells below `c`, at or above `c + 160`, and at or above `MAX_SAMPLES` keep their
previous values. -/
theorem C39_frame_writes (m : LibM α) (p : PhonemeParams α) (s : Synth α)
    (_hc : 0 ≤ s.current_sample) :
    MAX_SAMPLES = 80000
    ∧ (∃ w : List (Int × α),
        (synthesize_frame m p s).stores = w ++ s.stores
        ∧ (∀ i : Int, s.current_sample ≤ i → i < s.current_sample + 160 → i < MAX_SAMPLES →
            (i, (synthesize_frame m p s).cells i) ∈ w)
        ∧ (∀ x ∈ w, s.current_sample ≤ x.1 ∧ x.1 < s.current_sample + 160
            ∧ x.1 < MAX_SAMPLES))
    ∧ (∀ j : Int, j < s.current_sample → (synthesize_frame m p s).cells j = s.cells j)
    ∧ (∀ j : Int, s.current_sample + 160 ≤ j →
        (synthesize_frame m p s).cells j = s.cells j)
    ∧ (∀ j : Int, MAX_SAMPLES ≤ j → (synthesize_frame m p s).cells j = s.cells j) := by
  obtain ⟨hcells, w, hw, hb, hall⟩ := frame_store_range m p s
  refine ⟨by decide, ⟨w, hw, hall, hb⟩, ?_, ?_, ?_⟩
  · intro j hj
    exact hcells j (fun h => absurd h.1 (not_le.mpr hj))
  · intro j hj
    exact hcells j (fun h => absurd h.2.1 (not_lt.mpr hj))
  · intro j hj
    exact hcells j (fun h => absurd h.2.2 (not_lt.mpr hj))

/-! ## Interpolated values lie between the endpoints -/

theorem interpolate_field (p1 p2 : PhonemeParams α) (N i : Int)
    (f : PhonemeParams α → α) (hf : f ∈ PhonemeParams.fields) :
    f (interpolate_params p1 p2 N i) = f p1 + ((i : α) / (N : α)) * (f p2 - f p1) := by
  simp only [PhonemeParams.fields, List.mem_cons, List.mem_singleton, List.not_mem_nil,
    or_false] at hf
  rcases hf with h | h | h | h | h | h | h | h | h | h | h | h | h | h | h | h | h <;>
    (subst h; rfl)

theorem lerp_between (a b t : α) (h0 : 0 ≤ t) (h1 : t ≤ 1) :
    min a b ≤ a + t * (b - a) ∧ a + t * (b - a) ≤ max a b := by
  rcases le_total a b with h | h
  · rw [min_eq_left h, max_eq_right h]
    constructor
    · nlinarith [mul_nonneg h0 (sub_nonneg.mpr h)]
    · nlinarith [mul_nonneg (sub_nonneg.mpr h1) (sub_nonneg.mpr h)]
  · rw [min_eq_right h, max_eq_left h]
    constructor
    · nlinarith [mul_nonneg (sub_nonneg.mpr h1) (sub_nonneg.mpr h)]
    · nlinarith [mul_nonneg h0 (sub_nonneg.mpr h)]

theorem lerp_eq_end (a b t : α) (h1 : t < 1) (h : a + t * (b - a) = b) : a = b := by
  have h2 : (1 - t) * (b - a) = 0 := by linear_combination -h
  rcases mul_eq_zero.mp h2 with h3 | h3
  · exact absurd h3 (ne_of_gt (sub_pos.mpr h1))
  · exact (sub_eq_zero.mp h3).symm

/-- C37 (amended): in exact arithmetic, for all parameter sets `p1`, `p2`, every `N > 0`
and every `i` with `0 <= i <= N`, each of the 17 fields of `interpolate_params(p1, p2, N, i)` lies between
the corresponding fields of `p1` and `p2`; for `0 <= i < N` the weight `t = i/N` satisfies
`0 <= t < 1`, and a field of the result equals the field of `p2` only if `p1` and `p2`
agree on that field. -/
theorem C37_interpolation_between (p1 p2 : PhonemeParams α) (N i : Int) (hN : 0 < N)
    (h0 : 0 ≤ i) (hi : i ≤ N) :
    (PhonemeParams.fields : List (PhonemeParams α → α)).length = 17
    ∧ (∀ f ∈ PhonemeParams.fields,
        min (f p1) (f p2) ≤ f (interpolate_params p1 p2 N i)
        ∧ f (interpolate_params p1 p2 N i) ≤ max (f p1) (f p2))
    ∧ (i < N →
        (0 : α) ≤ (i : α) / (N : α) ∧ (i : α) / (N : α) < 1
        ∧ ∀ f ∈ PhonemeParams.fields,
            f (interpolate_params p1 p2 N i) = f p2 → f p1 = f p2) := by
  have hNpos : (0 : α) < (N : α) := by exact_mod_cast hN
  have ht0 : (0 : α) ≤ (i : α) / (N : α) :=
    div_nonneg (by exact_mod_cast h0) (le_of_lt hNpos)
  have ht1 : (i : α) / (N : α) ≤ 1 := by
    rw [div_le_one hNpos]
    exact_mod_cast hi
  refine ⟨rfl, ?_, ?_⟩
  · intro f hf
    rw [interpolate_field p1 p2 N i f hf]
    exact lerp_between _ _ _ ht0 ht1
  · intro hlt
    have hlt1 : (i : α) / (N : α) < 1 := by
      rw [div_lt_one hNpos]
      exact_mod_cast hlt
    refine ⟨ht0, hlt1, ?_⟩
    intro f hf heq
    rw [interpolate_field p1 p2 N i f hf] at heq
    exact lerp_eq_end _ _ _ hlt1 heq

/-! ## Glottal phase under constant pitch -/

theorem high_pass_seq_alternating (G : Engine α) (hb : G.hp_b0 + G.hp_b1 = 0)
    (hx : G.hp_x1 = 0) (hy : G.hp_y1 = 0) :
    (process_high_pass_filter_seq G [1, -1]).1 = [G.hp_b0, -(G.hp_b0 * (2 + G.hp_a1))] := by
  have hb1 : G.hp_b1 = -G.hp_b0 := by linear_combination hb
  simp only [process_high_pass_filter_seq, process_high_pass_filter, hx, hy, hb1]
  congr 1
  · ring
  · congr 1
    ring

theorem high_pass_alternating_large (m : LibM α) (e : Engine α) (h0 : 0 < m.M_PI)
    (h1 : m.M_PI < 4) :
    2 < (reset_synthesis_engine_state m e).hp_b0
          * (2 + (reset_synthesis_engine_state m e).hp_a1) := by
  have ha : (reset_synthesis_engine_state m e).hp_a1
      = (1 - 2 * m.M_PI * 50 / ((SAMPLE_RATE : Int) : α))
        / (1 + 2 * m.M_PI * 50 / ((SAMPLE_RATE : Int) : α)) := rfl
  have hb0 : (reset_synthesis_engine_state m e).hp_b0
      = (1 / 2) * (1 + (reset_synthesis_engine_state m e).hp_a1) := rfl
  have hsr : ((SAMPLE_RATE : Int) : α) = 16000 := by simp [SAMPLE_RATE]
  have ht0 : 0 < 2 * m.M_PI * 50 / (16000 : α) := by positivity
  have ht1 : 2 * m.M_PI * 50 / (16000 : α) < 1 / 40 := by
    rw [div_lt_iff₀ (by norm_num)]
    linarith
  have hbig : 39 / 41 < (reset_synthesis_engine_state m e).hp_a1 := by
    rw [ha, hsr, lt_div_iff₀ (by linarith)]
    linarith
  rw [hb0]
  nlinarith

/-- C32, evaluated: from the reset state the inputs `1, -1` (so `M = 1`) give the
outputs `hp_b0` and `-hp_b0 * (2 + hp_a1)`; the recurrence subtracts `hp_a1 * hp_y1`, so
the pole is at `-hp_a1`, and the second output has magnitude above `2 = 2*M`: with
`M_PI = 355/113` it is `-39483104/13593969`, and with the real `pi` it is below `-2` as
well. -/
theorem C32_alternating_input_exceeds_bound :
    (∀ x ∈ [(1 : ℚ), -1], |x| ≤ 1)
    ∧ (process_high_pass_filter_seq (reset_synthesis_engine_state ratLibM startEngine)
          [1, -1]).1 = [3616 / 3687, -39483104 / 13593969]
    ∧ 2 * (1 : ℚ) < |(-39483104 / 13593969 : ℚ)|
    ∧ ∀ eR : Engine ℝ, ∃ y0 y1 : ℝ,
        (process_high_pass_filter_seq
            (reset_synthesis_engine_state (LibM.mk Real.pi Real.exp Real.cos Real.sin) eR)
            [1, -1]).1 = [y0, y1]
        ∧ 2 * (1 : ℝ) < |y1| := by
  refine ⟨?_, ?_, ?_, ?_⟩
  · intro x hx
    simp only [List.mem_cons, List.mem_singleton, List.not_mem_nil, or_false] at hx
    rcases hx with rfl | rfl <;> norm_num
  · rw [high_pass_seq_alternating _ (by
      norm_num [reset_synthesis_engine_state, initialize_high_pass_filter]) rfl rfl]
    norm_num [reset_synthesis_engine_state, initialize_high_pass_filter, ratLibM, SAMPLE_RATE]
  · rw [abs_of_neg (by norm_num)]
    norm_num
  · intro eR
    obtain ⟨-, -, hsum, hb0, -⟩ :=
      reset_high_pass_coefficients (LibM.mk Real.pi Real.exp Real.cos Real.sin) eR
        Real.pi_pos (lt_trans Real.pi_lt_four (by norm_num))
    have hbig := high_pass_alternating_large (LibM.mk Real.pi Real.exp Real.cos Real.sin) eR
      Real.pi_pos Real.pi_lt_four
    refine ⟨_, _, high_pass_seq_alternating _ hsum rfl rfl, ?_⟩
    rw [abs_neg, abs_of_pos (lt_trans (by norm_num) hbig)]
    linarith

/-! ## Cells at or above `MAX_SAMPLES` -/

theorem synthesize_frame_high_cells (m : LibM α) (p : PhonemeParams α) (s : Synth α)
    (j : Int) (hj : MAX_SAMPLES ≤ j) : (synthesize_frame m p s).cells j = s.cells j :=
  (frame_store_range m p s).1 j (fun h => absurd h.2.2 (not_lt.mpr hj))

omit [LinearOrderedField α] in
theorem iterate_high_cells (f : Synth α → Synth α) (j : Int)
    (hf : ∀ s : Synth α, (f s).cells j = s.cells j) (n : Nat) (s : Synth α) :
    (Nat.iterate f n s).cells j = s.cells j := by
  induction n generalizing s with
  | zero => rfl
  | succ n ih => rw [Function.iterate_succ_apply, ih, hf]

omit [LinearOrderedField α] in
theorem foldl_high_cells {β : Type} (f : Synth α → β → Synth α) (j : Int)
    (hf : ∀ (b : β) (s : Synth α), (f s b).cells j = s.cells j) (l : List β) (s : Synth α) :
    (List.foldl f s l).cells j = s.cells j := by
  induction l generalizing s with
  | nil => rfl
  | cons b l ih => rw [List.foldl_cons, ih, hf]

theorem synthesize_diphone_high_cells (m : LibM α) (d : Diphone α) (s : Synth α)
    (j : Int) (hj : MAX_SAMPLES ≤ j) : (synthesize_diphone m d s).cells j = s.cells j := by
  unfold synthesize_diphone
  simp only []
  rw [iterate_high_cells _ j (fun t => synthesize_frame_high_cells m d.p2 t j hj),
    foldl_high_cells _ j (fun _ t => synthesize_frame_high_cells m _ t j hj),
    iterate_high_cells _ j (fun t => synthesize_frame_high_cells m d.p1 t j hj)]

theorem synthesize_diphones_high_cells (m : LibM α) (ds : List (Diphone α)) (s : Synth α)
    (j : Int) (hj : MAX_SAMPLES ≤ j) : (synthesize_diphones m ds s).cells j = s.cells j :=
  foldl_high_cells _ j (fun d t => synthesize_diphone_high_cells m d t j hj) ds s

theorem pause_step_zero_cells (total : Int) (s : Synth α) (j : Int) (h : s.cells j = 0) :
    (pause_step total s).cells j = 0 := by
  unfold pause_step
  by_cases hc : s.current_sample ≥ total
  · rw [if_pos hc]
    exact h
  · rw [if_neg hc]
    by_cases hj : j = s.current_sample
    · subst hj
      exact Function.update_same _ _ _
    · exact (Function.update_noteq hj _ _).trans h

theorem iterate_pause_step_zero_cells (total : Int) (n : Nat) (s : Synth α) (j : Int)
    (h : s.cells j = 0) : (Nat.iterate (pause_step total) n s).cells j = 0 := by
  induction n generalizing s with
  | zero => exact h
  | succ n ih =>
    rw [Function.iterate_succ_apply]
    exact ih _ (pause_step_zero_cells total s j h)

theorem pause_loop_eq_iterate (total : Int) (s : Synth α) :
    pause_loop total s = Nat.iterate (pause_step total) pause_samples.toNat s := rfl

theorem pause_loop_zero_cells (total : Int) (s : Synth α) (j : Int) (h : s.cells j = 0) :
    (pause_loop total s).cells j = 0 := by
  rw [pause_loop_eq_iterate]
  exact iterate_pause_step_zero_cells total pause_samples.toNat s j h

theorem synthesize_words_high_cells (m : LibM α) (total n : Int)
    (ws : List (List (Diphone α))) (k : Int) (s : Synth α) (j : Int) (hj : MAX_SAMPLES ≤ j)
    (h : s.cells j = 0) : (synthesize_words m total n k ws s).cells j = 0 := by
  induction ws generalizing k s with
  | nil => exact h
  | cons w ws ih =>
    simp only [synthesize_words]
    have hw : (synthesize_diphones m w s).cells j = 0 := by
      rw [synthesize_diphones_high_cells m w s j hj]
      exact h
    by_cases hlt : k < n - 1
    · rw [if_pos hlt]
      exact ih _ _ (pause_loop_zero_cells total _ j hw)
    · rw [if_neg hlt]
      exact ih _ _ hw

theorem date_phrase_frames_nonneg :
    ∀ w ∈ [diphones_wednesday, diphones_twentyseventh, diphones_september], ∀ d ∈ w,
      0 ≤ d.start_frames ∧ 0 ≤ d.transition_frames ∧ 0 ≤ d.end_frames := by
  decide

theorem date_phrase_frames :
    (160 * ([diphones_wednesday, diphones_twentyseventh, diphones_september].map (fun w =>
          (w.map (fun d => d.start_frames + d.transition_frames + d.end_frames)).sum)).sum
        + 4000 * ((([diphones_wednesday, diphones_twentyseventh,
            diphones_september].length - 1 : Nat)) : Int)) = 108000 := by
  decide

/-- C36, evaluated: for the date phrase wednesday + twentyseventh + september the
buffer is sized to `160 * (150 + 300 + 175) + 2 * 4000 = 108000` samples, above
`MAX_SAMPLES = 80000`; the first two words and the two pauses take exactly `80000`
samples, so the month starts at index `80000`.  The cursor ends at `108000`, which is the
sample count handed to `normalize_and_write_to_file`, and every cell at an index of
`80000` or more is still `0`: the guard in `synthesize_frame` drops every sample of the
month. -/
theorem C36_date_phrase_exceeds_max_samples :
    MAX_SAMPLES = 80000
    ∧ add_word_duration diphones_wednesday 0 = 160 * 150
    ∧ add_word_duration diphones_twentyseventh 0 = 160 * 300
    ∧ add_word_duration diphones_september 0 = 160 * 175
    ∧ phrase_duration 3 0 [diphones_wednesday, diphones_twentyseventh, diphones_september] 0
        = 108000
    ∧ phrase_duration 3 0 [diphones_wednesday, diphones_twentyseventh] 0 = 80000
    ∧ ∀ (m : LibM ℚ) (fopen_ok : Bool) (e : Engine ℚ), ∃ s : Synth ℚ,
        (synthesize_phrase_and_save m true fopen_ok "date.wav"
            [diphones_wednesday, diphones_twentyseventh, diphones_september] e).audio = some s
        ∧ (synthesize_phrase_and_save m true fopen_ok "date.wav"
            [diphones_wednesday, diphones_twentyseventh, diphones_september] e).allocated
            = 108000
        ∧ (synthesize_phrase_and_save m true fopen_ok "date.wav"
            [diphones_wednesday, diphones_twentyseventh, diphones_september] e).written
            = normalize_and_write_to_file fopen_ok "date.wav" s.cells 108000 SAMPLE_RATE
        ∧ s.current_sample = 108000
        ∧ ∀ j : Int, 80000 ≤ j → s.cells j = 0 := by
  have htotal := phrase_duration_eq
    (([diphones_wednesday, diphones_twentyseventh, diphones_september].length : Nat) : Int)
    [diphones_wednesday, diphones_twentyseventh, diphones_september] 0 0 (zero_add _)
  rw [zero_add, date_phrase_frames] at htotal
  have hwed : add_word_duration diphones_wednesday 0 = 160 * 150 := by
    rw [add_word_duration_eq]
    decide
  have htw : add_word_duration diphones_twentyseventh 0 = 160 * 300 := by
    rw [add_word_duration_eq]
    decide
  have hsep : add_word_duration diphones_september 0 = 160 * 175 := by
    rw [add_word_duration_eq]
    decide
  have hprefix : phrase_duration 3 0 [diphones_wednesday, diphones_twentyseventh] 0
      = 80000 := by
    simp only [phrase_duration, add_word_duration_eq, pause_samples_eq]
    decide
  refine ⟨by decide, hwed, htw, hsep, htotal, hprefix, ?_⟩
  intro m fopen_ok e
  have hcursor := synthesize_words_cursor m
    (phrase_duration
      (([diphones_wednesday, diphones_twentyseventh, diphones_september].length : Nat) : Int)
      0 [diphones_wednesday, diphones_twentyseventh, diphones_september] 0)
    (([diphones_wednesday, diphones_twentyseventh, diphones_september].length : Nat) : Int)
    [diphones_wednesday, diphones_twentyseventh, diphones_september] 0
    { engine := reset_synthesis_engine_state m e, cells := fun _ => 0, stores := [],
      current_sample := 0 }
    (zero_add _) date_phrase_frames_nonneg
    (by rw [htotal, zero_add, date_phrase_frames])
  rw [zero_add, date_phrase_frames] at hcursor
  refine ⟨synthesize_words m
      (phrase_duration
        (([diphones_wednesday, diphones_twentyseventh, diphones_september].length : Nat) : Int)
        0 [diphones_wednesday, diphones_twentyseventh, diphones_september] 0)
      (([diphones_wednesday, diphones_twentyseventh, diphones_september].length : Nat) : Int)
      0 [diphones_wednesday, diphones_twentyseventh, diphones_september]
      { engine := reset_synthesis_engine_state m e, cells := fun _ => 0, stores := [],
        current_sample := 0 }, ?_, ?_, ?_, hcursor, ?_⟩
  · simp only [synthesize_phrase_and_save, if_true]
  · simp only [synthesize_phrase_and_save, if_true]
    exact htotal
  · simp only [synthesize_phrase_and_save, if_true]
    rw [hcursor]
  · intro j hj
    exact synthesize_words_high_cells m _ _ _ 0 _ j hj rfl

/-! ## Evaluations of the last theorems at concrete inputs -/

theorem C31_scaled_sample_in_range_witness :
    (((1 : Nat) : Int) < 2)
    ∧ to_int16 (trunc (buffer_1_mhalf ((1 : Nat) : Int)
          * norm_factor (max_abs_scan buffer_1_mhalf 2)))
        = trunc (buffer_1_mhalf ((1 : Nat) : Int) * norm_factor (max_abs_scan buffer_1_mhalf 2))
    ∧ (encoded_samples buffer_1_mhalf 2)[1]?
        = some (trunc (buffer_1_mhalf ((1 : Nat) : Int)
            * norm_factor (max_abs_scan buffer_1_mhalf 2))) :=
  have hi : ((1 : Nat) : Int) < 2 := by decide
  ⟨hi, (C31_scaled_sample_in_range buffer_1_mhalf 2 1 hi).2.2.2.2.1,
    (C31_scaled_sample_in_range buffer_1_mhalf 2 1 hi).2.2.2.2.2⟩

theorem C37_interpolation_between_witness :
    ((0 : Int) < 10 ∧ (0 : Int) ≤ 3 ∧ (3 : Int) ≤ 10)
    ∧ ∀ f ∈ (PhonemeParams.fields : List (PhonemeParams ℚ → ℚ)),
        min (f PHONEME_SILENCE) (f PHONEME_AE_VOWEL)
          ≤ f (interpolate_params PHONEME_SILENCE PHONEME_AE_VOWEL 10 3)
        ∧ f (interpolate_params PHONEME_SILENCE PHONEME_AE_VOWEL 10 3)
          ≤ max (f PHONEME_SILENCE) (f PHONEME_AE_VOWEL) :=
  ⟨⟨by decide, by decide, by decide⟩,
    (C37_interpolation_between PHONEME_SILENCE PHONEME_AE_VOWEL 10 3 (by decide) (by decide)
      (by decide)).2.1⟩

theorem C38_positive_scaling_witness :
    (0 : ℚ) < 3
    ∧ encoded_samples (fun i => 3 * buffer_1_mhalf i) 2 = encoded_samples buffer_1_mhalf 2 :=
  have hk : (0 : ℚ) < 3 := by norm_num
  ⟨hk, (C38_positive_scaling buffer_1_mhalf 3 hk 2 true "out.wav" 16000).2.1⟩

theorem C39_frame_writes_witness :
    0 ≤ startSynth.current_sample
    ∧ (∀ j : Int, startSynth.current_sample + 160 ≤ j →
        (synthesize_frame ratLibM PHONEME_AE_VOWEL startSynth).cells j = startSynth.cells j)
    ∧ (∀ j : Int, MAX_SAMPLES ≤ j →
        (synthesize_frame ratLibM PHONEME_AE_VOWEL startSynth).cells j = startSynth.cells j) :=
  have hc : 0 ≤ startSynth.current_sample := le_refl _
  ⟨hc, (C39_frame_writes ratLibM PHONEME_AE_VOWEL startSynth hc).2.2.2.1,
    (C39_frame_writes ratLibM PHONEME_AE_VOWEL startSynth hc).2.2.2.2⟩

/-! ## Rounding to `double`: evaluation lemmas -/

theorem round_half_even_near [FloorRing α] (q : α) (n : Int) (h1 : (n : α) - 1 / 2 < q)
    (h2 : q < (n : α) + 1 / 2) : round_half_even q = n := by
  unfold round_half_even
  by_cases hq : (n : α) ≤ q
  · have hf : Int.floor q = n := Int.floor_eq_iff.mpr ⟨hq, by linarith⟩
    simp only [hf]
    rw [if_pos (by linarith)]
  · have hq' : q < (n : α) := not_le.mp hq
    have hf : Int.floor q = n - 1 := by
      apply Int.floor_eq_iff.mpr
      push_cast
      constructor <;> linarith
    simp only [hf]
    push_cast
    rw [if_neg (by linarith), if_pos (by linarith)]
    ring

theorem round_half_even_tie [FloorRing α] (f : Int) :
    round_half_even ((f : α) + 1 / 2) = if f % 2 = 0 then f else f + 1 := by
  unfold round_half_even
  have hf : Int.floor ((f : α) + 1 / 2) = f :=
    Int.floor_eq_iff.mpr ⟨by linarith, by linarith⟩
  simp only [hf]
  rw [if_neg (by simp), if_neg (by simp)]

theorem double_exponent_eq [FloorRing α] (x : α) (e : Int) (h1 : (2 : α) ^ e ≤ |x|)
    (h2 : |x| < (2 : α) ^ (e + 1)) (he : -1022 ≤ e) : double_exponent x = e := by
  have hpos : (0 : α) < |x| := lt_of_lt_of_le (zpow_pos (by norm_num) e) h1
  have hle : e ≤ Int.log 2 |x| := by
    apply (Int.zpow_le_iff_le_log (by norm_num) hpos).mp
    simpa using h1
  have hlt : Int.log 2 |x| < e + 1 := by
    apply (Int.lt_zpow_iff_log_lt (by norm_num) hpos).mp
    simpa using h2
  unfold double_exponent
  omega

theorem round_to_double_pos [FloorRing α] (x : α) (e k n : Int) (hx : 0 ≤ x)
    (h1 : (2 : α) ^ e ≤ x) (h2 : x < (2 : α) ^ (e + 1)) (he : -1022 ≤ e) (hk : k = e - 52)
    (hn : round_half_even (x / (2 : α) ^ k) = n) :
    round_to_double x = (n : α) * (2 : α) ^ k := by
  have hexp : double_exponent x = e :=
    double_exponent_eq x e (by rwa [abs_of_nonneg hx]) (by rwa [abs_of_nonneg hx]) he
  unfold round_to_double
  simp only [hexp, ← hk, if_pos hx, hn]

theorem round_to_double_near [FloorRing α] (x v : α) (e k n : Int) (hx : 0 ≤ x)
    (h1 : (2 : α) ^ e ≤ x) (h2 : x < (2 : α) ^ (e + 1)) (he : -1022 ≤ e) (hk : k = e - 52)
    (hn1 : (n : α) - 1 / 2 < x / (2 : α) ^ k) (hn2 : x / (2 : α) ^ k < (n : α) + 1 / 2)
    (hv : (n : α) * (2 : α) ^ k = v) : round_to_double x = v := by
  rw [round_to_double_pos x e k n hx h1 h2 he hk (round_half_even_near _ _ hn1 hn2), hv]

theorem round_to_double_neg [FloorRing α] (x : α) (hx : 0 < x) :
    round_to_double (-x) = -round_to_double x := by
  have hexp : double_exponent (-x) = double_exponent x := by
    unfold double_exponent
    rw [abs_neg]
  unfold round_to_double
  simp only [hexp, neg_neg]
  rw [if_neg (by linarith), if_pos (le_of_lt hx)]

/-! ## Normalisation of `[49.0, -24.5]` in `double` arithmetic -/

theorem max_abs_49 : max_abs_scan buffer_49 2 = 49 := by
  have hr : List.range (2 : Int).toNat = [0, 1] := by decide
  simp only [max_abs_scan, hr, List.foldl_cons, List.foldl_nil, buffer_49]
  norm_num [abs_of_pos, abs_of_neg]

theorem norm_factor_double_49 :
    norm_factor_double (49 : ℚ) = 5882073062422235 / 8796093022208 := by
  unfold norm_factor_double
  rw [if_pos (by norm_num)]
  have h : ((MAX_AMPLITUDE : Int) : ℚ) / 49 = 32767 / 49 := by norm_num [MAX_AMPLITUDE]
  rw [h]
  exact round_to_double_near _ _ 9 (-43) 5882073062422235 (by norm_num) (by norm_num)
    (by norm_num) (by norm_num) (by norm_num) (by norm_num) (by norm_num) (by norm_num)

theorem scaled_double_49 :
    round_to_double ((49 : ℚ) * (5882073062422235 / 8796093022208))
      = 9006924376834047 / 274877906944 :=
  round_to_double_near _ _ 14 (-38) 9006924376834047 (by norm_num) (by norm_num)
    (by norm_num) (by norm_num) (by norm_num) (by norm_num) (by norm_num) (by norm_num)

theorem scaled_double_m24 :
    round_to_double ((-49 / 2 : ℚ) * (5882073062422235 / 8796093022208))
      = -(9006924376834047 / 549755813888) := by
  have h : (-49 / 2 : ℚ) * (5882073062422235 / 8796093022208)
      = -((49 / 2 : ℚ) * (5882073062422235 / 8796093022208)) := by ring
  rw [h, round_to_double_neg _ (by norm_num)]
  congr 1
  exact round_to_double_near _ _ 13 (-39) 9006924376834047 (by norm_num) (by norm_num)
    (by norm_num) (by norm_num) (by norm_num) (by norm_num) (by norm_num) (by norm_num)

theorem encoded_double_49 : encoded_samples_double buffer_49 2 = [32766, -16383] := by
  have hr : List.range (2 : Int).toNat = [0, 1] := by decide
  have h0 : buffer_49 ((0 : Nat) : Int) = 49 := by norm_num [buffer_49]
  have h1 : buffer_49 ((1 : Nat) : Int) = -49 / 2 := by norm_num [buffer_49]
  have t0 : trunc ((9006924376834047 : ℚ) / 274877906944) = 32766 := by
    unfold trunc
    rw [if_pos (by norm_num), Int.floor_eq_iff]
    norm_num
  have t1 : trunc (-((9006924376834047 : ℚ) / 549755813888)) = -16383 := by
    unfold trunc
    rw [if_neg (by norm_num), Int.ceil_eq_iff]
    norm_num
  simp only [encoded_samples_double, hr, max_abs_49, norm_factor_double_49, List.map_cons,
    List.map_nil, h0, h1, scaled_double_49, scaled_double_m24, t0, t1]
  decide

theorem trunc_exact_49 :
    trunc (buffer_49 0 * 32767 / max_abs_scan buffer_49 2) = 32767 := by
  have h : buffer_49 0 * 32767 / max_abs_scan buffer_49 2 = ((32767 : Int) : ℚ) := by
    rw [max_abs_49]
    norm_num [buffer_49]
  rw [h, trunc_intCast]

/-- C6, as stated, fails in `double` arithmetic: for the buffer `[49.0, -24.5]`,
`max_abs = 49` and the truncation of `buffer[0] * 32767 / max_abs` is `32767`, but the code
rounds `32767 / 49` to a `double`, then rounds the product with `49.0` to
`32767 - 2^-38`, and encodes `32766`. -/
theorem C6_double_rounding_counterexample :
    ¬ ((encoded_samples_double buffer_49 2)[0]?
        = some (trunc (buffer_49 0 * 32767 / max_abs_scan buffer_49 2))) := by
  rw [encoded_double_49, trunc_exact_49]
  decide

theorem encoded_double_1_mhalf : encoded_samples_double buffer_1_mhalf 2 = [32767, -16383] := by
  have hr : List.range (2 : Int).toNat = [0, 1] := by decide
  have h0 : buffer_1_mhalf ((0 : Nat) : Int) = 1 := by norm_num [buffer_1_mhalf]
  have h1 : buffer_1_mhalf ((1 : Nat) : Int) = -1 / 2 := by norm_num [buffer_1_mhalf]
  have hnf : norm_factor_double (1 : ℚ) = 32767 := by
    unfold norm_factor_double
    rw [if_pos (by norm_num)]
    have h : ((MAX_AMPLITUDE : Int) : ℚ) / 1 = 32767 := by norm_num [MAX_AMPLITUDE]
    rw [h]
    exact round_to_double_near _ _ 14 (-38) 9006924376834048 (by norm_num) (by norm_num)
      (by norm_num) (by norm_num) (by norm_num) (by norm_num) (by norm_num) (by norm_num)
  have hp0 : round_to_double ((1 : ℚ) * 32767) = ((32767 : Int) : ℚ) :=
    round_to_double_near _ _ 14 (-38) 9006924376834048 (by norm_num) (by norm_num)
      (by norm_num) (by norm_num) (by norm_num) (by norm_num) (by norm_num) (by norm_num)
  have hp1 : round_to_double ((-1 / 2 : ℚ) * 32767) = (-1 / 2 : ℚ) * 32767 := by
    have h : (-1 / 2 : ℚ) * 32767 = -((32767 : ℚ) / 2) := by ring
    rw [h, round_to_double_neg _ (by norm_num)]
    congr 1
    exact round_to_double_near _ _ 13 (-39) 9006924376834048 (by norm_num) (by norm_num)
      (by norm_num) (by norm_num) (by norm_num) (by norm_num) (by norm_num) (by norm_num)
  simp only [encoded_samples_double, hr, max_abs_1_mhalf, hnf, List.map_cons, List.map_nil,
    h0, h1, hp0, hp1, trunc_intCast, trunc_mhalf]
  decide

/-! ## Interpolation in `double` arithmetic -/

theorem double_0_1_rounds : round_to_double ((1 : ℚ) / 10) = double_0_1 :=
  round_to_double_near _ _ (-4) (-56) 7205759403792794 (by norm_num) (by norm_num)
    (by norm_num) (by norm_num) (by norm_num) (by norm_num) (by norm_num)
    (by norm_num [double_0_1])

theorem weight_at_end : round_to_double ((((10 : Int) : ℚ)) / ((10 : Int) : ℚ)) = 1 :=
  round_to_double_near _ _ 0 (-52) 4503599627370496 (by norm_num) (by norm_num)
    (by norm_num) (by norm_num) (by norm_num) (by norm_num) (by norm_num) (by norm_num)

theorem difference_rounds_away :
    round_to_double (double_0_1 - 1 / 2) = -(7205759403792794 / 18014398509481984) := by
  have h : double_0_1 - 1 / 2 = -((14411518807585587 : ℚ) / 36028797018963968) := by
    norm_num [double_0_1]
  rw [h, round_to_double_neg _ (by norm_num)]
  congr 1
  rw [round_to_double_pos ((14411518807585587 : ℚ) / 36028797018963968) (-2) (-54)
    7205759403792794 (by norm_num) (by norm_num) (by norm_num) (by norm_num) (by norm_num)
    (by
      have hq : (14411518807585587 : ℚ) / 36028797018963968 / 2 ^ (-54 : Int)
          = ((7205759403792793 : Int) : ℚ) + 1 / 2 := by norm_num
      rw [hq, round_half_even_tie]
      decide)]
  norm_num

theorem product_at_end :
    round_to_double ((1 : ℚ) * -(7205759403792794 / 18014398509481984))
      = -(7205759403792794 / 18014398509481984) := by
  have h : (1 : ℚ) * -(7205759403792794 / 18014398509481984)
      = -((7205759403792794 : ℚ) / 18014398509481984) := by ring
  rw [h, round_to_double_neg _ (by norm_num)]
  congr 1
  exact round_to_double_near _ _ (-2) (-54) 7205759403792794 (by norm_num) (by norm_num)
    (by norm_num) (by norm_num) (by norm_num) (by norm_num) (by norm_num) (by norm_num)

theorem sum_at_end :
    round_to_double ((1 : ℚ) / 2 + -(7205759403792794 / 18014398509481984))
      = 900719925474099 / 9007199254740992 :=
  round_to_double_near _ _ (-4) (-56) 7205759403792792 (by norm_num) (by norm_num)
    (by norm_num) (by norm_num) (by norm_num) (by norm_num) (by norm_num) (by norm_num)

theorem lerp_double_undershoots :
    (interpolate_params_double (silence_with_AF (1 / 2)) (silence_with_AF double_0_1) 10 10).AF
      = 900719925474099 / 9007199254740992 := by
  have h : (interpolate_params_double (silence_with_AF (1 / 2)) (silence_with_AF double_0_1)
        10 10).AF
      = round_to_double ((1 : ℚ) / 2 + round_to_double
          (round_to_double ((((10 : Int) : ℚ)) / ((10 : Int) : ℚ))
            * round_to_double (double_0_1 - 1 / 2))) := rfl
  rw [h, weight_at_end, difference_rounds_away, product_at_end, sum_at_end]

theorem weight_9_10 :
    round_to_double ((((9 : Int) : ℚ)) / ((10 : Int) : ℚ))
      = 8106479329266893 / 9007199254740992 :=
  round_to_double_near _ _ (-1) (-53) 8106479329266893 (by norm_num) (by norm_num)
    (by norm_num) (by norm_num) (by norm_num) (by norm_num) (by norm_num) (by norm_num)

theorem difference_one_ulp :
    round_to_double ((1 : ℚ) + 1 / 4503599627370496 - 1) = 1 / 4503599627370496 :=
  round_to_double_near _ _ (-52) (-104) 4503599627370496 (by norm_num) (by norm_num)
    (by norm_num) (by norm_num) (by norm_num) (by norm_num) (by norm_num) (by norm_num)

theorem product_9_10 :
    round_to_double ((8106479329266893 : ℚ) / 9007199254740992 * (1 / 4503599627370496))
      = 8106479329266893 / 40564819207303340847894502572032 :=
  round_to_double_near _ _ (-53) (-105) 8106479329266893 (by norm_num) (by norm_num)
    (by norm_num) (by norm_num) (by norm_num) (by norm_num) (by norm_num) (by norm_num)

theorem sum_9_10 :
    round_to_double ((1 : ℚ) + 8106479329266893 / 40564819207303340847894502572032)
      = 1 + 1 / 4503599627370496 :=
  round_to_double_near _ _ 0 (-52) 4503599627370497 (by norm_num) (by norm_num)
    (by norm_num) (by norm_num) (by norm_num) (by norm_num) (by norm_num) (by norm_num)

theorem lerp_double_reaches_end :
    (interpolate_params_double (silence_with_AF 1) (silence_with_AF (1 + 1 / 4503599627370496))
        10 9).AF = 1 + 1 / 4503599627370496 := by
  have h : (interpolate_params_double (silence_with_AF 1)
        (silence_with_AF (1 + 1 / 4503599627370496)) 10 9).AF
      = round_to_double ((1 : ℚ) + round_to_double
          (round_to_double ((((9 : Int) : ℚ)) / ((10 : Int) : ℚ))
            * round_to_double ((1 : ℚ) + 1 / 4503599627370496 - 1))) := rfl
  rw [h, weight_9_10, difference_one_ulp, product_9_10, sum_9_10]

/-- C37, as stated, fails in `double` arithmetic, in both parts.  With `AF` going from
`0.5` to `0.1` (the `double` nearest to `1/10`), `N = 10` and `i = N`, the difference
`0.1 - 0.5` is rounded away from zero and the interpolated `AF` is
`0.09999999999999998`, below both endpoint values.  With `AF` going from `1` to
`1 + 2^-52`, `N = 10` and `i = 9 < N`, the sum is rounded up and the interpolated `AF`
equals the value of `p2` although `p1` and `p2` differ on that field. -/
theorem C37_double_rounding_counterexample :
    ¬ (min (silence_with_AF (1 / 2)).AF (silence_with_AF double_0_1).AF
        ≤ (interpolate_params_double (silence_with_AF (1 / 2)) (silence_with_AF double_0_1)
            10 10).AF)
    ∧ ¬ ((interpolate_params_double (silence_with_AF 1)
            (silence_with_AF (1 + 1 / 4503599627370496)) 10 9).AF
          = (silence_with_AF (1 + 1 / 4503599627370496)).AF
        → (silence_with_AF 1).AF = (silence_with_AF (1 + 1 / 4503599627370496)).AF) := by
  constructor
  · rw [lerp_double_undershoots]
    have h1 : (silence_with_AF (1 / 2)).AF = 1 / 2 := rfl
    have h2 : (silence_with_AF double_0_1).AF = double_0_1 := rfl
    rw [h1, h2]
    norm_num [double_0_1]
  · intro h
    have h1 : (silence_with_AF 1).AF = 1 := rfl
    have h2 : (silence_with_AF (1 + 1 / 4503599627370496)).AF = 1 + 1 / 4503599627370496 := rfl
    have h3 := h (lerp_double_reaches_end.trans h2.symm)
    rw [h1, h2] at h3
    norm_num at h3

/-! ## The pole radius in `double` arithmetic -/

theorem round_to_double_tiny [FloorRing α] (x : α) (hx : 0 < x)
    (h : x < (2 : α) ^ (-1075 : Int)) : round_to_double x = 0 := by
  have hlog : Int.log 2 |x| < -1075 := by
    apply (Int.lt_zpow_iff_log_lt (by norm_num) (abs_pos.mpr (ne_of_gt hx))).mp
    rw [abs_of_pos hx]
    simpa using h
  have hexp : double_exponent x = -1022 := by
    unfold double_exponent
    omega
  have hu : (0 : α) < (2 : α) ^ (-1074 : Int) := zpow_pos (by norm_num) _
  have hq : x / (2 : α) ^ (-1074 : Int) < 1 / 2 := by
    rw [div_lt_iff₀ hu]
    have : (2 : α) ^ (-1075 : Int) = 1 / 2 * (2 : α) ^ (-1074 : Int) := by
      rw [show (-1075 : Int) = -1074 - 1 from rfl, zpow_sub₀ (by norm_num), zpow_one]
      ring
    rw [← this]
    exact h
  have hq0 : 0 < x / (2 : α) ^ (-1074 : Int) := div_pos hx hu
  unfold round_to_double
  simp only [hexp]
  rw [if_pos (le_of_lt hx)]
  have hk : (-1022 - 52 : Int) = -1074 := rfl
  rw [hk, round_half_even_near _ 0 (by push_cast; linarith) (by push_cast; linarith)]
  simp

theorem exp_underflow (c : ℝ) (hc : 1963 ≤ c) : Real.exp (-c) < (2 : ℝ) ^ (-1075 : Int) := by
  have h2 : (2 : ℝ) ≤ Real.exp 1 := by
    have := Real.add_one_le_exp (1 : ℝ)
    linarith
  have h3 : (2 : ℝ) ^ 1963 ≤ Real.exp 1963 := by
    have : Real.exp 1963 = Real.exp 1 ^ 1963 := by
      rw [← Real.exp_nat_mul]
      norm_num
    rw [this]
    exact pow_le_pow_left₀ (by norm_num) h2 1963
  have h4 : Real.exp 1963 ≤ Real.exp c := Real.exp_le_exp.mpr hc
  have hpos : (0 : ℝ) < 2 ^ 1963 := by positivity
  rw [Real.exp_neg]
  have h5 : (Real.exp c)⁻¹ ≤ ((2 : ℝ) ^ 1963)⁻¹ := inv_anti₀ hpos (le_trans h3 h4)
  refine lt_of_le_of_lt h5 ?_
  rw [← zpow_natCast, ← zpow_neg]
  exact zpow_lt_zpow_right₀ (by norm_num) (by norm_num)

/-- In `double` arithmetic the stored radius is not always inside `(0, 1)`: with
`M_PI` the `double` nearest to `pi`, `exp` the real exponential rounded to `double`, and
`bandwidth = 1e7`, the argument of `exp` is the `double` `-1963.4954...` and `exp`
underflows, so `r = 0` and `a2 = r * r = 0`. -/
theorem radius_underflows_in_double :
    radius_double
        (LibM.mk (884279719003555 / 281474976710656)
          (fun x => round_to_double (Real.exp x)) Real.cos Real.sin)
        (10000000 : ℝ) = 0 := by
  have hdt : round_to_double (1 / (((SAMPLE_RATE : Int)) : ℝ)) = 4611686018427388 / 2 ^ 66 := by
    have h : (1 : ℝ) / ((SAMPLE_RATE : Int) : ℝ) = 1 / 16000 := by norm_num [SAMPLE_RATE]
    rw [h]
    exact round_to_double_near _ _ (-14) (-66) 4611686018427388 (by norm_num) (by norm_num)
      (by norm_num) (by norm_num) (by norm_num) (by norm_num) (by norm_num) (by norm_num)
  have h1 : round_to_double (-(884279719003555 / 281474976710656 : ℝ) * 10000000)
      = -(8433148565326262 / 2 ^ 28) := by
    have h : -(884279719003555 / 281474976710656 : ℝ) * 10000000
        = -((884279719003555 / 281474976710656 : ℝ) * 10000000) := by ring
    rw [h, round_to_double_neg _ (by norm_num)]
    congr 1
    exact round_to_double_near _ _ 24 (-28) 8433148565326262 (by norm_num) (by norm_num)
      (by norm_num) (by norm_num) (by norm_num) (by norm_num) (by norm_num) (by norm_num)
  have h2 : round_to_double (-(8433148565326262 / 2 ^ 28 : ℝ) * (4611686018427388 / 2 ^ 66))
      = -(8635544130894092 / 2 ^ 42) := by
    have h : -(8433148565326262 / 2 ^ 28 : ℝ) * (4611686018427388 / 2 ^ 66)
        = -((8433148565326262 / 2 ^ 28 : ℝ) * (4611686018427388 / 2 ^ 66)) := by ring
    rw [h, round_to_double_neg _ (by norm_num)]
    congr 1
    exact round_to_double_near _ _ 10 (-42) 8635544130894092 (by norm_num) (by norm_num)
      (by norm_num) (by norm_num) (by norm_num) (by norm_num) (by norm_num) (by norm_num)
  unfold radius_double
  simp only [hdt, h1, h2]
  exact round_to_double_tiny _ (Real.exp_pos _) (exp_underflow _ (by norm_num))

end Klatt
